import Mathlib

/-!
# UPnP database plugin (`src/db/UpnpDatabasePlugin.cxx`)

A shallow embedding of the UPnP database plugin of the media daemon: the
quoting of search values, the construction of UPnP search queries, the
synthetic song paths and the visitor entry points, together with the
properties of them that are established here.

Conventions of the embedding.

* `std::string` and `const char *` are `String`; a `std::list<std::string>`
  or `std::vector<T>` is a `List`.
* A method that returns `bool` and fills an `Error &` returns
  `Except Error`; an out-parameter that is filled on success is the value
  carried by `Except.ok`.
* Calls to the collaborators that are not part of this translation unit
  (the device directory, a content directory service, the visitor
  callbacks) are answered by the functions stored in the structures below
  and are recorded, in order, in a log of `Event`s.
* The table `upnp_tags` of `upnp/Tags.cxx` is a parameter of the methods
  that build a search query.
-/

namespace Upnp

/-! ## Strings -/

/-- The terminating byte of a C string. -/
def NUL : Char := Char.ofNat 0

/-- The characters a `const char *` reader sees: those before the first NUL. -/
def c_str : List Char → List Char
  | [] => []
  | c :: rest => if c = NUL then [] else c :: c_str rest

/-- The body of the `for` loop of `dquote`: walk the C string `inp` up to
its terminating NUL, pushing each character onto `out`, with a backslash in
front of a backslash or a double quote. -/
def dquoteLoop : String → List Char → String
  | out, [] => out
  | out, c :: rest =>
    if c = NUL then out
    else if c = '\\' ∨ c = '"' then dquoteLoop ((out.push '\\').push c) rest
    else dquoteLoop (out.push c) rest

/-- Double-quote a string, adding internal backslash escaping
(`dquote(std::string &out, const char *in)`); the result is the new value
of `out`. -/
def dquote (out : String) (inp : String) : String :=
  (dquoteLoop (out.push '"') inp.data).push '"'

/-! ### The escaping rule as the specification words it -/

/-- One character escaped as the specification says: a backslash or a double
quote gets one backslash in front, every other character is copied. -/
def escChar (c : Char) : List Char :=
  if c = '\\' ∨ c = '"' then ['\\', c] else [c]

/-- The escaped form of a value, character by character. -/
def esc : List Char → List Char
  | [] => []
  | c :: rest => escChar c ++ esc rest

/-- Replace every backslash-plus-character pair by that character. -/
def unescape : List Char → List Char
  | [] => []
  | [c] => [c]
  | c :: d :: rest =>
    if c = '\\' then d :: unescape rest else c :: unescape (d :: rest)

/-- Strip the outer quotes of a literal, then undo the escaping; `none` when
the text does not start and end with a double quote. -/
def unquote (lit : String) : Option String :=
  match lit.data with
  | [] => none
  | c :: rest =>
    if c = '"' ∧ rest.getLast? = some '"' then
      some (String.mk (unescape rest.dropLast))
    else none

/-- Scan the text that follows an opening quote, a backslash consuming the
character after it: the position of the first double quote that is not
escaped, or `none` when the text ends first (also on a dangling
backslash). -/
def closingQuote : List Char → Option Nat
  | [] => none
  | [c] => if c = '"' then some 0 else none
  | c :: d :: rest =>
    if c = '\\' then (closingQuote rest).map (· + 2)
    else if c = '"' then some 0
    else (closingQuote (d :: rest)).map (· + 1)

/-- Modelled from the spec: `stringToTokens(str, "/", true)` of
`upnp/Util.cxx`, which is not among the sources. A virtual path is
slash-separated and its segments are the non-empty pieces between the
slashes; `cur` holds the characters of the piece being read. -/
def tokensAux : List Char → List Char → List String
  | cur, [] => if cur = [] then [] else [String.mk cur]
  | cur, c :: rest =>
    if c = '/' then
      if cur = [] then tokensAux [] rest else String.mk cur :: tokensAux [] rest
    else tokensAux (cur ++ [c]) rest

/-- Modelled from the spec: the segments of a slash-separated virtual path
(`stringToTokens` of `upnp/Util.cxx`, not among the sources). -/
def stringToTokens (str : String) : List String :=
  tokensAux [] str.data

/-! ## Errors -/

/-- The error domains used in this file; `assertion` stands for a failed
`assert`, `other` for any domain of a collaborator. -/
inductive Domain
  | db_domain
  | upnp_domain
  | assertion
  | other (name : String)
  deriving DecidableEq, Repr

/-- An `Error`: domain, code and message. `Error::Format(domain, fmt)`
without a code sets the code 0. -/
structure Error where
  domain : Domain
  code : Nat
  message : String
  deriving DecidableEq, Repr

/-- Modelled from the spec: the code of the `NotFound` kind in the database
domain (`DatabaseError.hxx` is not among the sources). -/
def DB_NOT_FOUND : Nat := 1

/-! ## Data model -/

/-- Modelled from the spec: the tag fields a criterion or a metadata entry
can name (`tag/TagType.h` is not among the sources). -/
inductive TagType
  | TAG_ARTIST
  | TAG_ALBUM
  | TAG_ALBUM_ARTIST
  | TAG_TITLE
  | TAG_TRACK
  | TAG_NAME
  | TAG_GENRE
  | TAG_DATE
  | TAG_COMPOSER
  | TAG_PERFORMER
  | TAG_COMMENT
  | TAG_DISC
  deriving DecidableEq, Repr

/-- What `SongFilter::Item::GetTag` returns: a tag type or one of the
`LOCATE_TAG_*` values. -/
inductive LocateTag
  | tag (t : TagType)
  | LOCATE_TAG_BASE_TYPE
  | LOCATE_TAG_FILE_TYPE
  | LOCATE_TAG_ANY_TYPE
  deriving DecidableEq, Repr

/-- A `Tag`: the metadata of an object, as typed values. -/
structure Tag where
  items : List (TagType × String)
  deriving DecidableEq, Repr

/-- The `UPnPDirObject::Type` of an object. -/
inductive ObjType
  | UNKNOWN
  | ITEM
  | CONTAINER
  deriving DecidableEq, Repr

/-- The `UPnPDirObject::ItemClass` of an object. -/
inductive ItemClass
  | UNKNOWN
  | MUSIC
  | PLAYLIST
  deriving DecidableEq, Repr

/-- The fields of `UPnPDirObject` that this file reads. -/
structure UPnPDirObject where
  m_id : String
  m_pid : String
  url : String
  name : String
  type : ObjType
  item_class : ItemClass
  tag : Tag
  deriving DecidableEq, Repr

/-- An `UpnpSong` as its constructor builds it from an object and a path:
`uri` is the path, `real_uri` the object's `url`, `tag` the object's tag
(the remaining `LightSong` fields are constants). -/
structure UpnpSong where
  uri : String
  real_uri : String
  tag : Tag
  deriving DecidableEq, Repr

/-- The constructor `UpnpSong(UPnPDirObject &&object, std::string &&_uri)`. -/
def UpnpSong.ofObject (object : UPnPDirObject) (uri : String) : UpnpSong :=
  ⟨uri, object.url, object.tag⟩

/-- One criterion of a `SongFilter`: `GetTag`, `GetFoldCase`, `GetValue`. -/
structure SongFilterItem where
  tag : LocateTag
  fold_case : Bool
  value : String
  deriving DecidableEq, Repr

/-- A `SongFilter`: its items, and its `Match` on a song, which
`SongFilter.cxx` (not among the sources) decides. -/
structure SongFilter where
  items : List SongFilterItem
  matchSong : UpnpSong → Bool

/-- A `DatabaseSelection`: `uri`, `recursive` and the optional `filter`. -/
structure DatabaseSelection where
  uri : String
  recursive : Bool
  filter : Option SongFilter

/-- Modelled from the spec: `DatabaseSelection::Match`
(`DatabaseSelection.cxx` is not among the sources): without a filter every
song matches, otherwise the filter decides. -/
def DatabaseSelection.Match (selection : DatabaseSelection) (song : UpnpSong) : Bool :=
  match selection.filter with
  | none => true
  | some filter => filter.matchSong song

/-- A `ContentDirectoryService`: the display name of one server and the
answers of its four remote operations. -/
structure ContentDirectoryService where
  friendlyName : String
  getSearchCapabilities : Except Error (List String)
  search : String → String → Except Error (List UPnPDirObject)
  readDir : String → Except Error (List UPnPDirObject)
  getMetadata : String → Except Error (List UPnPDirObject)

/-- The `UPnPDeviceDirectory` behind `m_superdir`: the snapshot of known
servers and the lookup of one server by name. -/
structure UPnPDeviceDirectory where
  getDirServices : Except Error (List ContentDirectoryService)
  getServer : String → Except Error ContentDirectoryService

/-- A visitor callback: `none` is the null callback, otherwise the function
says for each argument whether the callback succeeds. -/
abbrev Visitor (α : Type) := Option (α → Except Error Unit)

/-! ## Calls and their log -/

/-- A call that leaves this translation unit: an operation of the device
directory or of a server, or the invocation of a visitor callback. -/
inductive Event
  | getDirServices
  | getServer (name : String)
  | getSearchCapabilities (server : String)
  | search (server : String) (objid : String) (cond : String)
  | readDir (server : String) (objid : String)
  | getMetadata (server : String) (objid : String)
  | visit_directory (uri : String)
  | visit_song (song : UpnpSong)
  | visit_playlist (uri : String)
  | visit_string (value : String)
  deriving DecidableEq, Repr

/-- The outcome of running a method: the calls it made, in order, and its
result. -/
structure Run (α : Type) where
  log : List Event
  res : Except Error α

/-- Return without a call. -/
def Run.ret {α : Type} (a : α) : Run α := ⟨[], Except.ok a⟩

/-- Fail without a call. -/
def Run.fail {α : Type} (e : Error) : Run α := ⟨[], Except.error e⟩

/-- Make one call, answered by `r`. -/
def Run.call {α : Type} (ev : Event) (r : Except Error α) : Run α := ⟨[ev], r⟩

/-- Sequencing: a failure of the first part ends the run (`return false`),
otherwise the second part runs after it. -/
def Run.andThen {α β : Type} (x : Run α) (f : α → Run β) : Run β :=
  match x.res with
  | Except.error e => ⟨x.log, Except.error e⟩
  | Except.ok a => ⟨x.log ++ (f a).log, (f a).res⟩

instance : Monad Run where
  pure := Run.ret
  bind := Run.andThen

/-- Is the event a remote operation of a server? -/
def Event.isRemote : Event → Bool
  | Event.getSearchCapabilities _ => true
  | Event.search _ _ _ => true
  | Event.readDir _ _ => true
  | Event.getMetadata _ _ => true
  | _ => false

/-- Is the event the invocation of a visitor callback? -/
def Event.isCallback : Event → Bool
  | Event.visit_directory _ => true
  | Event.visit_song _ => true
  | Event.visit_playlist _ => true
  | Event.visit_string _ => true
  | _ => false

/-! ## The methods of `UpnpDatabase` -/

/-- The root object id `rootid`. -/
def rootid : String := "0"

/-- Modelled from the spec: `tag_table_lookup` of `tag/TagTable.cxx` (not
among the sources) on a table of names and tag types: the name of the first
entry for the type; a `LOCATE_TAG_*` value is no tag type and has no
entry. -/
def tag_table_lookup (table : List (String × TagType)) (type : LocateTag) : Option String :=
  match type with
  | LocateTag.tag t => (table.find? (fun entry => entry.2 = t)).map (fun entry => entry.1)
  | _ => none

/-- Modelled from the spec: `UPnPDirContent::FindObject` of
`upnp/Directory.hxx` (not among the sources): a linear scan for the first
object whose name equals the segment. -/
def FindObject (objects : List UPnPDirObject) (name : String) : Option UPnPDirObject :=
  objects.find? (fun o => o.name = name)

/-- Modelled from the spec: `PathTraitsUTF8::Build` of `fs/Traits.cxx` (not
among the sources): parent path, a slash, child name. -/
def PathTraitsUTF8.Build (a b : String) : String :=
  a ++ "/" ++ b

/-- `UpnpDatabase::ReadNode`: take server and objid, return metadata. -/
def ReadNode (server : ContentDirectoryService) (objid : String) : Run UPnPDirObject := do
  let dirbuf ← Run.call (Event.getMetadata server.friendlyName objid) (server.getMetadata objid)
  match dirbuf with
  | [dirent] => pure dirent
  | _ => Run.fail ⟨Domain.upnp_domain, 0, "Bad resource"⟩

/-- The `for` loop of `UpnpDatabase::Namei`: `objid` is the directory being
read, `seg` the path element `*i`, `rest` the elements after it (`i == last`
when there are none). -/
def NameiLoop (server : ContentDirectoryService) :
    String → String → List String → Run UPnPDirObject
  | objid, seg, rest => do
    let dirbuf ← Run.call (Event.readDir server.friendlyName objid) (server.readDir objid)
    match FindObject dirbuf seg with
    | none => Run.fail ⟨Domain.db_domain, DB_NOT_FOUND, "No such object"⟩
    | some child =>
      match rest with
      | [] => pure child
      | next :: rest2 =>
        if child.type ≠ ObjType.CONTAINER then
          Run.fail ⟨Domain.db_domain, DB_NOT_FOUND, "Not a container"⟩
        else NameiLoop server child.m_id next rest2

/-- `UpnpDatabase::Namei`: take server and internal title pathname and
return objid and metadata. -/
def Namei (server : ContentDirectoryService) (vpath : List String) : Run UPnPDirObject :=
  match vpath with
  | [] => ReadNode server rootid
  | seg :: rest => NameiLoop server rootid seg rest

/-- The inner loop of the `LOCATE_TAG_ANY_TYPE` case: one comparison per
search capability, `first` telling whether the next one is the first. -/
def anyTypeLoop (item : SongFilterItem) : String → Bool → List String → String
  | cond, _, [] => cond
  | cond, first, cap :: caps =>
    let cond1 := if first then cond else cond ++ " or "
    let cond2 := cond1 ++ cap
    let cond3 := if item.fold_case then cond2 ++ " contains " else cond2 ++ " = "
    anyTypeLoop item (dquote cond3 item.value) false caps

/-- The loop of `SearchSongs` over the items of the filter, building the
search condition `cond`. -/
def condLoop (upnp_tags : List (String × TagType)) (searchcaps : List String) :
    String → List SongFilterItem → String
  | cond, [] => cond
  | cond, item :: items =>
    match item.tag with
    | LocateTag.LOCATE_TAG_ANY_TYPE =>
      let cond1 := if cond ≠ "" then cond ++ " and " else cond
      let cond2 := cond1.push '('
      let cond3 := anyTypeLoop item cond2 true searchcaps
      condLoop upnp_tags searchcaps (cond3.push ')') items
    | tag0 =>
      let tag := if tag0 = LocateTag.tag TagType.TAG_ALBUM_ARTIST
        then LocateTag.tag TagType.TAG_ARTIST else tag0
      match tag_table_lookup upnp_tags tag with
      | none => condLoop upnp_tags searchcaps cond items
      | some name =>
        let cond1 := if cond ≠ "" then cond ++ " and " else cond
        let cond2 := cond1 ++ name
        let cond3 := if item.fold_case then cond2 ++ " contains " else cond2 ++ " = "
        condLoop upnp_tags searchcaps (dquote cond3 item.value) items

/-- `UpnpDatabase::SearchSongs` with the `UPnPDirContent &dirbuf`
out-parameter: run an UPnP search according to the selection and return the
results as UPnP items. Both callers pass a freshly constructed, empty
`dirbuf`; the value returned is its content afterwards. -/
def SearchSongs_dirbuf (upnp_tags : List (String × TagType))
    (server : ContentDirectoryService) (objid : String)
    (selection : DatabaseSelection) : Run (List UPnPDirObject) :=
  match selection.filter with
  | none => pure []
  | some filter => do
    let searchcaps ← Run.call (Event.getSearchCapabilities server.friendlyName)
      server.getSearchCapabilities
    if searchcaps = [] then pure []
    else
      let cond := condLoop upnp_tags searchcaps "" filter.items
      Run.call (Event.search server.friendlyName objid cond) (server.search objid cond)

/-- The static `visitSong`: build the song and hand it to `visit_song` when
the callback is set and the selection matches. -/
def visitSong (object : UPnPDirObject) (path : String) (selection : DatabaseSelection)
    (visit_song : Visitor UpnpSong) : Run Unit :=
  match visit_song with
  | none => pure ()
  | some cb =>
    let song := UpnpSong.ofObject object path
    if selection.Match song then Run.call (Event.visit_song song) (cb song)
    else pure ()

/-- The static `songPath`: build synthetic path based on object id for
search results. -/
def songPath (servername objid : String) : String :=
  servername ++ "/" ++ rootid ++ "/" ++ objid

/-- The loop of the visiting `SearchSongs` over the search results. -/
def searchSongsLoop (server : ContentDirectoryService) (selection : DatabaseSelection)
    (visit_song : Visitor UpnpSong) : List UPnPDirObject → Run Unit
  | [] => pure ()
  | dirent :: rest =>
    if dirent.type ≠ ObjType.ITEM ∨ dirent.item_class ≠ ItemClass.MUSIC then
      searchSongsLoop server selection visit_song rest
    else do
      visitSong dirent (songPath server.friendlyName dirent.m_id) selection visit_song
      searchSongsLoop server selection visit_song rest

/-- `UpnpDatabase::SearchSongs` with the `VisitSong` parameter: run an UPnP
search according to the selection, and `visit_song` the results. -/
def SearchSongs (upnp_tags : List (String × TagType))
    (server : ContentDirectoryService) (objid : String)
    (selection : DatabaseSelection) (visit_song : Visitor UpnpSong) : Run Unit :=
  match visit_song with
  | none => pure ()
  | some _ => do
    let dirbuf ← SearchSongs_dirbuf upnp_tags server objid selection
    searchSongsLoop server selection visit_song dirbuf

/-- `UpnpDatabase::GetSong`: get song info by path, either the id path or
the titles one. -/
def GetSong (m_superdir : UPnPDeviceDirectory) (uri : String) : Run UpnpSong :=
  match stringToTokens uri with
  | [] => Run.fail ⟨Domain.db_domain, DB_NOT_FOUND, "No such song: " ++ uri⟩
  | [_] => Run.fail ⟨Domain.db_domain, DB_NOT_FOUND, "No such song: " ++ uri⟩
  | front :: second :: rest => do
    let server ← Run.call (Event.getServer front) (m_superdir.getServer front)
    let vpath := second :: rest
    let dirent ←
      if second ≠ rootid then Namei server vpath
      else ReadNode server (vpath.getLast (List.cons_ne_nil second rest))
    pure (UpnpSong.ofObject dirent uri)

/-- The loop of `VisitServer` over the children of the target container. A
child of type `UNKNOWN` hits `assert(false)`, which is rendered as a failure
in the `assertion` domain. -/
def visitServerLoop (selection : DatabaseSelection)
    (visit_directory : Visitor String) (visit_song : Visitor UpnpSong)
    (visit_playlist : Visitor String) : List UPnPDirObject → Run Unit
  | [] => pure ()
  | dirent :: rest =>
    match dirent.type with
    | ObjType.UNKNOWN => Run.fail ⟨Domain.assertion, 0, "assert(false)"⟩
    | ObjType.CONTAINER => do
      match visit_directory with
      | some cb =>
        let uri := PathTraitsUTF8.Build selection.uri dirent.name
        Run.call (Event.visit_directory uri) (cb uri)
      | none => pure ()
      visitServerLoop selection visit_directory visit_song visit_playlist rest
    | ObjType.ITEM =>
      match dirent.item_class with
      | ItemClass.MUSIC => do
        match visit_song with
        | some _ =>
          let p := if ¬ selection.recursive
            then PathTraitsUTF8.Build selection.uri dirent.name else ""
          visitSong dirent p selection visit_song
        | none => pure ()
        visitServerLoop selection visit_directory visit_song visit_playlist rest
      | ItemClass.PLAYLIST =>
        visitServerLoop selection visit_directory visit_song visit_playlist rest
      | ItemClass.UNKNOWN =>
        visitServerLoop selection visit_directory visit_song visit_playlist rest

/-- The part of `UpnpDatabase::VisitServer` after the test for a path that
begins with `rootid`: translate the target path into an object and visit
it. -/
def VisitServerTarget (upnp_tags : List (String × TagType))
    (server : ContentDirectoryService) (vpath : List String)
    (selection : DatabaseSelection)
    (visit_directory : Visitor String) (visit_song : Visitor UpnpSong)
    (visit_playlist : Visitor String) : Run Unit := do
  let tdirent ← Namei server vpath
  if selection.recursive ∧ selection.filter.isSome then
    SearchSongs upnp_tags server tdirent.m_id selection visit_song
  else if tdirent.type = ObjType.ITEM then
    match tdirent.item_class with
    | ItemClass.MUSIC =>
      match visit_song with
      | some _ => visitSong tdirent selection.uri selection visit_song
      | none => pure ()
    | ItemClass.PLAYLIST => pure ()
    | ItemClass.UNKNOWN => pure ()
  else do
    let dirbuf ← Run.call (Event.readDir server.friendlyName tdirent.m_id)
      (server.readDir tdirent.m_id)
    visitServerLoop selection visit_directory visit_song visit_playlist dirbuf

/-- `UpnpDatabase::VisitServer`; `vpath` is the parsed `selection.uri`
without the server name. -/
def VisitServer (upnp_tags : List (String × TagType))
    (server : ContentDirectoryService) (vpath : List String)
    (selection : DatabaseSelection)
    (visit_directory : Visitor String) (visit_song : Visitor UpnpSong)
    (visit_playlist : Visitor String) : Run Unit :=
  match vpath with
  | front :: rest =>
    if front = rootid then
      match visit_song with
      | some _ => do
        let dirent ← ReadNode server ((front :: rest).getLast (List.cons_ne_nil front rest))
        let path := songPath server.friendlyName dirent.m_id
        visitSong dirent path selection visit_song
      | none => pure ()
    else
      VisitServerTarget upnp_tags server vpath selection visit_directory visit_song
        visit_playlist
  | [] =>
    VisitServerTarget upnp_tags server vpath selection visit_directory visit_song
      visit_playlist

/-- The loop of `Visit` over the servers when the path is empty and
`recursive` is not set: one pseudo-directory per server. -/
def visitDirectoriesLoop (cb : String → Except Error Unit) :
    List ContentDirectoryService → Run Unit
  | [] => pure ()
  | server :: rest => do
    Run.call (Event.visit_directory server.friendlyName) (cb server.friendlyName)
    visitDirectoriesLoop cb rest

/-- The loop of `Visit` over the servers when the path is empty and
`recursive` is set: visit each server. -/
def visitServersLoop (upnp_tags : List (String × TagType)) (vpath : List String)
    (selection : DatabaseSelection)
    (visit_directory : Visitor String) (visit_song : Visitor UpnpSong)
    (visit_playlist : Visitor String) : List ContentDirectoryService → Run Unit
  | [] => pure ()
  | server :: rest => do
    VisitServer upnp_tags server vpath selection visit_directory visit_song visit_playlist
    visitServersLoop upnp_tags vpath selection visit_directory visit_song visit_playlist rest

/-- `UpnpDatabase::Visit`: deal with the possibly multiple servers, call
`VisitServer` if needed. -/
def Visit (upnp_tags : List (String × TagType)) (m_superdir : UPnPDeviceDirectory)
    (selection : DatabaseSelection)
    (visit_directory : Visitor String) (visit_song : Visitor UpnpSong)
    (visit_playlist : Visitor String) : Run Unit :=
  match stringToTokens selection.uri with
  | [] => do
    let servers ← Run.call Event.getDirServices m_superdir.getDirServices
    if ¬ selection.recursive then
      match visit_directory with
      | some cb => visitDirectoriesLoop cb servers
      | none => pure ()
    else
      visitServersLoop upnp_tags [] selection visit_directory visit_song visit_playlist servers
  | servername :: vpath => do
    let server ← Run.call (Event.getServer servername) (m_superdir.getServer servername)
    VisitServer upnp_tags server vpath selection visit_directory visit_song visit_playlist

/-- The `while` loop of `UpnpDatabase::BuildPath`: `pid` is the id to fetch
next and `path` the path built so far. `fuel` bounds the number of
iterations, which the source does not; the result is `none` when the loop
is still running after `fuel` iterations. -/
def BuildPathLoop (server : ContentDirectoryService) :
    Nat → String → String → Option (Run String)
  | 0, pid, path => if pid = rootid then some (Run.ret path) else none
  | fuel + 1, pid, path =>
    if pid = rootid then some (Run.ret path)
    else
      match (ReadNode server pid).res with
      | Except.error e => some ⟨(ReadNode server pid).log, Except.error e⟩
      | Except.ok dirent =>
        (BuildPathLoop server fuel dirent.m_pid
          (if path = "" then dirent.name
            else PathTraitsUTF8.Build dirent.name path)).map
          (fun rest => ⟨(ReadNode server pid).log ++ rest.log, rest.res⟩)

/-- `UpnpDatabase::BuildPath`: get the path for an object id, much like
`pwd`; the value returned is the out-parameter `path`. `none` when the loop
is still running after `fuel` iterations. -/
def BuildPath (server : ContentDirectoryService) (fuel : Nat) (idirent : UPnPDirObject) :
    Option (Run String) :=
  (BuildPathLoop server fuel idirent.m_id "").map
    (fun r => Run.andThen r
      (fun path => Run.ret (PathTraitsUTF8.Build server.friendlyName path)))

/-- Modelled from the spec: `Tag::GetValue` of `tag/Tag.cxx` (not among the
sources), the `metadata.get(field)` of the specification: the value of the
first entry of the tag for the type, if there is one. -/
def Tag.GetValue (tag : Tag) (type : TagType) : Option String :=
  (tag.items.find? (fun item => item.1 = type)).map (fun item => item.2)

/-- Insert a value into the increasing list of the elements of a
`std::set<std::string>`, before the first element that is greater. -/
def insertSorted (value : String) : List String → List String
  | [] => [value]
  | x :: rest => if value < x then value :: x :: rest else x :: insertSorted value rest

/-- The effect of `values.emplace(value)` on a `std::set<std::string>`, kept as the list of
its elements in increasing order: nothing when the value is an element
already, an insertion in order otherwise. -/
def setInsert (values : List String) (value : String) : List String :=
  if value ∈ values then values else insertSorted value values

/-- The inner loop of `VisitUniqueTags` over the results of one server: the
value of the tag of every music item is put into the set `values`. -/
def collectLoop (tag : TagType) : List String → List UPnPDirObject → List String
  | values, [] => values
  | values, dirent :: rest =>
    if dirent.type ≠ ObjType.ITEM ∨ dirent.item_class ≠ ItemClass.MUSIC then
      collectLoop tag values rest
    else
      match dirent.tag.GetValue tag with
      | some value => collectLoop tag (setInsert values value) rest
      | none => collectLoop tag values rest

/-- The loop of `VisitUniqueTags` over the servers: search each server below
the root id with a fresh `dirbuf` and collect the values of its results. -/
def uniqueTagsServersLoop (upnp_tags : List (String × TagType))
    (selection : DatabaseSelection) (tag : TagType) :
    List String → List ContentDirectoryService → Run (List String)
  | values, [] => pure values
  | values, server :: rest => do
    let dirbuf ← SearchSongs_dirbuf upnp_tags server rootid selection
    uniqueTagsServersLoop upnp_tags selection tag (collectLoop tag values dirbuf) rest

/-- The last loop of `VisitUniqueTags`: hand each value of the set to the
callback. -/
def visitStringsLoop (cb : String → Except Error Unit) : List String → Run Unit
  | [] => pure ()
  | value :: rest => do
    Run.call (Event.visit_string value) (cb value)
    visitStringsLoop cb rest

/-- `UpnpDatabase::VisitUniqueTags`. -/
def VisitUniqueTags (upnp_tags : List (String × TagType)) (m_superdir : UPnPDeviceDirectory)
    (selection : DatabaseSelection) (tag : TagType) (visit_string : Visitor String) :
    Run Unit :=
  match visit_string with
  | none => pure ()
  | some cb => do
    let servers ← Run.call Event.getDirServices m_superdir.getDirServices
    let values ← uniqueTagsServersLoop upnp_tags selection tag [] servers
    visitStringsLoop cb values

/-- The fields of `DatabaseStats` that `GetStats` writes. -/
structure DatabaseStats where
  song_count : Nat
  total_duration : Nat
  artist_count : Nat
  album_count : Nat
  deriving DecidableEq, Repr

/-- `UpnpDatabase::GetStats`: the four assignments to `stats`, one after the
other; the value returned is the content of `stats` afterwards. -/
def GetStats (_selection : DatabaseSelection) (stats : DatabaseStats) : Run DatabaseStats :=
  let stats1 : DatabaseStats :=
    ⟨0, stats.total_duration, stats.artist_count, stats.album_count⟩
  let stats2 : DatabaseStats :=
    ⟨stats1.song_count, 0, stats1.artist_count, stats1.album_count⟩
  let stats3 : DatabaseStats :=
    ⟨stats2.song_count, stats2.total_duration, 0, stats2.album_count⟩
  let stats4 : DatabaseStats :=
    ⟨stats3.song_count, stats3.total_duration, stats3.artist_count, 0⟩
  pure stats4

/-! ## The query language as the specification words it -/

/-- The strings of a list, separated by `sep`. -/
def joinSep (sep : String) : List String → String
  | [] => ""
  | [a] => a
  | a :: b :: rest => a ++ sep ++ joinSep sep (b :: rest)

/-- The comparison operator: `contains` when `fold_case` is set, else `=`. -/
def compOp (fold_case : Bool) : String :=
  if fold_case then " contains " else " = "

/-- One comparison: the field name, the operator and the quoted value. -/
def comparison (name : String) (fold_case : Bool) (value : String) : String :=
  name ++ compOp fold_case ++ dquote "" value

/-- The translation of an `AnyField` criterion: the parenthesized
disjunction of one comparison per advertised field. -/
def anyFieldQuery (fields : List String) (fold_case : Bool) (value : String) : String :=
  "(" ++ joinSep " or " (fields.map (fun f => comparison f fold_case value)) ++ ")"

/-- The field a concrete criterion is looked up under: the album artist
stands for the artist, every other field for itself. -/
def lookupTag (tag : LocateTag) : LocateTag :=
  if tag = LocateTag.tag TagType.TAG_ALBUM_ARTIST then LocateTag.tag TagType.TAG_ARTIST
  else tag

/-- The translation of one criterion: an `AnyField` criterion gives the
disjunction over the fields, a concrete criterion the comparison under the
name that the table has for its lookup field, and nothing when the table has
no such entry. -/
def criterionQuery (upnp_tags : List (String × TagType)) (fields : List String)
    (item : SongFilterItem) : Option String :=
  if item.tag = LocateTag.LOCATE_TAG_ANY_TYPE then
    some (anyFieldQuery fields item.fold_case item.value)
  else
    (tag_table_lookup upnp_tags (lookupTag item.tag)).map
      (fun name => comparison name item.fold_case item.value)

/-- The translation of one criterion with the table consulted for the
criterion's own field. -/
def criterionQueryOwnField (upnp_tags : List (String × TagType)) (fields : List String)
    (item : SongFilterItem) : Option String :=
  if item.tag = LocateTag.LOCATE_TAG_ANY_TYPE then
    some (anyFieldQuery fields item.fold_case item.value)
  else
    (tag_table_lookup upnp_tags item.tag).map
      (fun name => comparison name item.fold_case item.value)

/-! ## Search results as the specification words them -/

/-- Is the object an item of the music class? -/
def isMusicItem (dirent : UPnPDirObject) : Bool :=
  decide (dirent.type = ObjType.ITEM ∧ dirent.item_class = ItemClass.MUSIC)

/-- The song that the visiting `SearchSongs` builds for a search result: the
object under the synthetic path of its own id. -/
def resultSong (server : ContentDirectoryService) (dirent : UPnPDirObject) : UpnpSong :=
  UpnpSong.ofObject dirent (songPath server.friendlyName dirent.m_id)

/-- The elements of a result sequence that are yielded: the music items
whose song passes the selection's match, in the order of the sequence. -/
def yielded (server : ContentDirectoryService) (selection : DatabaseSelection)
    (results : List UPnPDirObject) : List UPnPDirObject :=
  results.filter (fun d => isMusicItem d && selection.Match (resultSong server d))

/-- The songs that a result sequence yields. -/
def resultSongs (server : ContentDirectoryService) (selection : DatabaseSelection)
    (results : List UPnPDirObject) : List UpnpSong :=
  (yielded server selection results).map (resultSong server)

/-- The arguments a callback is invoked with when it is offered the elements
of a list in order and the iteration stops at its first failure. -/
def callsUntilFailure {α : Type} (cb : α → Except Error Unit) : List α → List α
  | [] => []
  | a :: rest =>
    match cb a with
    | Except.ok _ => a :: callsUntilFailure cb rest
    | Except.error _ => [a]

/-- The result of that iteration: the first failure of the callback, or
success. -/
def firstFailure {α : Type} (cb : α → Except Error Unit) : List α → Except Error Unit
  | [] => Except.ok ()
  | a :: rest =>
    match cb a with
    | Except.ok _ => firstFailure cb rest
    | Except.error e => Except.error e

/-- The run of a direct lookup: fetch the metadata of `objid` with
`ReadNode` and hand the object to `visitSong` under the synthetic path of its
id. -/
def directFetch (server : ContentDirectoryService) (selection : DatabaseSelection)
    (cb : UpnpSong → Except Error Unit) (objid : String) : Run Unit :=
  Run.andThen (ReadNode server objid)
    (fun dirent =>
      visitSong dirent (songPath server.friendlyName dirent.m_id) selection (some cb))

/-! ## Path resolution as the specification words it -/

/-- Descend from the directory `objid` along the segments `pre`, each of
which has to be matched, in the listing of the directory reached so far, by
a child that is a Container: the ids of the directories listed, in order,
and the id of the directory reached. `none` when a listing fails, a segment
has no match or the match is no Container. -/
def descend (server : ContentDirectoryService) :
    String → List String → Option (List String × String)
  | objid, [] => some ([], objid)
  | objid, seg :: rest =>
    match server.readDir objid with
    | Except.error _ => none
    | Except.ok dirbuf =>
      match FindObject dirbuf seg with
      | none => none
      | some child =>
        if child.type = ObjType.CONTAINER then
          (descend server child.m_id rest).map (fun r => (objid :: r.1, r.2))
        else none

/-- The by-id fetch of a server is consistent with its child listing: each
node listed under the container `X` has the parent id `X`, and fetching it
by its id returns exactly one node, with the same name and parent id. -/
def Consistent (server : ContentDirectoryService) : Prop :=
  ∀ X dirbuf, server.readDir X = Except.ok dirbuf → ∀ o ∈ dirbuf,
    o.m_pid = X ∧
    ∃ fetched, server.getMetadata o.m_id = Except.ok [fetched] ∧
      fetched.name = o.name ∧ fetched.m_pid = o.m_pid

/-- No listing of the server contains a node with the root id `0`. -/
def RootIdNotListed (server : ContentDirectoryService) : Prop :=
  ∀ X dirbuf, server.readDir X = Except.ok dirbuf → ∀ o ∈ dirbuf, o.m_id ≠ "0"

/-! ## Listing a container as the specification words it -/

/-- What listing a container does for one child: a Container child is handed
to the directory callback under the path of the selection, a slash and the
child's name; a music item whose song passes the selection's match is handed
to the item callback, under that same kind of path when the selection is not
recursive and under the empty path when it is; every other child, and every
child whose callback is null, is skipped. The event is paired with the
answer of the callback. -/
def childCall (selection : DatabaseSelection) (visit_directory : Visitor String)
    (visit_song : Visitor UpnpSong) (child : UPnPDirObject) :
    Option (Event × Except Error Unit) :=
  match child.type with
  | ObjType.CONTAINER =>
    visit_directory.map (fun cb =>
      (Event.visit_directory (selection.uri ++ "/" ++ child.name),
        cb (selection.uri ++ "/" ++ child.name)))
  | ObjType.ITEM =>
    if child.item_class = ItemClass.MUSIC then
      match visit_song with
      | some cb =>
        if selection.Match (UpnpSong.ofObject child
            (if selection.recursive then "" else selection.uri ++ "/" ++ child.name)) then
          some (Event.visit_song (UpnpSong.ofObject child
              (if selection.recursive then "" else selection.uri ++ "/" ++ child.name)),
            cb (UpnpSong.ofObject child
              (if selection.recursive then "" else selection.uri ++ "/" ++ child.name)))
        else none
      | none => none
    else none
  | ObjType.UNKNOWN => none

/-! ## Unique tag values as the specification words them -/

/-- The calls of the searches of `VisitUniqueTags` on a list of servers, one
server after the other. -/
def searchesLog (upnp_tags : List (String × TagType)) (selection : DatabaseSelection) :
    List ContentDirectoryService → List Event
  | [] => []
  | server :: rest =>
    (SearchSongs_dirbuf upnp_tags server rootid selection).log ++
      searchesLog upnp_tags selection rest

/-- The string `value` is the value of the tag `tag` of a music item among
the search results, rooted at the root id, of one of the servers. -/
def IsTagValue (upnp_tags : List (String × TagType)) (selection : DatabaseSelection)
    (tag : TagType) (servers : List ContentDirectoryService) (value : String) : Prop :=
  ∃ server ∈ servers, ∃ results,
    (SearchSongs_dirbuf upnp_tags server rootid selection).res = Except.ok results ∧
    ∃ r ∈ results, r.type = ObjType.ITEM ∧ r.item_class = ItemClass.MUSIC ∧
      r.tag.GetValue tag = some value

/-! ## Failures of remote calls as the specification words them -/

/-- The error of an answer, if the answer is an error. -/
def errorOf {α : Type} : Except Error α → Option Error
  | Except.error e => some e
  | Except.ok _ => none

/-- The error with which the server answers the remote call that the event
records, if it answers with an error; `none` for an event that is no remote
call. -/
def failureOf (server : ContentDirectoryService) : Event → Option Error
  | Event.getSearchCapabilities _ => errorOf server.getSearchCapabilities
  | Event.search _ objid cond => errorOf (server.search objid cond)
  | Event.readDir _ objid => errorOf (server.readDir objid)
  | Event.getMetadata _ objid => errorOf (server.getMetadata objid)
  | _ => none

/-- A run on a server stops at a failing remote call: whenever a call in its
log is answered by the server with an error, that call is the last event of
the log and the run fails with that same error. -/
def FailStop {α : Type} (server : ContentDirectoryService) (r : Run α) : Prop :=
  ∀ pre ev post e, r.log = pre ++ ev :: post → failureOf server ev = some e →
    post = [] ∧ r.res = Except.error e

/-- The calls of `VisitServer` with the empty path on a list of servers, one
server after the other. -/
def visitsLog (upnp_tags : List (String × TagType)) (selection : DatabaseSelection)
    (visit_directory : Visitor String) (visit_song : Visitor UpnpSong)
    (visit_playlist : Visitor String) : List ContentDirectoryService → List Event
  | [] => []
  | server :: rest =>
    (VisitServer upnp_tags server [] selection visit_directory visit_song visit_playlist).log ++
      visitsLog upnp_tags selection visit_directory visit_song visit_playlist rest

/-! ## Parent chains as the specification words them -/

/-- The parent chain that starts with the by-id fetch of `pid` reaches the
root id `0` after exactly `d` fetches: each of the `d` ids on the way is not
`0` and is fetched as exactly one node, whose parent id is the next id of
the chain, and the id after the last fetch is `0`. -/
def ReachesRoot (server : ContentDirectoryService) : String → Nat → Prop
  | pid, 0 => pid = "0"
  | pid, d + 1 =>
    pid ≠ "0" ∧
    ∃ node, server.getMetadata pid = Except.ok [node] ∧ ReachesRoot server node.m_pid d

/-- Is the event the capability query or the search call of a server? -/
def Event.isSearch : Event → Bool
  | Event.getSearchCapabilities _ => true
  | Event.search _ _ _ => true
  | _ => false

/-! ## Sample data -/

/-- A lookup table with entries for artist, album, track, genre and title. -/
def sample_upnp_tags : List (String × TagType) :=
  [("upnp:artist", TagType.TAG_ARTIST), ("upnp:album", TagType.TAG_ALBUM),
   ("upnp:originalTrackNumber", TagType.TAG_TRACK), ("upnp:genre", TagType.TAG_GENRE),
   ("dc:title", TagType.TAG_TITLE)]

/-- A music item with id `XYZ123`. -/
def sampleSong : UPnPDirObject :=
  ⟨"XYZ123", "7", "http://stereo/1.mp3", "Satisfaction", ObjType.ITEM, ItemClass.MUSIC,
    ⟨[(TagType.TAG_ARTIST, "Stones")]⟩⟩

/-- A music item with id `a/b`. -/
def sampleSlashSong : UPnPDirObject :=
  ⟨"a/b", "7", "http://stereo/2.mp3", "Angie", ObjType.ITEM, ItemClass.MUSIC,
    ⟨[(TagType.TAG_ARTIST, "Stones")]⟩⟩

/-- A container with id `7`. -/
def sampleContainer : UPnPDirObject :=
  ⟨"7", "0", "", "Music", ObjType.CONTAINER, ItemClass.UNKNOWN, ⟨[]⟩⟩

/-- A playlist item. -/
def samplePlaylist : UPnPDirObject :=
  ⟨"P1", "7", "http://stereo/p.m3u", "Mix", ObjType.ITEM, ItemClass.PLAYLIST, ⟨[]⟩⟩

/-- The error of a server that has no such object. -/
def noSuchObject : Error := ⟨Domain.other "upnp-server", 701, "No such object"⟩

/-- A server named `Stereo` that advertises the fields `A` and `B`, answers
every search with a container, the two music items and a playlist item, and
knows the ids `XYZ123`, `a/b` and `7`. -/
def stereo : ContentDirectoryService :=
  ⟨"Stereo", Except.ok ["A", "B"],
    fun _ _ => Except.ok [sampleContainer, sampleSong, samplePlaylist, sampleSlashSong],
    fun objid =>
      if objid = "0" then Except.ok [sampleContainer]
      else if objid = "7" then Except.ok [sampleSong, samplePlaylist, sampleSlashSong]
      else Except.error noSuchObject,
    fun objid =>
      if objid = "XYZ123" then Except.ok [sampleSong]
      else if objid = "a/b" then Except.ok [sampleSlashSong]
      else if objid = "7" then Except.ok [sampleContainer]
      else Except.error noSuchObject⟩

/-- A music item with id `b`, another song than the one with id `a/b`. -/
def sampleOtherSong : UPnPDirObject :=
  ⟨"b", "7", "http://twins/3.mp3", "Brown Sugar", ObjType.ITEM, ItemClass.MUSIC,
    ⟨[(TagType.TAG_ARTIST, "Stones")]⟩⟩

/-- A server named `Twins` that advertises the field `A`, answers every
search with the music item `a/b`, and knows the ids `a/b`, `b` and `7`. -/
def twins : ContentDirectoryService :=
  ⟨"Twins", Except.ok ["A"],
    fun _ _ => Except.ok [sampleSlashSong],
    fun objid =>
      if objid = "0" then Except.ok [sampleContainer]
      else if objid = "7" then Except.ok [sampleSlashSong, sampleOtherSong]
      else Except.error noSuchObject,
    fun objid =>
      if objid = "a/b" then Except.ok [sampleSlashSong]
      else if objid = "b" then Except.ok [sampleOtherSong]
      else if objid = "7" then Except.ok [sampleContainer]
      else Except.error noSuchObject⟩

/-- A device directory that knows `Twins` only. -/
def twinsDirectory : UPnPDeviceDirectory :=
  ⟨Except.ok [twins],
    fun name =>
      if name = "Twins" then Except.ok twins
      else Except.error ⟨Domain.upnp_domain, 0, "Server not found"⟩⟩

/-- A server named `Radio` that advertises no searchable field. -/
def radio : ContentDirectoryService :=
  ⟨"Radio", Except.ok [], fun _ _ => Except.ok [sampleSong],
    fun _ => Except.ok [], fun _ => Except.error noSuchObject⟩

/-- A device directory that knows `Stereo` and `Radio`. -/
def sampleDirectory : UPnPDeviceDirectory :=
  ⟨Except.ok [stereo, radio],
    fun name =>
      if name = "Stereo" then Except.ok stereo
      else if name = "Radio" then Except.ok radio
      else Except.error ⟨Domain.upnp_domain, 0, "Server not found"⟩⟩

/-- A filter with one `AnyField` criterion for `v`, matching every song. -/
def sampleFilter : SongFilter :=
  ⟨[⟨LocateTag.LOCATE_TAG_ANY_TYPE, false, "v"⟩], fun _ => true⟩

/-- A visitor callback that accepts everything. -/
def acceptAll {α : Type} : α → Except Error Unit := fun _ => Except.ok ()

/-- A server named `Shelf` whose root lists the container `Music` (id `7`),
which lists the song `Satisfaction` (id `XYZ123`); both are fetched by
their ids. -/
def shelf : ContentDirectoryService :=
  ⟨"Shelf", Except.ok ["A"],
    fun _ _ => Except.ok [sampleSong],
    fun objid =>
      if objid = "0" then Except.ok [sampleContainer]
      else if objid = "7" then Except.ok [sampleSong]
      else Except.error noSuchObject,
    fun objid =>
      if objid = "XYZ123" then Except.ok [sampleSong]
      else if objid = "7" then Except.ok [sampleContainer]
      else Except.error noSuchObject⟩

/-- The error of a server that cannot be reached. -/
def unreachable : Error := ⟨Domain.other "upnp-client", 1, "Connection refused"⟩

/-- A server named `Attic` whose every remote call fails. -/
def attic : ContentDirectoryService :=
  ⟨"Attic", Except.error unreachable, fun _ _ => Except.error unreachable,
    fun _ => Except.error unreachable, fun _ => Except.error unreachable⟩

/-- A device directory that knows `Stereo` and, after it, `Attic`. -/
def atticDirectory : UPnPDeviceDirectory :=
  ⟨Except.ok [stereo, attic],
    fun name =>
      if name = "Stereo" then Except.ok stereo
      else if name = "Attic" then Except.ok attic
      else Except.error ⟨Domain.upnp_domain, 0, "Server not found"⟩⟩

/-- A node with id `a` whose parent id is `b`. -/
def carouselA : UPnPDirObject :=
  ⟨"a", "b", "", "A", ObjType.CONTAINER, ItemClass.UNKNOWN, ⟨[]⟩⟩

/-- A node with id `b` whose parent id is `a`. -/
def carouselB : UPnPDirObject :=
  ⟨"b", "a", "", "B", ObjType.CONTAINER, ItemClass.UNKNOWN, ⟨[]⟩⟩

/-- A server named `Carousel` on which the nodes `a` and `b` are each
other's parent, so that their parent chain never reaches the root id. -/
def carousel : ContentDirectoryService :=
  ⟨"Carousel", Except.ok [], fun _ _ => Except.ok [],
    fun _ => Except.ok [],
    fun objid =>
      if objid = "a" then Except.ok [carouselA]
      else if objid = "b" then Except.ok [carouselB]
      else Except.error noSuchObject⟩

/-- The root node of the server `Cellar`. -/
def cellarRoot : UPnPDirObject :=
  ⟨"0", "-1", "", "root", ObjType.CONTAINER, ItemClass.UNKNOWN, ⟨[]⟩⟩

/-- A server named `Cellar` whose root is fetched by the id `0` and lists
the container `Music` (id `7`), which lists the song `Satisfaction`. -/
def cellar : ContentDirectoryService :=
  ⟨"Cellar", Except.ok ["A"],
    fun _ _ => Except.ok [sampleSong],
    fun objid =>
      if objid = "0" then Except.ok [sampleContainer]
      else if objid = "7" then Except.ok [sampleSong]
      else Except.error noSuchObject,
    fun objid =>
      if objid = "0" then Except.ok [cellarRoot]
      else if objid = "7" then Except.ok [sampleContainer]
      else if objid = "XYZ123" then Except.ok [sampleSong]
      else Except.error noSuchObject⟩

/-- A device directory that knows `Cellar`. -/
def cellarDirectory : UPnPDeviceDirectory :=
  ⟨Except.ok [cellar],
    fun name =>
      if name = "Cellar" then Except.ok cellar
      else Except.error ⟨Domain.upnp_domain, 0, "Server not found"⟩⟩

/-! ## Properties of `dquote` -/

theorem c_str_of_no_NUL (v : List Char) (hv : ∀ c ∈ v, c ≠ NUL) : c_str v = v := by
  induction v with
  | nil => rfl
  | cons c rest ih =>
    have hc : c ≠ NUL := hv c (List.mem_cons_self _ _)
    have hr : ∀ d ∈ rest, d ≠ NUL := fun d hd => hv d (List.mem_cons_of_mem _ hd)
    show (if c = NUL then [] else c :: c_str rest) = c :: rest
    rw [if_neg hc, ih hr]

theorem dquoteLoop_eq (out : String) (v : List Char) :
    dquoteLoop out v = out ++ String.mk (esc (c_str v)) := by
  induction v generalizing out with
  | nil => exact String.ext (by simp [dquoteLoop, esc, c_str])
  | cons c rest ih =>
    unfold dquoteLoop
    by_cases hc : c = NUL
    · rw [if_pos hc]
      exact String.ext (by simp [esc, c_str, hc])
    · rw [if_neg hc]
      by_cases h : c = '\\' ∨ c = '"'
      · rw [if_pos h, ih]
        exact String.ext (by simp [esc, escChar, c_str, hc, h])
      · rw [if_neg h, ih]
        exact String.ext (by simp [esc, escChar, c_str, hc, h])

theorem dquote_data (out v : String) :
    (dquote out v).data = out.data ++ '"' :: (esc (c_str v.data) ++ ['"']) := by
  unfold dquote
  rw [dquoteLoop_eq]
  simp

theorem dquote_append (out v : String) : dquote out v = out ++ dquote "" v := by
  apply String.ext
  rw [String.data_append, dquote_data, dquote_data]
  rfl

theorem unescape_esc (v : List Char) : unescape (esc v) = v := by
  induction v with
  | nil => rfl
  | cons c rest ih =>
    by_cases h : c = '\\' ∨ c = '"'
    · simp [esc, escChar, h, unescape, ih]
    · have h1 : c ≠ '\\' := fun e => h (Or.inl e)
      have he : esc (c :: rest) = c :: esc rest := by
        show escChar c ++ esc rest = c :: esc rest
        unfold escChar
        rw [if_neg h]
        rfl
      rw [he]
      cases hr : esc rest with
      | nil =>
        have : rest = [] := by rw [← ih, hr]; rfl
        rw [this]
        rfl
      | cons d tl =>
        rw [hr] at ih
        show (if c = '\\' then d :: unescape tl else c :: unescape (d :: tl)) = c :: rest
        rw [if_neg h1, ih]

theorem closingQuote_esc (v : List Char) :
    closingQuote (esc v ++ ['"']) = some (esc v).length := by
  induction v with
  | nil => rfl
  | cons c rest ih =>
    by_cases h : c = '\\' ∨ c = '"'
    · have he : esc (c :: rest) = '\\' :: c :: esc rest := by
        show escChar c ++ esc rest = _
        unfold escChar
        rw [if_pos h]
        rfl
      rw [he]
      show (if '\\' = '\\' then (closingQuote (esc rest ++ ['"'])).map (· + 2) else _) = _
      rw [if_pos rfl, ih]
      rfl
    · have h1 : c ≠ '\\' := fun e => h (Or.inl e)
      have h2 : c ≠ '"' := fun e => h (Or.inr e)
      have he : esc (c :: rest) = c :: esc rest := by
        show escChar c ++ esc rest = _
        unfold escChar
        rw [if_neg h]
        rfl
      rw [he]
      cases hr : esc rest ++ ['"'] with
      | nil => simp at hr
      | cons d tl =>
        show closingQuote (c :: (esc rest ++ ['"'])) = _
        rw [hr]
        show (if c = '\\' then _ else if c = '"' then _
          else (closingQuote (d :: tl)).map (· + 1)) = _
        rw [if_neg h1, if_neg h2, ← hr, ih]
        rfl

theorem unquote_dquote (v : String) (hv : ∀ c ∈ v.data, c ≠ NUL) :
    unquote (dquote "" v) = some v := by
  unfold unquote
  rw [dquote_data, c_str_of_no_NUL _ hv]
  simp [unescape_esc]

/-- C1. For a value without NUL, `dquote` appends exactly the opening quote,
the escaped value and the closing quote; unquoting the emitted literal gives
the value back; and two values with the same literal are equal. -/
theorem dquote_escapes_and_round_trips (out v : String)
    (hv : ∀ c ∈ v.data, c ≠ NUL) :
    dquote out v = out ++ "\"" ++ String.mk (esc v.data) ++ "\"" ∧
    unquote (dquote "" v) = some v ∧
    ∀ w : String, (∀ c ∈ w.data, c ≠ NUL) → dquote out w = dquote out v → w = v := by
  refine ⟨?_, unquote_dquote v hv, ?_⟩
  · apply String.ext
    rw [dquote_data, c_str_of_no_NUL _ hv]
    simp
  · intro w hw h
    have h1 : dquote "" w = dquote "" v := by
      rw [dquote_append out w, dquote_append out v] at h
      apply String.ext
      have := congrArg String.data h
      simpa using this
    have h2 := unquote_dquote w hw
    rw [h1, unquote_dquote v hv] at h2
    exact (Option.some.inj h2).symm

/-- C1 at the value `a"b\c`, which holds a quote and a backslash. -/
theorem dquote_escapes_and_round_trips_witness :
    dquote "q=" "a\"b\\c" = "q=" ++ "\"" ++ String.mk (esc "a\"b\\c".data) ++ "\"" ∧
    unquote (dquote "" "a\"b\\c") = some "a\"b\\c" ∧
    ∀ w : String, (∀ c ∈ w.data, c ≠ NUL) →
      dquote "q=" w = dquote "q=" "a\"b\\c" → w = "a\"b\\c" :=
  dquote_escapes_and_round_trips "q=" "a\"b\\c" (by decide)

/-- C2. The literal emitted by `dquote` starts with a double quote, and a
scan of what follows it, a backslash consuming the next character, meets its
first unescaped double quote at the last character of the literal. -/
theorem dquote_closes_only_at_its_end (out v : String) :
    dquote out v = out ++ dquote "" v ∧
    (dquote "" v).data.head? = some '"' ∧
    2 ≤ (dquote "" v).length ∧
    closingQuote (dquote "" v).data.tail = some ((dquote "" v).length - 2) := by
  refine ⟨dquote_append out v, ?_, ?_, ?_⟩
  · rw [dquote_data]; rfl
  · rw [String.length, dquote_data]; simp
  · rw [String.length, dquote_data]
    simp [closingQuote_esc]

/-! ## Running methods -/

theorem Run.call_andThen_ok {α β : Type} (ev : Event) (r : Except Error α) (a : α)
    (f : α → Run β) (h : r = Except.ok a) :
    Run.andThen (Run.call ev r) f = ⟨ev :: (f a).log, (f a).res⟩ := by
  subst h
  rfl

theorem Run.call_andThen_error {α β : Type} (ev : Event) (r : Except Error α) (e : Error)
    (f : α → Run β) (h : r = Except.error e) :
    Run.andThen (Run.call ev r) f = ⟨[ev], Except.error e⟩ := by
  subst h
  rfl

/-! ## Query construction -/

theorem anyTypeLoop_cons (item : SongFilterItem) (cond : String) (first : Bool)
    (cap : String) (caps : List String) :
    anyTypeLoop item cond first (cap :: caps) =
      anyTypeLoop item
        ((if first then cond else cond ++ " or ") ++
          comparison cap item.fold_case item.value) false caps := by
  show anyTypeLoop item (dquote _ item.value) false caps = _
  rw [dquote_append]
  congr 1
  unfold comparison compOp
  cases item.fold_case <;> simp [String.append_assoc]

theorem anyTypeLoop_false (item : SongFilterItem) (caps : List String) :
    ∀ (cond cap : String),
      anyTypeLoop item (cond ++ comparison cap item.fold_case item.value) false caps =
        cond ++ joinSep " or "
          ((cap :: caps).map (fun f => comparison f item.fold_case item.value)) := by
  induction caps with
  | nil => intro cond cap; rfl
  | cons d ds ih =>
    intro cond cap
    rw [anyTypeLoop_cons]
    simp only [Bool.false_eq_true, if_false]
    rw [ih]
    simp [joinSep, String.append_assoc]

theorem anyTypeLoop_true (item : SongFilterItem) (cond : String) (caps : List String) :
    anyTypeLoop item cond true caps =
      cond ++ joinSep " or " (caps.map (fun f => comparison f item.fold_case item.value)) := by
  cases caps with
  | nil => simp [anyTypeLoop, joinSep]
  | cons cap caps =>
    rw [anyTypeLoop_cons]
    simp only [if_true]
    exact anyTypeLoop_false item caps cond cap

theorem condLoop_any (upnp_tags : List (String × TagType)) (caps : List String)
    (cond : String) (item : SongFilterItem) (items : List SongFilterItem)
    (h : item.tag = LocateTag.LOCATE_TAG_ANY_TYPE) :
    condLoop upnp_tags caps cond (item :: items) =
      condLoop upnp_tags caps
        ((if cond ≠ "" then cond ++ " and " else cond) ++
          anyFieldQuery caps item.fold_case item.value) items := by
  rw [condLoop]
  simp only [h]
  rw [anyTypeLoop_true]
  congr 1
  apply String.ext
  simp [anyFieldQuery]

/-- C3. A filter of one `AnyField` criterion is translated, for a server with
a non-empty list of fields, to the parenthesized disjunction of one
comparison per field, in the advertised order and with the same quoted value
in each; that text is the query sent to the search operation. For the fields
`[A, B]` without `fold_case` it is `(A = "v" or B = "v")`. -/
theorem anyField_criterion_translation (upnp_tags : List (String × TagType))
    (server : ContentDirectoryService) (objid uri : String) (recursive : Bool)
    (matchSong : UpnpSong → Bool) (fields : List String) (v : String) (fold_case : Bool)
    (hcaps : server.getSearchCapabilities = Except.ok fields) (hne : fields ≠ []) :
    condLoop upnp_tags fields "" [⟨LocateTag.LOCATE_TAG_ANY_TYPE, fold_case, v⟩] =
      "(" ++ joinSep " or "
        (fields.map (fun f => f ++ (if fold_case then " contains " else " = ")
          ++ dquote "" v)) ++ ")" ∧
    SearchSongs_dirbuf upnp_tags server objid
        ⟨uri, recursive, some ⟨[⟨LocateTag.LOCATE_TAG_ANY_TYPE, fold_case, v⟩], matchSong⟩⟩ =
      ⟨[Event.getSearchCapabilities server.friendlyName,
        Event.search server.friendlyName objid (anyFieldQuery fields fold_case v)],
       server.search objid (anyFieldQuery fields fold_case v)⟩ ∧
    ∀ A B : String, anyFieldQuery [A, B] false v =
      "(" ++ A ++ " = " ++ dquote "" v ++ " or " ++ B ++ " = " ++ dquote "" v ++ ")" := by
  have hq : condLoop upnp_tags fields ""
      [⟨LocateTag.LOCATE_TAG_ANY_TYPE, fold_case, v⟩] = anyFieldQuery fields fold_case v := by
    rw [condLoop_any _ _ _ _ _ rfl]
    simp [condLoop]
  refine ⟨?_, ?_, ?_⟩
  · rw [hq]; rfl
  · show Run.andThen (Run.call _ server.getSearchCapabilities) _ = _
    rw [Run.call_andThen_ok _ _ _ _ hcaps]
    simp only [if_neg hne, hq]
    rfl
  · intro A B
    simp [anyFieldQuery, joinSep, comparison, compOp, String.append_assoc]

/-- C3 on the server `Stereo`, which advertises the fields `A` and `B`. -/
theorem anyField_criterion_translation_witness :
    stereo.getSearchCapabilities = Except.ok ["A", "B"] ∧ ["A", "B"] ≠ ([] : List String) ∧
    condLoop sample_upnp_tags ["A", "B"] "" [⟨LocateTag.LOCATE_TAG_ANY_TYPE, false, "v"⟩] =
      "(A = \"v\" or B = \"v\")" :=
  ⟨rfl, by decide,
    (anyField_criterion_translation sample_upnp_tags stereo "0" "" true (fun _ => true)
      ["A", "B"] "v" false rfl (by decide)).1.trans (by decide)⟩

/-- C4. When the capability query of a server succeeds with no searchable
field and the selection carries a filter, `SearchSongs` succeeds with an
empty result after that one query: the search operation is not invoked and,
in the visiting form, no callback either. -/
theorem no_search_capability_gives_empty_result (upnp_tags : List (String × TagType))
    (server : ContentDirectoryService) (objid : String) (selection : DatabaseSelection)
    (filter : SongFilter) (hfilter : selection.filter = some filter)
    (hcaps : server.getSearchCapabilities = Except.ok []) :
    SearchSongs_dirbuf upnp_tags server objid selection =
      ⟨[Event.getSearchCapabilities server.friendlyName], Except.ok []⟩ ∧
    ∀ cb : UpnpSong → Except Error Unit,
      SearchSongs upnp_tags server objid selection (some cb) =
        ⟨[Event.getSearchCapabilities server.friendlyName], Except.ok ()⟩ := by
  have h : SearchSongs_dirbuf upnp_tags server objid selection =
      ⟨[Event.getSearchCapabilities server.friendlyName], Except.ok []⟩ := by
    unfold SearchSongs_dirbuf
    rw [hfilter]
    show Run.andThen (Run.call _ server.getSearchCapabilities) _ = _
    rw [Run.call_andThen_ok _ _ _ _ hcaps]
    rfl
  refine ⟨h, fun cb => ?_⟩
  show Run.andThen (SearchSongs_dirbuf upnp_tags server objid selection) _ = _
  rw [h]
  rfl

/-- C4 on the server `Radio`, which advertises no searchable field. -/
theorem no_search_capability_gives_empty_result_witness :
    (SearchSongs_dirbuf sample_upnp_tags radio "0" ⟨"Radio", true, some sampleFilter⟩).res =
      Except.ok [] ∧
    (SearchSongs sample_upnp_tags radio "0" ⟨"Radio", true, some sampleFilter⟩
      (some acceptAll)).log = [Event.getSearchCapabilities "Radio"] :=
  have h := no_search_capability_gives_empty_result sample_upnp_tags radio "0"
    ⟨"Radio", true, some sampleFilter⟩ sampleFilter rfl rfl
  ⟨congrArg Run.res h.1, congrArg Run.log (h.2 acceptAll)⟩

theorem condLoop_cons (upnp_tags : List (String × TagType)) (caps : List String)
    (cond : String) (item : SongFilterItem) (items : List SongFilterItem) :
    condLoop upnp_tags caps cond (item :: items) =
      condLoop upnp_tags caps
        (match criterionQuery upnp_tags caps item with
          | some q => (if cond ≠ "" then cond ++ " and " else cond) ++ q
          | none => cond) items := by
  by_cases h : item.tag = LocateTag.LOCATE_TAG_ANY_TYPE
  · rw [condLoop_any _ _ _ _ _ h]
    simp [criterionQuery, h]
  · have hq : criterionQuery upnp_tags caps item =
        (tag_table_lookup upnp_tags (lookupTag item.tag)).map
          (fun name => comparison name item.fold_case item.value) := by
      simp [criterionQuery, h]
    rw [hq, condLoop]
    · cases hl : tag_table_lookup upnp_tags (lookupTag item.tag) with
      | none =>
        simp only [lookupTag] at hl
        simp [hl]
      | some name =>
        simp only [lookupTag] at hl
        simp only [hl, Option.map_some']
        rw [dquote_append]
        congr 1
        unfold comparison compOp
        cases item.fold_case <;> simp [String.append_assoc]

theorem String.append_ne_empty_right (a b : String) (hb : b ≠ "") : a ++ b ≠ "" := by
  intro h
  apply hb
  have h2 := congrArg String.length h
  rw [String.length_append] at h2
  apply String.ext
  have h3 : b.length = 0 := by
    have : ("" : String).length = 0 := rfl
    omega
  exact List.length_eq_zero.mp h3

theorem String.append_ne_empty_left (a b : String) (ha : a ≠ "") : a ++ b ≠ "" := by
  intro h
  apply ha
  have h2 := congrArg String.length h
  rw [String.length_append] at h2
  apply String.ext
  have h3 : a.length = 0 := by
    have : ("" : String).length = 0 := rfl
    omega
  exact List.length_eq_zero.mp h3

theorem criterionQuery_ne_empty (upnp_tags : List (String × TagType)) (fields : List String)
    (item : SongFilterItem) (q : String)
    (h : criterionQuery upnp_tags fields item = some q) : q ≠ "" := by
  unfold criterionQuery at h
  split at h
  · rw [← Option.some.inj h]
    unfold anyFieldQuery
    rw [String.append_assoc]
    exact String.append_ne_empty_left _ _ (by decide)
  · cases hl : tag_table_lookup upnp_tags (lookupTag item.tag) with
    | none => rw [hl] at h; cases h
    | some name =>
      rw [hl] at h
      rw [← Option.some.inj h]
      unfold comparison
      apply String.append_ne_empty_left
      apply String.append_ne_empty_right
      unfold compOp
      cases item.fold_case <;> decide

theorem joinSep_merge (sep a b : String) (rest : List String) :
    joinSep sep ((a ++ sep ++ b) :: rest) = joinSep sep (a :: b :: rest) := by
  cases rest with
  | nil => rfl
  | cons c rest => simp [joinSep, String.append_assoc]

theorem condLoop_nonempty (upnp_tags : List (String × TagType)) (caps : List String)
    (items : List SongFilterItem) :
    ∀ cond : String, cond ≠ "" →
      condLoop upnp_tags caps cond items =
        joinSep " and " (cond :: items.filterMap (criterionQuery upnp_tags caps)) := by
  induction items with
  | nil => intro cond _; rfl
  | cons item items ih =>
    intro cond hc
    rw [condLoop_cons]
    cases hq : criterionQuery upnp_tags caps item with
    | none =>
      simp only [List.filterMap_cons, hq]
      exact ih cond hc
    | some q =>
      simp only [List.filterMap_cons, hq, if_pos hc]
      rw [ih _ (String.append_ne_empty_left _ _ (String.append_ne_empty_left _ _ hc))]
      exact joinSep_merge _ _ _ _

theorem condLoop_empty (upnp_tags : List (String × TagType)) (caps : List String)
    (items : List SongFilterItem) :
    condLoop upnp_tags caps "" items =
      joinSep " and " (items.filterMap (criterionQuery upnp_tags caps)) := by
  induction items with
  | nil => rfl
  | cons item items ih =>
    rw [condLoop_cons]
    cases hq : criterionQuery upnp_tags caps item with
    | none =>
      simp only [List.filterMap_cons, hq]
      exact ih
    | some q =>
      simp only [List.filterMap_cons, hq]
      have hne : q ≠ "" := criterionQuery_ne_empty _ _ _ _ hq
      have h0 : (if ("" : String) ≠ "" then "" ++ " and " else "") ++ q = q := by
        simp
      rw [h0]
      exact condLoop_nonempty _ _ _ _ hne

/-- C8, as the code has it. For a server that advertises at least one field,
the query passed to the search operation is the translations of the
criteria, in filter order and separated by exactly ` and `, where a concrete
criterion is looked up in the table under its lookup field (the artist for
an album-artist criterion, its own field otherwise) and translates to the
name, the operator and the quoted value; a criterion without an entry adds
nothing, and a filter of such criteria alone sends the empty query. -/
theorem search_query_is_conjunction_of_translations
    (upnp_tags : List (String × TagType)) (server : ContentDirectoryService)
    (objid : String) (selection : DatabaseSelection) (filter : SongFilter)
    (fields : List String) (hfilter : selection.filter = some filter)
    (hcaps : server.getSearchCapabilities = Except.ok fields) (hne : fields ≠ []) :
    SearchSongs_dirbuf upnp_tags server objid selection =
      ⟨[Event.getSearchCapabilities server.friendlyName,
        Event.search server.friendlyName objid
          (joinSep " and " (filter.items.filterMap (criterionQuery upnp_tags fields)))],
       server.search objid
          (joinSep " and " (filter.items.filterMap (criterionQuery upnp_tags fields)))⟩ ∧
    (∀ item ∈ filter.items, item.tag ≠ LocateTag.LOCATE_TAG_ANY_TYPE →
      criterionQuery upnp_tags fields item =
        (tag_table_lookup upnp_tags (lookupTag item.tag)).map
          (fun name => name ++ (if item.fold_case then " contains " else " = ")
            ++ dquote "" item.value)) ∧
    ((∀ item ∈ filter.items, criterionQuery upnp_tags fields item = none) →
      SearchSongs_dirbuf upnp_tags server objid selection =
        ⟨[Event.getSearchCapabilities server.friendlyName,
          Event.search server.friendlyName objid ""], server.search objid ""⟩) := by
  have hmain : SearchSongs_dirbuf upnp_tags server objid selection =
      ⟨[Event.getSearchCapabilities server.friendlyName,
        Event.search server.friendlyName objid
          (joinSep " and " (filter.items.filterMap (criterionQuery upnp_tags fields)))],
       server.search objid
          (joinSep " and " (filter.items.filterMap (criterionQuery upnp_tags fields)))⟩ := by
    unfold SearchSongs_dirbuf
    rw [hfilter]
    show Run.andThen (Run.call _ server.getSearchCapabilities) _ = _
    rw [Run.call_andThen_ok _ _ _ _ hcaps]
    simp only [if_neg hne, condLoop_empty]
    rfl
  refine ⟨hmain, ?_, ?_⟩
  · intro item _ hany
    simp [criterionQuery, hany, comparison, compOp]
  · intro hall
    rw [hmain]
    have : filter.items.filterMap (criterionQuery upnp_tags fields) = [] := by
      rw [List.filterMap_eq_nil_iff]
      exact hall
    rw [this]
    rfl

/-- C8 as stated fails: for an album-artist criterion, a field without an
entry in the table, the code sends the comparison under the artist's name,
where the translation by the criterion's own field is the empty query. -/
theorem album_artist_criterion_is_not_dropped :
    tag_table_lookup sample_upnp_tags (LocateTag.tag TagType.TAG_ALBUM_ARTIST) = none ∧
    joinSep " and " ([(⟨LocateTag.tag TagType.TAG_ALBUM_ARTIST, false, "v"⟩ :
      SongFilterItem)].filterMap (criterionQueryOwnField sample_upnp_tags ["A", "B"])) = "" ∧
    (SearchSongs_dirbuf sample_upnp_tags stereo "0"
      ⟨"Stereo", true,
        some ⟨[⟨LocateTag.tag TagType.TAG_ALBUM_ARTIST, false, "v"⟩], fun _ => true⟩⟩).log =
      [Event.getSearchCapabilities "Stereo",
       Event.search "Stereo" "0" "upnp:artist = \"v\""] := by
  decide

/-- C8 (as the code has it) on `Stereo` with a filter of an `AnyField`
criterion, an album-artist criterion, a date criterion and an album
criterion. -/
theorem search_query_is_conjunction_of_translations_witness :
    stereo.getSearchCapabilities = Except.ok ["A", "B"] ∧
    (SearchSongs_dirbuf sample_upnp_tags stereo "0"
      ⟨"Stereo", true,
        some ⟨[⟨LocateTag.LOCATE_TAG_ANY_TYPE, true, "v"⟩,
               ⟨LocateTag.tag TagType.TAG_ALBUM_ARTIST, false, "x"⟩,
               ⟨LocateTag.tag TagType.TAG_DATE, false, "1969"⟩,
               ⟨LocateTag.tag TagType.TAG_ALBUM, true, "y"⟩], fun _ => true⟩⟩).log =
      [Event.getSearchCapabilities "Stereo",
       Event.search "Stereo" "0"
        "(A contains \"v\" or B contains \"v\") and upnp:artist = \"x\" and upnp:album contains \"y\""] :=
  ⟨rfl,
    (congrArg Run.log (search_query_is_conjunction_of_translations sample_upnp_tags stereo "0"
      ⟨"Stereo", true,
        some ⟨[⟨LocateTag.LOCATE_TAG_ANY_TYPE, true, "v"⟩,
               ⟨LocateTag.tag TagType.TAG_ALBUM_ARTIST, false, "x"⟩,
               ⟨LocateTag.tag TagType.TAG_DATE, false, "1969"⟩,
               ⟨LocateTag.tag TagType.TAG_ALBUM, true, "y"⟩], fun _ => true⟩⟩
      _ ["A", "B"] rfl rfl (by decide)).1).trans (by decide)⟩

/-! ## Visiting search results -/

theorem Run.andThen_ok {α β : Type} (x : Run α) (a : α) (f : α → Run β)
    (h : x.res = Except.ok a) :
    Run.andThen x f = ⟨x.log ++ (f a).log, (f a).res⟩ := by
  unfold Run.andThen
  rw [h]

theorem Run.andThen_error {α β : Type} (x : Run α) (e : Error) (f : α → Run β)
    (h : x.res = Except.error e) :
    Run.andThen x f = ⟨x.log, Except.error e⟩ := by
  unfold Run.andThen
  rw [h]

theorem visitSong_some (object : UPnPDirObject) (path : String)
    (selection : DatabaseSelection) (cb : UpnpSong → Except Error Unit) :
    visitSong object path selection (some cb) =
      if selection.Match (UpnpSong.ofObject object path) then
        ⟨[Event.visit_song (UpnpSong.ofObject object path)],
          cb (UpnpSong.ofObject object path)⟩
      else ⟨[], Except.ok ()⟩ := by
  show (if selection.Match (UpnpSong.ofObject object path) then
      Run.call (Event.visit_song (UpnpSong.ofObject object path))
        (cb (UpnpSong.ofObject object path))
    else pure ()) = _
  split <;> rfl

theorem searchSongsLoop_eq (server : ContentDirectoryService)
    (selection : DatabaseSelection) (cb : UpnpSong → Except Error Unit)
    (results : List UPnPDirObject) :
    searchSongsLoop server selection (some cb) results =
      ⟨(callsUntilFailure cb (resultSongs server selection results)).map Event.visit_song,
        firstFailure cb (resultSongs server selection results)⟩ := by
  induction results with
  | nil => rfl
  | cons d rest ih =>
    unfold searchSongsLoop
    by_cases hm : d.type ≠ ObjType.ITEM ∨ d.item_class ≠ ItemClass.MUSIC
    · rw [if_pos hm, ih]
      have : isMusicItem d = false := by
        unfold isMusicItem
        rw [decide_eq_false_iff_not]
        intro h
        cases hm with
        | inl h1 => exact h1 h.1
        | inr h2 => exact h2 h.2
      simp [resultSongs, yielded, List.filter_cons, this]
    · rw [if_neg hm]
      have hmusic : isMusicItem d = true := by
        unfold isMusicItem
        rw [decide_eq_true_iff]
        constructor
        · by_contra h1; exact hm (Or.inl h1)
        · by_contra h2; exact hm (Or.inr h2)
      show Run.andThen (visitSong d _ selection (some cb)) _ = _
      rw [visitSong_some, ih]
      by_cases hsel : selection.Match
          (UpnpSong.ofObject d (songPath server.friendlyName d.m_id)) = true
      · rw [if_pos hsel]
        have hr : resultSongs server selection (d :: rest) =
            UpnpSong.ofObject d (songPath server.friendlyName d.m_id) ::
              resultSongs server selection rest := by
          simp [resultSongs, yielded, resultSong, List.filter_cons, hmusic, hsel]
        rw [hr]
        cases hcb : cb (UpnpSong.ofObject d (songPath server.friendlyName d.m_id)) with
        | error e =>
          rw [Run.andThen_error _ e _ rfl]
          simp [callsUntilFailure, firstFailure, hcb]
        | ok u =>
          rw [Run.andThen_ok _ u _ rfl]
          simp [callsUntilFailure, firstFailure, hcb]
      · rw [if_neg hsel]
        have hr : resultSongs server selection (d :: rest) =
            resultSongs server selection rest := by
          simp [resultSongs, yielded, resultSong, List.filter_cons, hmusic, hsel]
        rw [hr]
        rfl

theorem callsUntilFailure_of_ok {α : Type} (cb : α → Except Error Unit) (l : List α)
    (h : ∀ a ∈ l, cb a = Except.ok ()) :
    callsUntilFailure cb l = l ∧ firstFailure cb l = Except.ok () := by
  induction l with
  | nil => exact ⟨rfl, rfl⟩
  | cons a rest ih =>
    have ha := h a (List.mem_cons_self _ _)
    have hr := ih (fun b hb => h b (List.mem_cons_of_mem _ hb))
    simp [callsUntilFailure, firstFailure, ha, hr.1, hr.2]

theorem callsUntilFailure_subset {α : Type} (cb : α → Except Error Unit) (l : List α) :
    ∀ a ∈ callsUntilFailure cb l, a ∈ l := by
  induction l with
  | nil => intro a ha; cases ha
  | cons b rest ih =>
    intro a ha
    unfold callsUntilFailure at ha
    split at ha
    · cases ha with
      | head => exact List.mem_cons_self _ _
      | tail _ h => exact List.mem_cons_of_mem _ (ih a h)
    · cases ha with
      | head => exact List.mem_cons_self _ _
      | tail _ h => cases h

theorem SearchSongs_dirbuf_ok (upnp_tags : List (String × TagType))
    (server : ContentDirectoryService) (objid : String) (selection : DatabaseSelection)
    (filter : SongFilter) (fields : List String) (results : List UPnPDirObject)
    (hfilter : selection.filter = some filter)
    (hcaps : server.getSearchCapabilities = Except.ok fields) (hne : fields ≠ [])
    (hsearch : server.search objid
      (joinSep " and " (filter.items.filterMap (criterionQuery upnp_tags fields))) =
        Except.ok results) :
    SearchSongs_dirbuf upnp_tags server objid selection =
      ⟨[Event.getSearchCapabilities server.friendlyName,
        Event.search server.friendlyName objid
          (joinSep " and " (filter.items.filterMap (criterionQuery upnp_tags fields)))],
       Except.ok results⟩ := by
  unfold SearchSongs_dirbuf
  rw [hfilter]
  show Run.andThen (Run.call _ server.getSearchCapabilities) _ = _
  rw [Run.call_andThen_ok _ _ _ _ hcaps]
  simp only [if_neg hne, condLoop_empty]
  rw [← hsearch]
  rfl

/-- C9. When the search of the server succeeds with the sequence `results`,
the visiting `SearchSongs` offers to the item callback, after the capability
query and the search, the songs of the yielded elements of `results` (the
music items that pass the selection's match), in the order of `results`, and
stops at the first failure of the callback; with a callback that never fails
these are all of the yielded elements. No other callback is invoked and no
other element of `results` reaches a callback. -/
theorem search_results_visited_are_matching_music_items
    (upnp_tags : List (String × TagType)) (server : ContentDirectoryService)
    (objid : String) (selection : DatabaseSelection) (filter : SongFilter)
    (fields : List String) (results : List UPnPDirObject)
    (cb : UpnpSong → Except Error Unit)
    (hfilter : selection.filter = some filter)
    (hcaps : server.getSearchCapabilities = Except.ok fields) (hne : fields ≠ [])
    (hsearch : server.search objid
      (joinSep " and " (filter.items.filterMap (criterionQuery upnp_tags fields))) =
        Except.ok results) :
    SearchSongs upnp_tags server objid selection (some cb) =
      ⟨[Event.getSearchCapabilities server.friendlyName,
        Event.search server.friendlyName objid
          (joinSep " and " (filter.items.filterMap (criterionQuery upnp_tags fields)))] ++
        (callsUntilFailure cb
          ((results.filter (fun d => decide (d.type = ObjType.ITEM ∧
              d.item_class = ItemClass.MUSIC) &&
              selection.Match (resultSong server d))).map (resultSong server))).map
          Event.visit_song,
       firstFailure cb (resultSongs server selection results)⟩ ∧
    ((∀ song, cb song = Except.ok ()) →
      SearchSongs upnp_tags server objid selection (some cb) =
        ⟨[Event.getSearchCapabilities server.friendlyName,
          Event.search server.friendlyName objid
            (joinSep " and " (filter.items.filterMap (criterionQuery upnp_tags fields)))] ++
          ((results.filter (fun d => decide (d.type = ObjType.ITEM ∧
              d.item_class = ItemClass.MUSIC) &&
              selection.Match (resultSong server d))).map (resultSong server)).map
            Event.visit_song,
         Except.ok ()⟩) := by
  have hmain : SearchSongs upnp_tags server objid selection (some cb) =
      ⟨[Event.getSearchCapabilities server.friendlyName,
        Event.search server.friendlyName objid
          (joinSep " and " (filter.items.filterMap (criterionQuery upnp_tags fields)))] ++
        (callsUntilFailure cb (resultSongs server selection results)).map Event.visit_song,
       firstFailure cb (resultSongs server selection results)⟩ := by
    show Run.andThen (SearchSongs_dirbuf upnp_tags server objid selection) _ = _
    rw [SearchSongs_dirbuf_ok upnp_tags server objid selection filter fields results
      hfilter hcaps hne hsearch]
    rw [Run.andThen_ok _ results _ rfl, searchSongsLoop_eq]
  refine ⟨hmain, fun hcb => ?_⟩
  rw [hmain]
  have h := callsUntilFailure_of_ok cb (resultSongs server selection results)
    (fun a _ => hcb a)
  rw [h.1, h.2]
  rfl

/-- C9 on `Stereo`, whose search answers with a container, two music items
and a playlist item: the two music items are visited. -/
theorem search_results_visited_are_matching_music_items_witness :
    stereo.search "0" "(A = \"v\" or B = \"v\")" =
      Except.ok [sampleContainer, sampleSong, samplePlaylist, sampleSlashSong] ∧
    (SearchSongs sample_upnp_tags stereo "0" ⟨"Stereo", true, some sampleFilter⟩
      (some acceptAll)).log =
      [Event.getSearchCapabilities "Stereo",
       Event.search "Stereo" "0" "(A = \"v\" or B = \"v\")",
       Event.visit_song (resultSong stereo sampleSong),
       Event.visit_song (resultSong stereo sampleSlashSong)] :=
  ⟨rfl,
    (congrArg Run.log ((search_results_visited_are_matching_music_items sample_upnp_tags
      stereo "0" ⟨"Stereo", true, some sampleFilter⟩ sampleFilter ["A", "B"]
      [sampleContainer, sampleSong, samplePlaylist, sampleSlashSong] acceptAll
      rfl rfl (by decide) rfl).2 (fun _ => rfl))).trans (by decide)⟩

theorem SearchSongs_dirbuf_shape (upnp_tags : List (String × TagType))
    (server : ContentDirectoryService) (objid : String) (selection : DatabaseSelection) :
    ∃ q : String,
      (SearchSongs_dirbuf upnp_tags server objid selection).log <+:
        [Event.getSearchCapabilities server.friendlyName,
         Event.search server.friendlyName objid q] ∧
      ∀ results, (SearchSongs_dirbuf upnp_tags server objid selection).res =
          Except.ok results →
        results = [] ∨ server.search objid q = Except.ok results := by
  unfold SearchSongs_dirbuf
  cases hf : selection.filter with
  | none =>
    refine ⟨"", ⟨_, List.nil_append _⟩, fun results h => Or.inl ?_⟩
    cases h
    rfl
  | some filter =>
    show ∃ q : String, (Run.andThen (Run.call _ server.getSearchCapabilities) _).log <+: _ ∧
      ∀ results, (Run.andThen (Run.call _ server.getSearchCapabilities) _).res = _ → _
    cases hc : server.getSearchCapabilities with
    | error e =>
      refine ⟨"", ⟨[Event.search server.friendlyName objid ""], rfl⟩, fun results h => ?_⟩
      cases h
    | ok fields =>
      by_cases hne : fields = []
      · refine ⟨"", ⟨[Event.search server.friendlyName objid ""], ?_⟩, fun results h => ?_⟩
        · subst hne; rfl
        · subst hne
          cases h
          exact Or.inl rfl
      · refine ⟨condLoop upnp_tags fields "" filter.items, ⟨[], ?_⟩, fun results h => ?_⟩
        · rw [Run.call_andThen_ok _ _ _ _ rfl]
          simp only [if_neg hne]
          rfl
        · rw [Run.call_andThen_ok _ _ _ _ rfl] at h
          simp only [if_neg hne] at h
          exact Or.inr h

theorem filter_isRemote_append_songs (l : List Event) (songs : List UpnpSong)
    (h : ∀ e ∈ l, e.isRemote = true) :
    (l ++ songs.map Event.visit_song).filter Event.isRemote = l := by
  rw [List.filter_append]
  have h1 : l.filter Event.isRemote = l := List.filter_eq_self.mpr h
  have h2 : (songs.map Event.visit_song).filter Event.isRemote = [] := by
    rw [List.filter_eq_nil_iff]
    intro e he
    obtain ⟨s, _, rfl⟩ := List.mem_map.mp he
    simp [Event.isRemote]
  rw [h1, h2, List.append_nil]

/-- C10. `songPath` is the server name, a slash, `0`, a slash and the object
id; every song that the visiting `SearchSongs` hands to the callback is an
element of the server's search result under the `songPath` of the server's
display name and its own id; and the remote calls of the whole run are at
most the capability query followed by the one search. -/
theorem search_results_get_synthetic_paths (upnp_tags : List (String × TagType))
    (server : ContentDirectoryService) (objid : String) (selection : DatabaseSelection)
    (visit_song : Visitor UpnpSong) :
    (∀ s i : String, songPath s i = s ++ "/" ++ "0" ++ "/" ++ i) ∧
    ∃ q : String,
      (SearchSongs upnp_tags server objid selection visit_song).log.filter Event.isRemote <+:
        [Event.getSearchCapabilities server.friendlyName,
         Event.search server.friendlyName objid q] ∧
      ∀ e ∈ (SearchSongs upnp_tags server objid selection visit_song).log,
        e.isRemote = true ∨
        ∃ results d, server.search objid q = Except.ok results ∧ d ∈ results ∧
          e = Event.visit_song
            (UpnpSong.ofObject d (songPath server.friendlyName d.m_id)) := by
  refine ⟨fun _ _ => rfl, ?_⟩
  cases visit_song with
  | none => exact ⟨"", ⟨_, List.nil_append _⟩, fun e he => by cases he⟩
  | some cb =>
    obtain ⟨q, hpre, hres⟩ := SearchSongs_dirbuf_shape upnp_tags server objid selection
    have hremote : ∀ e ∈ (SearchSongs_dirbuf upnp_tags server objid selection).log,
        e.isRemote = true := by
      intro e he
      have := List.IsPrefix.subset hpre he
      simp only [List.mem_cons, List.mem_singleton, List.not_mem_nil, or_false] at this
      rcases this with h | h <;> rw [h] <;> rfl
    refine ⟨q, ?_, ?_⟩
    · show (Run.andThen (SearchSongs_dirbuf upnp_tags server objid selection) _).log.filter
        Event.isRemote <+: _
      cases hr : (SearchSongs_dirbuf upnp_tags server objid selection).res with
      | error e =>
        rw [Run.andThen_error _ e _ hr]
        rw [List.filter_eq_self.mpr hremote]
        exact hpre
      | ok results =>
        rw [Run.andThen_ok _ results _ hr, searchSongsLoop_eq]
        rw [filter_isRemote_append_songs _ _ hremote]
        exact hpre
    · intro e he
      change e ∈ (Run.andThen (SearchSongs_dirbuf upnp_tags server objid selection) _).log
        at he
      cases hr : (SearchSongs_dirbuf upnp_tags server objid selection).res with
      | error err =>
        rw [Run.andThen_error _ err _ hr] at he
        exact Or.inl (hremote e he)
      | ok results =>
        rw [Run.andThen_ok _ results _ hr, searchSongsLoop_eq] at he
        rcases List.mem_append.mp he with h | h
        · exact Or.inl (hremote e h)
        · right
          obtain ⟨song, hsong, rfl⟩ := List.mem_map.mp h
          have hs := callsUntilFailure_subset cb _ song hsong
          obtain ⟨d, hd, rfl⟩ := List.mem_map.mp hs
          have hdr : d ∈ results := (List.mem_filter.mp hd).1
          rcases hres results hr with h0 | h1
          · rw [h0] at hdr; cases hdr
          · exact ⟨results, d, h1, hdr, rfl⟩

/-! ## Paths and lookups by id -/

theorem tokensAux_append (t : List Char) (ht : ∀ c ∈ t, c ≠ '/') :
    ∀ (cur rest : List Char), tokensAux cur (t ++ rest) = tokensAux (cur ++ t) rest := by
  induction t with
  | nil => intro cur rest; simp
  | cons c t ih =>
    intro cur rest
    have hc : c ≠ '/' := ht c (List.mem_cons_self _ _)
    have hr : ∀ d ∈ t, d ≠ '/' := fun d hd => ht d (List.mem_cons_of_mem _ hd)
    show tokensAux cur (c :: (t ++ rest)) = _
    rw [tokensAux, if_neg hc, ih hr]
    simp

theorem stringToTokens_songPath (s i : String)
    (hs : s ≠ "") (hs2 : ∀ c ∈ s.data, c ≠ '/')
    (hi : i ≠ "") (hi2 : ∀ c ∈ i.data, c ≠ '/') :
    stringToTokens (s ++ "/0/" ++ i) = [s, "0", i] := by
  have hsd : s.data ≠ [] := fun h => hs (String.ext h)
  have hid : i.data ≠ [] := fun h => hi (String.ext h)
  have hd : (s ++ "/0/" ++ i).data = s.data ++ ('/' :: ('0' :: ('/' :: (i.data ++ [])))) := by
    simp
  unfold stringToTokens
  rw [hd, tokensAux_append s.data hs2]
  simp only [List.nil_append]
  rw [tokensAux, if_pos rfl, if_neg hsd]
  rw [tokensAux, if_neg (by decide)]
  rw [tokensAux, if_pos rfl, if_neg (by decide)]
  rw [tokensAux_append i.data hi2]
  simp only [List.nil_append]
  rw [tokensAux, if_neg hid]

theorem ReadNode_eq (server : ContentDirectoryService) (objid : String) :
    ReadNode server objid =
      ⟨[Event.getMetadata server.friendlyName objid],
        match server.getMetadata objid with
        | Except.error e => Except.error e
        | Except.ok [dirent] => Except.ok dirent
        | Except.ok _ => Except.error ⟨Domain.upnp_domain, 0, "Bad resource"⟩⟩ := by
  show Run.andThen (Run.call _ (server.getMetadata objid)) _ = _
  cases h : server.getMetadata objid with
  | error e => rfl
  | ok l =>
    match l with
    | [] => rfl
    | [d] => rfl
    | _ :: _ :: _ => rfl

/-- C5 at an object id that contains a slash, where `GetSong` departs from
it. The search on `Stereo` hands the music item with the id `a/b` to the item
callback under the path `Stereo/0/a/b`, which is `songPath` of that id, and
`ReadNode` fetches that id from `Stereo`. Yet `GetSong` on that very path
fetches the id `b`, the last segment of the path, and fails, and so does
`Visit`. On `Twins`, which knows an object with the id `b` as well, `GetSong`
on `Twins/0/a/b` returns the song of that other object. -/
theorem GetSong_of_id_with_slash_differs :
    songPath stereo.friendlyName sampleSlashSong.m_id = "Stereo/0/a/b" ∧
    Event.visit_song ⟨"Stereo/0/a/b", sampleSlashSong.url, sampleSlashSong.tag⟩ ∈
      (SearchSongs sample_upnp_tags stereo "0" ⟨"Stereo", true, some sampleFilter⟩
        (some acceptAll)).log ∧
    sampleDirectory.getServer "Stereo" = Except.ok stereo ∧
    (ReadNode stereo "a/b").res = Except.ok sampleSlashSong ∧
    (GetSong sampleDirectory ("Stereo" ++ "/0/" ++ "a/b")).log =
      [Event.getServer "Stereo", Event.getMetadata "Stereo" "b"] ∧
    (GetSong sampleDirectory ("Stereo" ++ "/0/" ++ "a/b")).res = Except.error noSuchObject ∧
    Visit sample_upnp_tags sampleDirectory ⟨"Stereo/0/a/b", false, none⟩ none
        (some acceptAll) none =
      ⟨[Event.getServer "Stereo", Event.getMetadata "Stereo" "b"],
        Except.error noSuchObject⟩ ∧
    twinsDirectory.getServer "Twins" = Except.ok twins ∧
    (ReadNode twins "a/b").res = Except.ok sampleSlashSong ∧
    (GetSong twinsDirectory ("Twins" ++ "/0/" ++ "a/b")).log =
      [Event.getServer "Twins", Event.getMetadata "Twins" "b"] ∧
    (GetSong twinsDirectory ("Twins" ++ "/0/" ++ "a/b")).res =
      Except.ok ⟨"Twins/0/a/b", sampleOtherSong.url, sampleOtherSong.tag⟩ ∧
    sampleOtherSong.url ≠ sampleSlashSong.url :=
  ⟨rfl, by decide, rfl, rfl, by decide, rfl, rfl, rfl, rfl, by decide, rfl, by decide⟩

/-- The synthetic path of an id without a slash. For a server name `s` that
the directory resolves and an object id `i`, both non-empty and without a slash,
`GetSong (s ++ "/0/" ++ i)` looks the server up and then does what
`ReadNode` does for `i`, and nothing else: it succeeds exactly when that
fetch does, and the song carries the requested path and the url and tag of
the fetched node. The only call to the server is the metadata fetch. -/
theorem GetSong_of_synthetic_path (m_superdir : UPnPDeviceDirectory)
    (server : ContentDirectoryService) (s i : String)
    (hserver : m_superdir.getServer s = Except.ok server)
    (hs : s ≠ "") (hs2 : ∀ c ∈ s.data, c ≠ '/')
    (hi : i ≠ "") (hi2 : ∀ c ∈ i.data, c ≠ '/') :
    (GetSong m_superdir (s ++ "/0/" ++ i)).log =
      Event.getServer s :: (ReadNode server i).log ∧
    (ReadNode server i).log = [Event.getMetadata server.friendlyName i] ∧
    (∀ e, (ReadNode server i).res = Except.error e →
      (GetSong m_superdir (s ++ "/0/" ++ i)).res = Except.error e) ∧
    (∀ node, (ReadNode server i).res = Except.ok node →
      (GetSong m_superdir (s ++ "/0/" ++ i)).res =
        Except.ok ⟨s ++ "/0/" ++ i, node.url, node.tag⟩) := by
  have htok := stringToTokens_songPath s i hs hs2 hi hi2
  have hG : GetSong m_superdir (s ++ "/0/" ++ i) =
      Run.andThen (Run.call (Event.getServer s) (m_superdir.getServer s)) (fun server =>
        Run.andThen (ReadNode server i)
          (fun dirent => Run.ret (UpnpSong.ofObject dirent (s ++ "/0/" ++ i)))) := by
    unfold GetSong
    rw [htok]
    rfl
  rw [hG, Run.call_andThen_ok _ _ _ _ hserver]
  refine ⟨?_, by rw [ReadNode_eq], ?_, ?_⟩
  · cases hr : (ReadNode server i).res with
    | error e => rw [Run.andThen_error _ e _ hr]
    | ok node => rw [Run.andThen_ok _ node _ hr]; simp [Run.ret]
  · intro e hr
    rw [Run.andThen_error _ e _ hr]
  · intro node hr
    rw [Run.andThen_ok _ node _ hr]
    rfl

/-- The synthetic path of the id `XYZ123` on `Stereo`. -/
theorem GetSong_of_synthetic_path_witness :
    (GetSong sampleDirectory ("Stereo" ++ "/0/" ++ "XYZ123")).log =
      [Event.getServer "Stereo", Event.getMetadata "Stereo" "XYZ123"] ∧
    (GetSong sampleDirectory ("Stereo" ++ "/0/" ++ "XYZ123")).res =
      Except.ok ⟨"Stereo/0/XYZ123", sampleSong.url, sampleSong.tag⟩ :=
  have h := GetSong_of_synthetic_path sampleDirectory stereo "Stereo" "XYZ123" rfl
    (by decide) (by decide) (by decide) (by decide)
  ⟨h.1, h.2.2.2 sampleSong rfl⟩

/-! ## `Visit` -/

theorem directFetch_eq (server : ContentDirectoryService) (selection : DatabaseSelection)
    (cb : UpnpSong → Except Error Unit) (objid : String) :
    directFetch server selection cb objid =
      match server.getMetadata objid with
      | Except.error e => ⟨[Event.getMetadata server.friendlyName objid], Except.error e⟩
      | Except.ok [node] =>
        if selection.Match (resultSong server node) then
          ⟨[Event.getMetadata server.friendlyName objid,
            Event.visit_song (resultSong server node)], cb (resultSong server node)⟩
        else ⟨[Event.getMetadata server.friendlyName objid], Except.ok ()⟩
      | Except.ok _ =>
        ⟨[Event.getMetadata server.friendlyName objid],
          Except.error ⟨Domain.upnp_domain, 0, "Bad resource"⟩⟩ := by
  unfold directFetch
  rw [ReadNode_eq]
  cases h : server.getMetadata objid with
  | error e => rfl
  | ok l =>
    match l with
    | [] => rfl
    | [d] =>
      rw [Run.andThen_ok _ d _ rfl, visitSong_some]
      show _ = (if selection.Match (resultSong server d) = true then _ else _)
      by_cases hm : selection.Match (resultSong server d) = true
      · have hm2 : selection.Match
            (UpnpSong.ofObject d (songPath server.friendlyName d.m_id)) = true := hm
        rw [if_pos hm, if_pos hm2]
        rfl
      · have hm2 : ¬ selection.Match
            (UpnpSong.ofObject d (songPath server.friendlyName d.m_id)) = true := hm
        rw [if_neg hm, if_neg hm2]
        rfl
    | _ :: _ :: _ => rfl

theorem VisitServer_direct (upnp_tags : List (String × TagType))
    (server : ContentDirectoryService) (rest : List String) (selection : DatabaseSelection)
    (visit_directory : Visitor String) (cb : UpnpSong → Except Error Unit)
    (visit_playlist : Visitor String) :
    VisitServer upnp_tags server (rootid :: rest) selection visit_directory (some cb)
        visit_playlist =
      directFetch server selection cb
        ((rootid :: rest).getLast (List.cons_ne_nil rootid rest)) := by
  unfold VisitServer
  simp only [if_true]
  rfl

/-- C6. When the path of the selection is a server name that the directory
resolves, followed by the segment `0` and any further segments, `Visit` with
an item callback looks the server up, fetches the metadata of the last
segment, and does nothing else to the server. When the fetch fails, or does
not return exactly one object, `Visit` fails after these two calls; when it
returns the object `node`, the item callback is invoked once, with the song
of `node` under `servername/0/node.m_id`, if that song passes the match, and
not at all otherwise. Whatever directory and playlist callbacks are given,
they are not invoked. -/
theorem Visit_direct_id_path (upnp_tags : List (String × TagType))
    (m_superdir : UPnPDeviceDirectory) (server : ContentDirectoryService)
    (selection : DatabaseSelection) (servername : String) (rest : List String)
    (visit_directory : Visitor String) (cb : UpnpSong → Except Error Unit)
    (visit_playlist : Visitor String)
    (hpath : stringToTokens selection.uri = servername :: "0" :: rest)
    (hserver : m_superdir.getServer servername = Except.ok server) :
    (∀ e, server.getMetadata (("0" :: rest).getLast (List.cons_ne_nil "0" rest)) =
        Except.error e →
      Visit upnp_tags m_superdir selection visit_directory (some cb) visit_playlist =
        ⟨[Event.getServer servername,
          Event.getMetadata server.friendlyName
            (("0" :: rest).getLast (List.cons_ne_nil "0" rest))], Except.error e⟩) ∧
    (∀ objects, server.getMetadata (("0" :: rest).getLast (List.cons_ne_nil "0" rest)) =
        Except.ok objects → objects.length ≠ 1 →
      Visit upnp_tags m_superdir selection visit_directory (some cb) visit_playlist =
        ⟨[Event.getServer servername,
          Event.getMetadata server.friendlyName
            (("0" :: rest).getLast (List.cons_ne_nil "0" rest))],
         Except.error ⟨Domain.upnp_domain, 0, "Bad resource"⟩⟩) ∧
    (∀ node, server.getMetadata (("0" :: rest).getLast (List.cons_ne_nil "0" rest)) =
        Except.ok [node] →
      Visit upnp_tags m_superdir selection visit_directory (some cb) visit_playlist =
        if selection.Match
            ⟨server.friendlyName ++ "/" ++ "0" ++ "/" ++ node.m_id, node.url, node.tag⟩ then
          ⟨[Event.getServer servername,
            Event.getMetadata server.friendlyName
              (("0" :: rest).getLast (List.cons_ne_nil "0" rest)),
            Event.visit_song
              ⟨server.friendlyName ++ "/" ++ "0" ++ "/" ++ node.m_id, node.url, node.tag⟩],
           cb ⟨server.friendlyName ++ "/" ++ "0" ++ "/" ++ node.m_id, node.url, node.tag⟩⟩
        else
          ⟨[Event.getServer servername,
            Event.getMetadata server.friendlyName
              (("0" :: rest).getLast (List.cons_ne_nil "0" rest))], Except.ok ()⟩) := by
  have hV : Visit upnp_tags m_superdir selection visit_directory (some cb) visit_playlist =
      Run.andThen (Run.call (Event.getServer servername) (m_superdir.getServer servername))
        (fun server => VisitServer upnp_tags server ("0" :: rest) selection visit_directory
          (some cb) visit_playlist) := by
    unfold Visit
    rw [hpath]
    rfl
  have hD : VisitServer upnp_tags server ("0" :: rest) selection visit_directory (some cb)
      visit_playlist = directFetch server selection cb
        (("0" :: rest).getLast (List.cons_ne_nil "0" rest)) :=
    VisitServer_direct upnp_tags server rest selection visit_directory cb visit_playlist
  rw [hV, Run.call_andThen_ok _ _ _ _ hserver, hD, directFetch_eq]
  refine ⟨?_, ?_, ?_⟩
  · intro e he
    rw [he]
  · intro objects ho hlen
    rw [ho]
    match objects, hlen with
    | [], _ => rfl
    | [d], h => exact absurd rfl h
    | _ :: _ :: _, _ => rfl
  · intro node hn
    rw [hn]
    by_cases hm : selection.Match
        ⟨server.friendlyName ++ "/" ++ "0" ++ "/" ++ node.m_id, node.url, node.tag⟩ = true
    · have hm2 : selection.Match (resultSong server node) = true := hm
      rw [if_pos hm]
      simp only [hm2, if_true]
      rfl
    · have hm2 : ¬ selection.Match (resultSong server node) = true := hm
      rw [if_neg hm]
      simp only [hm2, if_false]
      rfl

/-- C6 with the registry of `Stereo` and the path `Stereo/0/XYZ123`: the
song handed to the item callback is the node fetched for the id `XYZ123`. -/
theorem Visit_direct_id_path_witness :
    stringToTokens "Stereo/0/XYZ123" = ["Stereo", "0", "XYZ123"] ∧
    stereo.getMetadata "XYZ123" = Except.ok [sampleSong] ∧
    Visit sample_upnp_tags sampleDirectory ⟨"Stereo/0/XYZ123", false, none⟩ none
        (some acceptAll) none =
      ⟨[Event.getServer "Stereo", Event.getMetadata "Stereo" "XYZ123",
        Event.visit_song ⟨"Stereo/0/XYZ123", sampleSong.url, sampleSong.tag⟩],
       Except.ok ()⟩ :=
  ⟨by decide, rfl,
    (Visit_direct_id_path sample_upnp_tags sampleDirectory stereo
      ⟨"Stereo/0/XYZ123", false, none⟩ "Stereo" ["XYZ123"] none acceptAll none
      (by decide) rfl).2.2 sampleSong rfl⟩

theorem visitDirectoriesLoop_eq (cb : String → Except Error Unit)
    (servers : List ContentDirectoryService) :
    visitDirectoriesLoop cb servers =
      ⟨(callsUntilFailure cb (servers.map (fun s => s.friendlyName))).map
          Event.visit_directory,
        firstFailure cb (servers.map (fun s => s.friendlyName))⟩ := by
  induction servers with
  | nil => rfl
  | cons server rest ih =>
    show Run.andThen (Run.call _ (cb server.friendlyName)) _ = _
    rw [ih]
    cases hcb : cb server.friendlyName with
    | error e =>
      rw [Run.call_andThen_error _ _ e _ rfl]
      simp [callsUntilFailure, firstFailure, hcb]
    | ok u =>
      rw [Run.call_andThen_ok _ _ u _ rfl]
      simp [callsUntilFailure, firstFailure, hcb]

/-- C7. With an empty path and the snapshot `servers` of the registry,
`Visit` without `recursive` takes the snapshot and offers to the directory
callback the display name of each server, in snapshot order, stopping at
the first failure of the callback; with a callback that never fails that is
once per server and the result is success. Without a directory callback
nothing is invoked. No item or playlist callback is invoked and no server
is called. With no server at all, `Visit` succeeds after taking the
snapshot, whatever `recursive` and the callbacks are. -/
theorem Visit_empty_path_lists_servers (upnp_tags : List (String × TagType))
    (m_superdir : UPnPDeviceDirectory) (selection : DatabaseSelection)
    (servers : List ContentDirectoryService)
    (visit_song : Visitor UpnpSong) (visit_playlist : Visitor String)
    (hpath : stringToTokens selection.uri = [])
    (hservers : m_superdir.getDirServices = Except.ok servers) :
    (selection.recursive = false → ∀ cb : String → Except Error Unit,
      Visit upnp_tags m_superdir selection (some cb) visit_song visit_playlist =
        ⟨Event.getDirServices ::
          (callsUntilFailure cb (servers.map (fun s => s.friendlyName))).map
            Event.visit_directory,
         firstFailure cb (servers.map (fun s => s.friendlyName))⟩) ∧
    (selection.recursive = false → ∀ cb : String → Except Error Unit,
      (∀ name, cb name = Except.ok ()) →
      Visit upnp_tags m_superdir selection (some cb) visit_song visit_playlist =
        ⟨Event.getDirServices ::
          servers.map (fun s => Event.visit_directory s.friendlyName), Except.ok ()⟩) ∧
    (selection.recursive = false →
      Visit upnp_tags m_superdir selection none visit_song visit_playlist =
        ⟨[Event.getDirServices], Except.ok ()⟩) ∧
    (servers = [] → ∀ visit_directory : Visitor String,
      Visit upnp_tags m_superdir selection visit_directory visit_song visit_playlist =
        ⟨[Event.getDirServices], Except.ok ()⟩) := by
  have hV : ∀ visit_directory : Visitor String,
      Visit upnp_tags m_superdir selection visit_directory visit_song visit_playlist =
      Run.andThen (Run.call Event.getDirServices m_superdir.getDirServices) (fun servers =>
        if ¬ selection.recursive then
          match visit_directory with
          | some cb => visitDirectoriesLoop cb servers
          | none => pure ()
        else
          visitServersLoop upnp_tags [] selection visit_directory visit_song visit_playlist
            servers) := by
    intro visit_directory
    unfold Visit
    rw [hpath]
    rfl
  have hmain : selection.recursive = false → ∀ cb : String → Except Error Unit,
      Visit upnp_tags m_superdir selection (some cb) visit_song visit_playlist =
        ⟨Event.getDirServices ::
          (callsUntilFailure cb (servers.map (fun s => s.friendlyName))).map
            Event.visit_directory,
         firstFailure cb (servers.map (fun s => s.friendlyName))⟩ := by
    intro hrec cb
    rw [hV, Run.call_andThen_ok _ _ _ _ hservers]
    simp only [hrec, Bool.false_eq_true, not_false_eq_true, if_true]
    rw [visitDirectoriesLoop_eq]
  refine ⟨hmain, ?_, ?_, ?_⟩
  · intro hrec cb hcb
    rw [hmain hrec cb]
    have h := callsUntilFailure_of_ok cb (servers.map (fun s => s.friendlyName))
      (fun a _ => hcb a)
    rw [h.1, h.2, List.map_map]
    rfl
  · intro hrec
    rw [hV, Run.call_andThen_ok _ _ _ _ hservers]
    simp only [hrec, Bool.false_eq_true, not_false_eq_true, if_true]
    rfl
  · intro hnil visit_directory
    subst hnil
    rw [hV, Run.call_andThen_ok _ _ _ _ hservers]
    by_cases hrec : selection.recursive = true
    · simp only [hrec, not_true_eq_false, if_false]
      rfl
    · simp only [hrec, not_false_eq_true, if_true]
      cases visit_directory <;> rfl

/-- C7 on the directory of `Stereo` and `Radio` with the empty path. -/
theorem Visit_empty_path_lists_servers_witness :
    stringToTokens "" = [] ∧
    Visit sample_upnp_tags sampleDirectory ⟨"", false, none⟩ (some acceptAll)
        (some acceptAll) (some acceptAll) =
      ⟨[Event.getDirServices, Event.visit_directory "Stereo",
        Event.visit_directory "Radio"], Except.ok ()⟩ :=
  ⟨rfl,
    (Visit_empty_path_lists_servers sample_upnp_tags sampleDirectory ⟨"", false, none⟩
      [stereo, radio] (some acceptAll) (some acceptAll) rfl rfl).2.1 rfl acceptAll
      (fun _ => rfl)⟩

/-! ## `Namei` -/

theorem NameiLoop_eq (server : ContentDirectoryService) (objid seg : String)
    (rest : List String) :
    NameiLoop server objid seg rest =
      match server.readDir objid with
      | Except.error e => ⟨[Event.readDir server.friendlyName objid], Except.error e⟩
      | Except.ok dirbuf =>
        match FindObject dirbuf seg with
        | none =>
          ⟨[Event.readDir server.friendlyName objid],
            Except.error ⟨Domain.db_domain, DB_NOT_FOUND, "No such object"⟩⟩
        | some child =>
          match rest with
          | [] => ⟨[Event.readDir server.friendlyName objid], Except.ok child⟩
          | next :: rest2 =>
            if child.type ≠ ObjType.CONTAINER then
              ⟨[Event.readDir server.friendlyName objid],
                Except.error ⟨Domain.db_domain, DB_NOT_FOUND, "Not a container"⟩⟩
            else
              ⟨Event.readDir server.friendlyName objid ::
                  (NameiLoop server child.m_id next rest2).log,
                (NameiLoop server child.m_id next rest2).res⟩ := by
  rw [NameiLoop]
  show Run.andThen (Run.call _ (server.readDir objid)) _ = _
  cases hr : server.readDir objid with
  | error e => rfl
  | ok dirbuf =>
    rw [Run.call_andThen_ok _ _ dirbuf _ rfl]
    dsimp only
    cases hf : FindObject dirbuf seg with
    | none => rfl
    | some child =>
      cases rest with
      | nil => rfl
      | cons next rest2 =>
        dsimp only
        by_cases hc : child.type ≠ ObjType.CONTAINER
        · rw [if_pos hc, if_pos hc]
          rfl
        · rw [if_neg hc, if_neg hc]

theorem NameiLoop_readDir_error (server : ContentDirectoryService) (objid seg : String)
    (rest : List String) (e : Error) (hr : server.readDir objid = Except.error e) :
    NameiLoop server objid seg rest =
      ⟨[Event.readDir server.friendlyName objid], Except.error e⟩ := by
  rw [NameiLoop_eq, hr]

theorem NameiLoop_not_found (server : ContentDirectoryService) (objid seg : String)
    (rest : List String) (dirbuf : List UPnPDirObject)
    (hr : server.readDir objid = Except.ok dirbuf) (hf : FindObject dirbuf seg = none) :
    NameiLoop server objid seg rest =
      ⟨[Event.readDir server.friendlyName objid],
        Except.error ⟨Domain.db_domain, DB_NOT_FOUND, "No such object"⟩⟩ := by
  rw [NameiLoop_eq, hr]
  dsimp only
  rw [hf]

theorem NameiLoop_last (server : ContentDirectoryService) (objid seg : String)
    (dirbuf : List UPnPDirObject) (child : UPnPDirObject)
    (hr : server.readDir objid = Except.ok dirbuf)
    (hf : FindObject dirbuf seg = some child) :
    NameiLoop server objid seg [] =
      ⟨[Event.readDir server.friendlyName objid], Except.ok child⟩ := by
  rw [NameiLoop_eq, hr]
  dsimp only
  rw [hf]

theorem NameiLoop_not_container (server : ContentDirectoryService) (objid seg next : String)
    (rest2 : List String) (dirbuf : List UPnPDirObject) (child : UPnPDirObject)
    (hr : server.readDir objid = Except.ok dirbuf)
    (hf : FindObject dirbuf seg = some child) (hc : child.type ≠ ObjType.CONTAINER) :
    NameiLoop server objid seg (next :: rest2) =
      ⟨[Event.readDir server.friendlyName objid],
        Except.error ⟨Domain.db_domain, DB_NOT_FOUND, "Not a container"⟩⟩ := by
  rw [NameiLoop_eq, hr]
  dsimp only
  rw [hf]
  dsimp only
  rw [if_pos hc]

theorem NameiLoop_container (server : ContentDirectoryService) (objid seg next : String)
    (rest2 : List String) (dirbuf : List UPnPDirObject) (child : UPnPDirObject)
    (hr : server.readDir objid = Except.ok dirbuf)
    (hf : FindObject dirbuf seg = some child) (hc : child.type = ObjType.CONTAINER) :
    NameiLoop server objid seg (next :: rest2) =
      ⟨Event.readDir server.friendlyName objid ::
          (NameiLoop server child.m_id next rest2).log,
        (NameiLoop server child.m_id next rest2).res⟩ := by
  rw [NameiLoop_eq, hr]
  dsimp only
  rw [hf]
  dsimp only
  rw [if_neg (fun h => h hc)]

theorem descend_cons_some (server : ContentDirectoryService) (c0 p : String)
    (ps ids : List String) (c : String) (h : descend server c0 (p :: ps) = some (ids, c)) :
    ∃ dirbuf child ids2, server.readDir c0 = Except.ok dirbuf ∧
      FindObject dirbuf p = some child ∧ child.type = ObjType.CONTAINER ∧
      descend server child.m_id ps = some (ids2, c) ∧ ids = c0 :: ids2 := by
  rw [descend] at h
  cases hr : server.readDir c0 with
  | error e => rw [hr] at h; cases h
  | ok dirbuf =>
    rw [hr] at h
    dsimp only at h
    cases hf : FindObject dirbuf p with
    | none => rw [hf] at h; cases h
    | some child =>
      rw [hf] at h
      dsimp only at h
      by_cases hc : child.type = ObjType.CONTAINER
      · rw [if_pos hc] at h
        cases hd : descend server child.m_id ps with
        | none => rw [hd] at h; cases h
        | some r =>
          rw [hd] at h
          simp only [Option.map_some', Option.some.injEq, Prod.mk.injEq] at h
          obtain ⟨h1, h2⟩ := h
          exact ⟨dirbuf, child, r.1, rfl, hf, hc, by rw [hd, ← h2], h1.symm⟩
      · rw [if_neg hc] at h
        cases h

theorem descend_cons_none (server : ContentDirectoryService) (c0 p : String)
    (ps : List String) (h : descend server c0 (p :: ps) = none) :
    (∃ e, server.readDir c0 = Except.error e) ∨
    (∃ dirbuf, server.readDir c0 = Except.ok dirbuf ∧ FindObject dirbuf p = none) ∨
    (∃ dirbuf child, server.readDir c0 = Except.ok dirbuf ∧
      FindObject dirbuf p = some child ∧ child.type ≠ ObjType.CONTAINER) ∨
    (∃ dirbuf child, server.readDir c0 = Except.ok dirbuf ∧
      FindObject dirbuf p = some child ∧ child.type = ObjType.CONTAINER ∧
      descend server child.m_id ps = none) := by
  rw [descend] at h
  cases hr : server.readDir c0 with
  | error e => exact Or.inl ⟨e, rfl⟩
  | ok dirbuf =>
    rw [hr] at h
    dsimp only at h
    cases hf : FindObject dirbuf p with
    | none => exact Or.inr (Or.inl ⟨dirbuf, rfl, hf⟩)
    | some child =>
      rw [hf] at h
      dsimp only at h
      by_cases hc : child.type = ObjType.CONTAINER
      · rw [if_pos hc] at h
        cases hd : descend server child.m_id ps with
        | none => exact Or.inr (Or.inr (Or.inr ⟨dirbuf, child, rfl, hf, hc, hd⟩))
        | some r => rw [hd] at h; cases h
      · exact Or.inr (Or.inr (Or.inl ⟨dirbuf, child, rfl, hf, hc⟩))

theorem NameiLoop_descend (server : ContentDirectoryService) (seg : String)
    (rest : List String) :
    ∀ (ps : List String) (p c0 : String) (ids : List String) (c : String),
      descend server c0 (p :: ps) = some (ids, c) →
      NameiLoop server c0 p (ps ++ seg :: rest) =
        ⟨ids.map (Event.readDir server.friendlyName) ++ (NameiLoop server c seg rest).log,
          (NameiLoop server c seg rest).res⟩ := by
  intro ps
  induction ps with
  | nil =>
    intro p c0 ids c h
    obtain ⟨dirbuf, child, ids2, hr, hf, hc, hd, hids⟩ := descend_cons_some _ _ _ _ _ _ h
    simp only [descend, Option.some.injEq, Prod.mk.injEq] at hd
    obtain ⟨h1, h2⟩ := hd
    subst h1 h2 hids
    rw [List.nil_append, NameiLoop_container _ _ _ _ _ _ _ hr hf hc]
    rfl
  | cons q qs ih =>
    intro p c0 ids c h
    obtain ⟨dirbuf, child, ids2, hr, hf, hc, hd, hids⟩ := descend_cons_some _ _ _ _ _ _ h
    subst hids
    rw [List.cons_append, NameiLoop_container _ _ _ _ _ _ _ hr hf hc, ih q child.m_id ids2 c hd]
    rfl

theorem NameiLoop_descend_none (server : ContentDirectoryService) (seg : String)
    (rest : List String) :
    ∀ (ps : List String) (p c0 : String),
      descend server c0 (p :: ps) = none →
      ∃ e, (NameiLoop server c0 p (ps ++ seg :: rest)).res = Except.error e := by
  intro ps
  induction ps with
  | nil =>
    intro p c0 h
    rcases descend_cons_none _ _ _ _ h with ⟨e, hr⟩ | ⟨dirbuf, hr, hf⟩ |
      ⟨dirbuf, child, hr, hf, hc⟩ | ⟨dirbuf, child, hr, hf, hc, hd⟩
    · exact ⟨e, by rw [NameiLoop_readDir_error _ _ _ _ _ hr]⟩
    · exact ⟨_, by rw [NameiLoop_not_found _ _ _ _ _ hr hf]⟩
    · exact ⟨_, by rw [List.nil_append, NameiLoop_not_container _ _ _ _ _ _ _ hr hf hc]⟩
    · simp [descend] at hd
  | cons q qs ih =>
    intro p c0 h
    rcases descend_cons_none _ _ _ _ h with ⟨e, hr⟩ | ⟨dirbuf, hr, hf⟩ |
      ⟨dirbuf, child, hr, hf, hc⟩ | ⟨dirbuf, child, hr, hf, hc, hd⟩
    · exact ⟨e, by rw [NameiLoop_readDir_error _ _ _ _ _ hr]⟩
    · exact ⟨_, by rw [NameiLoop_not_found _ _ _ _ _ hr hf]⟩
    · exact ⟨_, by rw [List.cons_append, NameiLoop_not_container _ _ _ _ _ _ _ hr hf hc]⟩
    · obtain ⟨e, he⟩ := ih q child.m_id hd
      exact ⟨e, by rw [List.cons_append, NameiLoop_container _ _ _ _ _ _ _ hr hf hc]; exact he⟩

theorem NameiLoop_last_log (server : ContentDirectoryService) (objid seg : String) :
    (NameiLoop server objid seg []).log = [Event.readDir server.friendlyName objid] := by
  rw [NameiLoop_eq]
  cases server.readDir objid with
  | error e => rfl
  | ok dirbuf =>
    dsimp only
    cases FindObject dirbuf seg <;> rfl

theorem descend_shape (server : ContentDirectoryService) :
    ∀ (pre : List String) (c0 : String) (ids : List String) (c : String),
      descend server c0 pre = some (ids, c) →
      ids.length = pre.length ∧ (ids ++ [c]).head? = some c0 := by
  intro pre
  induction pre with
  | nil =>
    intro c0 ids c h
    simp only [descend, Option.some.injEq, Prod.mk.injEq] at h
    obtain ⟨h1, h2⟩ := h
    subst h1 h2
    exact ⟨rfl, rfl⟩
  | cons p ps ih =>
    intro c0 ids c h
    obtain ⟨dirbuf, child, ids2, _, _, _, hd, hids⟩ := descend_cons_some _ _ _ _ _ _ h
    subst hids
    have := ih child.m_id ids2 c hd
    exact ⟨by simp [this.1], rfl⟩

theorem Namei_descend (server : ContentDirectoryService) (pre : List String)
    (seg : String) (rest : List String) (ids : List String) (c : String)
    (h : descend server rootid pre = some (ids, c)) :
    Namei server (pre ++ seg :: rest) =
      ⟨ids.map (Event.readDir server.friendlyName) ++ (NameiLoop server c seg rest).log,
        (NameiLoop server c seg rest).res⟩ := by
  cases pre with
  | nil =>
    simp only [descend, Option.some.injEq, Prod.mk.injEq] at h
    obtain ⟨h1, h2⟩ := h
    subst h1 h2
    rfl
  | cons p ps => exact NameiLoop_descend server seg rest ps p rootid ids c h

theorem Namei_descend_none (server : ContentDirectoryService) (pre : List String)
    (seg : String) (rest : List String) (h : descend server rootid pre = none) :
    ∃ e, (Namei server (pre ++ seg :: rest)).res = Except.error e := by
  cases pre with
  | nil => simp [descend] at h
  | cons p ps => exact NameiLoop_descend_none server seg rest ps p rootid h

/-- C14. `Namei` with the empty path is the by-id fetch of the root id `0`:
it makes that one metadata call and no listing, fails with the error of the
fetch, and succeeds with the node when the fetch returns exactly one. -/
theorem Namei_of_empty_path_reads_root (server : ContentDirectoryService) :
    Namei server [] = ReadNode server "0" ∧
    (Namei server []).log = [Event.getMetadata server.friendlyName "0"] ∧
    (∀ e, server.getMetadata "0" = Except.error e →
      (Namei server []).res = Except.error e) ∧
    (∀ node, server.getMetadata "0" = Except.ok [node] →
      (Namei server []).res = Except.ok node) ∧
    (∀ objects, server.getMetadata "0" = Except.ok objects → objects.length ≠ 1 →
      (Namei server []).res = Except.error ⟨Domain.upnp_domain, 0, "Bad resource"⟩) := by
  have h : Namei server [] = ReadNode server "0" := rfl
  rw [h, ReadNode_eq]
  refine ⟨rfl, rfl, ?_, ?_, ?_⟩
  · intro e he
    simp only [he]
  · intro node hn
    simp only [hn]
  · intro objects ho hlen
    simp only [ho]
    match objects, hlen with
    | [], _ => rfl
    | [d], hl => exact absurd rfl hl
    | _ :: _ :: _, _ => rfl

/-- C12. For the path `pre ++ [last]`, `Namei` succeeds with `n` exactly when
the descent from the root `0` along `pre` goes through Container children
only, listing the directories `ids` and reaching the directory `c`, and `n`
is the child matched by `last` in the listing of `c`, whatever its kind.
The directories listed start with `0`, are as many as the path has segments,
and on success the calls of `Namei` are their listings, in that order, and
nothing else. -/
theorem Namei_succeeds_iff_chain_of_containers (server : ContentDirectoryService)
    (pre : List String) (last : String) (n : UPnPDirObject) :
    ((Namei server (pre ++ [last])).res = Except.ok n ↔
      ∃ ids c dirbuf, descend server "0" pre = some (ids, c) ∧
        server.readDir c = Except.ok dirbuf ∧ FindObject dirbuf last = some n) ∧
    (∀ ids c, descend server "0" pre = some (ids, c) →
      (ids ++ [c]).head? = some "0" ∧
      (ids ++ [c]).length = (pre ++ [last]).length ∧
      (Namei server (pre ++ [last])).log =
        (ids ++ [c]).map (Event.readDir server.friendlyName)) := by
  constructor
  · constructor
    · intro h
      cases hd : descend server rootid pre with
      | none =>
        obtain ⟨e, he⟩ := Namei_descend_none server pre last [] hd
        rw [he] at h
        cases h
      | some r =>
        have hN := Namei_descend server pre last [] r.1 r.2 hd
        rw [hN] at h
        simp only at h
        rw [NameiLoop_eq] at h
        cases hr : server.readDir r.2 with
        | error e => rw [hr] at h; cases h
        | ok dirbuf =>
          rw [hr] at h
          dsimp only at h
          cases hf : FindObject dirbuf last with
          | none => rw [hf] at h; cases h
          | some child =>
            rw [hf] at h
            dsimp only at h
            cases h
            exact ⟨r.1, r.2, dirbuf, hd, hr, hf⟩
    · rintro ⟨ids, c, dirbuf, hd, hr, hf⟩
      rw [Namei_descend server pre last [] ids c hd, NameiLoop_last _ _ _ _ _ hr hf]
  · intro ids c hd
    have hs := descend_shape server pre "0" ids c hd
    refine ⟨hs.2, by simp [hs.1], ?_⟩
    rw [Namei_descend server pre last [] ids c hd, NameiLoop_last_log]
    simp

/-- C13 as stated fails: walking through the music item `Satisfaction` of
`Stereo` fails with the same domain and the same code `DB_NOT_FOUND` as a
missing name; the two failures differ in their message only. -/
theorem Namei_not_a_container_has_the_not_found_code :
    (Namei stereo ["Music", "Satisfaction", "x"]).res =
      Except.error ⟨Domain.db_domain, DB_NOT_FOUND, "Not a container"⟩ ∧
    (Namei stereo ["Music", "Nope"]).res =
      Except.error ⟨Domain.db_domain, DB_NOT_FOUND, "No such object"⟩ := by
  unfold Namei NameiLoop NameiLoop
  exact ⟨rfl, rfl⟩

/-- C13, as the code has it. When the descent along the segments `pre` has
reached the directory `c` and its listing succeeds: if no child is named
like the next segment, `Namei` fails in the database domain with the code
`DB_NOT_FOUND` and the message `No such object`; if the next segment is not
the last and matches a child that is no Container, `Namei` fails in the same
domain with the same code and the message `Not a container`. In both cases
the calls made are the listings down to `c` and nothing after them. -/
theorem Namei_missing_or_non_container_segment (server : ContentDirectoryService)
    (pre : List String) (seg : String) (rest : List String) (ids : List String)
    (c : String) (dirbuf : List UPnPDirObject)
    (hd : descend server "0" pre = some (ids, c))
    (hr : server.readDir c = Except.ok dirbuf) :
    (FindObject dirbuf seg = none →
      Namei server (pre ++ seg :: rest) =
        ⟨(ids ++ [c]).map (Event.readDir server.friendlyName),
          Except.error ⟨Domain.db_domain, DB_NOT_FOUND, "No such object"⟩⟩) ∧
    (∀ child, FindObject dirbuf seg = some child → rest ≠ [] →
      child.type ≠ ObjType.CONTAINER →
      Namei server (pre ++ seg :: rest) =
        ⟨(ids ++ [c]).map (Event.readDir server.friendlyName),
          Except.error ⟨Domain.db_domain, DB_NOT_FOUND, "Not a container"⟩⟩) := by
  have hN := Namei_descend server pre seg rest ids c hd
  constructor
  · intro hf
    rw [hN, NameiLoop_not_found _ _ _ _ _ hr hf]
    simp
  · intro child hf hrest hc
    cases rest with
    | nil => exact absurd rfl hrest
    | cons next rest2 =>
      rw [hN, NameiLoop_not_container _ _ _ _ _ _ _ hr hf hc]
      simp

/-- C13 (as the code has it) on `Stereo`: below `Music`, the name `Nope` is
missing and the item `Satisfaction` is no Container. -/
theorem Namei_missing_or_non_container_segment_witness :
    descend stereo "0" ["Music"] = some (["0"], "7") ∧
    Namei stereo (["Music"] ++ "Nope" :: []) =
      ⟨[Event.readDir "Stereo" "0", Event.readDir "Stereo" "7"],
        Except.error ⟨Domain.db_domain, DB_NOT_FOUND, "No such object"⟩⟩ ∧
    Namei stereo (["Music"] ++ "Satisfaction" :: ["x"]) =
      ⟨[Event.readDir "Stereo" "0", Event.readDir "Stereo" "7"],
        Except.error ⟨Domain.db_domain, DB_NOT_FOUND, "Not a container"⟩⟩ :=
  ⟨rfl,
    (Namei_missing_or_non_container_segment stereo ["Music"] "Nope" [] ["0"] "7"
      [sampleSong, samplePlaylist, sampleSlashSong] rfl rfl).1 rfl,
    (Namei_missing_or_non_container_segment stereo ["Music"] "Satisfaction" ["x"] ["0"] "7"
      [sampleSong, samplePlaylist, sampleSlashSong] rfl rfl).2 sampleSong rfl (by decide)
      (by decide)⟩

/-! ## `BuildPath` -/

theorem ReadNode_of_one (server : ContentDirectoryService) (objid : String)
    (d : UPnPDirObject) (h : server.getMetadata objid = Except.ok [d]) :
    ReadNode server objid = ⟨[Event.getMetadata server.friendlyName objid], Except.ok d⟩ := by
  rw [ReadNode_eq, h]

theorem BuildPathLoop_root (server : ContentDirectoryService) (fuel : Nat) (path : String) :
    BuildPathLoop server fuel rootid path = some (Run.ret path) := by
  cases fuel <;> simp [BuildPathLoop]

theorem BuildPathLoop_step (server : ContentDirectoryService) (fuel : Nat)
    (pid path : String) (d : UPnPDirObject) (hpid : pid ≠ rootid)
    (h : server.getMetadata pid = Except.ok [d]) :
    BuildPathLoop server (fuel + 1) pid path =
      (BuildPathLoop server fuel d.m_pid
        (if path = "" then d.name else PathTraitsUTF8.Build d.name path)).map
        (fun rest => ⟨Event.getMetadata server.friendlyName pid :: rest.log, rest.res⟩) := by
  rw [BuildPathLoop, if_neg hpid, ReadNode_of_one server pid d h]
  rfl

theorem joinSep_ne_empty (l : List String) (hne : l ≠ []) (h : ∀ s ∈ l, s ≠ "") :
    joinSep "/" l ≠ "" := by
  match l, hne with
  | [a], _ => exact h a (List.mem_singleton.mpr rfl)
  | a :: b :: rest, _ =>
    show a ++ "/" ++ joinSep "/" (b :: rest) ≠ ""
    exact String.append_ne_empty_left _ _
      (String.append_ne_empty_left _ _ (h a (List.mem_cons_self _ _)))

theorem FindObject_some (dirbuf : List UPnPDirObject) (seg : String) (child : UPnPDirObject)
    (h : FindObject dirbuf seg = some child) : child ∈ dirbuf ∧ child.name = seg := by
  unfold FindObject at h
  refine ⟨List.mem_of_find?_eq_some h, ?_⟩
  have := List.find?_some h
  simpa using this

theorem BuildPathLoop_after_NameiLoop (server : ContentDirectoryService)
    (hcons : Consistent server) (hroot : RootIdNotListed server) (n : UPnPDirObject) :
    ∀ (ps : List String) (p c0 : String),
      (∀ s ∈ p :: ps, s ≠ "") →
      (NameiLoop server c0 p ps).res = Except.ok n →
      ∃ L : List Event, L.length = ps.length + 1 ∧
        (∀ ev ∈ L, ∃ objid, ev = Event.getMetadata server.friendlyName objid) ∧
        ∀ extra : Nat,
          BuildPathLoop server (extra + (ps.length + 1)) n.m_id "" =
            (BuildPathLoop server extra c0 (joinSep "/" (p :: ps))).map
              (fun rest => ⟨L ++ rest.log, rest.res⟩) := by
  intro ps
  induction ps with
  | nil =>
    intro p c0 _ hN
    rw [NameiLoop_eq] at hN
    cases hr : server.readDir c0 with
    | error e => rw [hr] at hN; cases hN
    | ok dirbuf =>
      rw [hr] at hN
      dsimp only at hN
      cases hf : FindObject dirbuf p with
      | none => rw [hf] at hN; cases hN
      | some child =>
        rw [hf] at hN
        dsimp only at hN
        cases hN
        obtain ⟨hmem, hname⟩ := FindObject_some _ _ _ hf
        obtain ⟨hpid, fetched, hfetch, hfname, hfpid⟩ := hcons c0 dirbuf hr n hmem
        refine ⟨[Event.getMetadata server.friendlyName n.m_id], rfl, ?_, ?_⟩
        · intro ev hev
          exact ⟨n.m_id, List.mem_singleton.mp hev⟩
        · intro extra
          rw [List.length_nil, Nat.zero_add,
            BuildPathLoop_step server extra n.m_id "" fetched (hroot c0 dirbuf hr n hmem)
              hfetch]
          rw [if_pos rfl, hfname, hname, hfpid, hpid]
          rfl
  | cons next rest2 ih =>
    intro p c0 hne hN
    rw [NameiLoop_eq] at hN
    cases hr : server.readDir c0 with
    | error e => rw [hr] at hN; cases hN
    | ok dirbuf =>
      rw [hr] at hN
      dsimp only at hN
      cases hf : FindObject dirbuf p with
      | none => rw [hf] at hN; cases hN
      | some child =>
        rw [hf] at hN
        dsimp only at hN
        by_cases hc : child.type ≠ ObjType.CONTAINER
        · rw [if_pos hc] at hN
          cases hN
        · rw [if_neg hc] at hN
          dsimp only at hN
          obtain ⟨hmem, hname⟩ := FindObject_some _ _ _ hf
          obtain ⟨hpid, fetched, hfetch, hfname, hfpid⟩ := hcons c0 dirbuf hr child hmem
          have hne2 : ∀ s ∈ next :: rest2, s ≠ "" :=
            fun s hs => hne s (List.mem_cons_of_mem _ hs)
          obtain ⟨L, hL, hLev, hrun⟩ := ih next child.m_id hne2 hN
          have hP : joinSep "/" (next :: rest2) ≠ "" :=
            joinSep_ne_empty _ (List.cons_ne_nil _ _) hne2
          refine ⟨L ++ [Event.getMetadata server.friendlyName child.m_id], ?_, ?_, ?_⟩
          · simp [hL]
          · intro ev hev
            rcases List.mem_append.mp hev with h1 | h1
            · exact hLev ev h1
            · exact ⟨child.m_id, List.mem_singleton.mp h1⟩
          · intro extra
            have hfuel : extra + ((next :: rest2).length + 1) =
                (extra + 1) + (rest2.length + 1) := by
              simp only [List.length_cons]
              omega
            rw [hfuel, hrun (extra + 1),
              BuildPathLoop_step server extra child.m_id _ fetched
                (hroot c0 dirbuf hr child hmem) hfetch]
            rw [if_neg hP, hfname, hname, hfpid, hpid, Option.map_map]
            have hj : PathTraitsUTF8.Build p (joinSep "/" (next :: rest2)) =
                joinSep "/" (p :: next :: rest2) := rfl
            rw [hj]
            congr 1
            funext rest
            simp

theorem Consistent_shelf : Consistent shelf ∧ RootIdNotListed shelf := by
  constructor
  · intro X dirbuf h o ho
    simp only [shelf] at h
    split at h
    · next h0 =>
      cases h
      subst h0
      simp only [List.mem_singleton] at ho
      subst ho
      exact ⟨rfl, sampleContainer, rfl, rfl, rfl⟩
    · split at h
      · next h1 =>
        cases h
        subst h1
        simp only [List.mem_singleton] at ho
        subst ho
        exact ⟨rfl, sampleSong, rfl, rfl, rfl⟩
      · cases h
  · intro X dirbuf h o ho
    simp only [shelf] at h
    split at h
    · cases h
      simp only [List.mem_singleton] at ho
      subst ho
      decide
    · split at h
      · cases h
        simp only [List.mem_singleton] at ho
        subst ho
        decide
      · cases h

theorem tokensAux_ne_empty :
    ∀ (rest cur : List Char), ∀ s ∈ tokensAux cur rest, s ≠ "" := by
  intro rest
  induction rest with
  | nil =>
    intro cur s hs
    rw [tokensAux] at hs
    by_cases hc : cur = []
    · rw [if_pos hc] at hs
      cases hs
    · rw [if_neg hc] at hs
      rw [List.mem_singleton.mp hs]
      exact fun h => hc (congrArg String.data h)
  | cons c rest ih =>
    intro cur s hs
    rw [tokensAux] at hs
    by_cases hsl : c = '/'
    · rw [if_pos hsl] at hs
      by_cases hc : cur = []
      · rw [if_pos hc] at hs
        exact ih [] s hs
      · rw [if_neg hc] at hs
        rcases List.mem_cons.mp hs with h | h
        · rw [h]
          exact fun h2 => hc (congrArg String.data h2)
        · exact ih [] s h
    · rw [if_neg hsl] at hs
      exact ih (cur ++ [c]) s hs

/-- No segment of a virtual path is empty, so the paths that `Namei` is given
have non-empty segments only. -/
theorem stringToTokens_ne_empty (uri : String) : ∀ s ∈ stringToTokens uri, s ≠ "" :=
  tokensAux_ne_empty uri.data []

/-- C11. Let the by-id fetch of the server be consistent with its listings,
and let `Namei` resolve the non-empty path `seg :: rest` to the node `n`. The
path is one of the data model: its segments are non-empty, as the segments of
every virtual path are, and the root id `0`, which stands for the root that
has no parent, is not the id of a listed node. Then `BuildPath` of `n`
succeeds and returns the server name and the segments `s1`, ..., `sk` in
their order, joined by slashes. Its loop ends after one metadata fetch per
segment, which are its only calls: the result is there as soon as the loop
is allowed as many iterations as the path has segments. -/
theorem BuildPath_rebuilds_resolved_path (server : ContentDirectoryService)
    (seg : String) (rest : List String) (n : UPnPDirObject)
    (hcons : Consistent server) (hroot : RootIdNotListed server)
    (hne : ∀ s ∈ seg :: rest, s ≠ "")
    (hN : (Namei server (seg :: rest)).res = Except.ok n) :
    ∀ fuel, (seg :: rest).length ≤ fuel →
      ∃ log : List Event, log.length = (seg :: rest).length ∧
        (∀ ev ∈ log, ∃ objid, ev = Event.getMetadata server.friendlyName objid) ∧
        BuildPath server fuel n =
          some ⟨log, Except.ok (server.friendlyName ++ "/" ++ joinSep "/" (seg :: rest))⟩ := by
  intro fuel hfuel
  obtain ⟨L, hL, hLev, hrun⟩ :=
    BuildPathLoop_after_NameiLoop server hcons hroot n rest seg rootid hne hN
  refine ⟨L, by simp [hL], hLev, ?_⟩
  have hf : fuel = (fuel - (rest.length + 1)) + (rest.length + 1) := by
    simp only [List.length_cons] at hfuel
    omega
  unfold BuildPath
  rw [hf, hrun, BuildPathLoop_root]
  simp [Run.ret, Run.andThen, PathTraitsUTF8.Build]

/-- C11 on `Shelf` and the virtual path `Shelf/Music/Satisfaction`, whose
segments after the server name are the path that `Namei` resolves. -/
theorem BuildPath_rebuilds_resolved_path_witness :
    stringToTokens "Shelf/Music/Satisfaction" = ["Shelf", "Music", "Satisfaction"] ∧
    (Namei shelf ["Music", "Satisfaction"]).res = Except.ok sampleSong ∧
    ∃ log : List Event, log.length = 2 ∧
      (∀ ev ∈ log, ∃ objid, ev = Event.getMetadata shelf.friendlyName objid) ∧
      BuildPath shelf 2 sampleSong = some ⟨log, Except.ok "Shelf/Music/Satisfaction"⟩ :=
  have htok : stringToTokens "Shelf/Music/Satisfaction" =
      ["Shelf", "Music", "Satisfaction"] := by decide
  have hne : ∀ s ∈ ["Music", "Satisfaction"], s ≠ "" := fun s hs =>
    stringToTokens_ne_empty "Shelf/Music/Satisfaction" s
      (by rw [htok]; exact List.mem_cons_of_mem _ hs)
  have hN : (Namei shelf ["Music", "Satisfaction"]).res = Except.ok sampleSong := by
    unfold Namei NameiLoop NameiLoop
    rfl
  ⟨htok, hN, BuildPath_rebuilds_resolved_path shelf "Music" ["Satisfaction"] sampleSong
    Consistent_shelf.1 Consistent_shelf.2 hne hN 2 (by decide)⟩

/-! ## `VisitServer` on a navigable path -/

theorem SearchSongs_log_shape (upnp_tags : List (String × TagType))
    (server : ContentDirectoryService) (objid : String) (selection : DatabaseSelection)
    (visit_song : Visitor UpnpSong) :
    ∀ ev ∈ (SearchSongs upnp_tags server objid selection visit_song).log,
      ev = Event.getSearchCapabilities server.friendlyName ∨
      (∃ q, ev = Event.search server.friendlyName objid q) ∨
      ∃ q results d, server.search objid q = Except.ok results ∧ d ∈ results ∧
        ev = Event.visit_song (resultSong server d) := by
  cases visit_song with
  | none => intro ev hev; cases hev
  | some cb =>
    obtain ⟨q, hpre, hres⟩ := SearchSongs_dirbuf_shape upnp_tags server objid selection
    have hremote : ∀ e ∈ (SearchSongs_dirbuf upnp_tags server objid selection).log,
        e = Event.getSearchCapabilities server.friendlyName ∨
        ∃ q, e = Event.search server.friendlyName objid q := by
      intro e he
      have := List.IsPrefix.subset hpre he
      simp only [List.mem_cons, List.mem_singleton, List.not_mem_nil, or_false] at this
      rcases this with h | h
      · exact Or.inl h
      · exact Or.inr ⟨q, h⟩
    intro ev hev
    change ev ∈ (Run.andThen (SearchSongs_dirbuf upnp_tags server objid selection) _).log
      at hev
    cases hr : (SearchSongs_dirbuf upnp_tags server objid selection).res with
    | error err =>
      rw [Run.andThen_error _ err _ hr] at hev
      rcases hremote ev hev with h | h
      · exact Or.inl h
      · exact Or.inr (Or.inl h)
    | ok results =>
      rw [Run.andThen_ok _ results _ hr, searchSongsLoop_eq] at hev
      rcases List.mem_append.mp hev with h | h
      · rcases hremote ev h with h | h
        · exact Or.inl h
        · exact Or.inr (Or.inl h)
      · right; right
        obtain ⟨song, hsong, rfl⟩ := List.mem_map.mp h
        have hs := callsUntilFailure_subset cb _ song hsong
        obtain ⟨d, hd, rfl⟩ := List.mem_map.mp hs
        have hdr : d ∈ results := (List.mem_filter.mp hd).1
        rcases hres results hr with h0 | h1
        · rw [h0] at hdr; cases hdr
        · exact ⟨q, results, d, h1, hdr, rfl⟩

theorem VisitServer_navigable (upnp_tags : List (String × TagType))
    (server : ContentDirectoryService) (vpath : List String) (selection : DatabaseSelection)
    (visit_directory : Visitor String) (visit_song : Visitor UpnpSong)
    (visit_playlist : Visitor String) (hnav : vpath.head? ≠ some "0") :
    VisitServer upnp_tags server vpath selection visit_directory visit_song visit_playlist =
      VisitServerTarget upnp_tags server vpath selection visit_directory visit_song
        visit_playlist := by
  unfold VisitServer
  cases vpath with
  | nil => rfl
  | cons front rest =>
    have hf : front ≠ rootid := by
      intro h
      apply hnav
      rw [h]
      rfl
    simp only [if_neg hf]

theorem VisitServerTarget_of_Namei_ok (upnp_tags : List (String × TagType))
    (server : ContentDirectoryService) (vpath : List String) (selection : DatabaseSelection)
    (visit_directory : Visitor String) (visit_song : Visitor UpnpSong)
    (visit_playlist : Visitor String) (tdirent : UPnPDirObject)
    (hN : (Namei server vpath).res = Except.ok tdirent) (after : Run Unit)
    (hafter : after =
      if selection.recursive ∧ selection.filter.isSome then
        SearchSongs upnp_tags server tdirent.m_id selection visit_song
      else if tdirent.type = ObjType.ITEM then
        match tdirent.item_class with
        | ItemClass.MUSIC =>
          match visit_song with
          | some _ => visitSong tdirent selection.uri selection visit_song
          | none => Run.ret ()
        | ItemClass.PLAYLIST => Run.ret ()
        | ItemClass.UNKNOWN => Run.ret ()
      else
        Run.andThen (Run.call (Event.readDir server.friendlyName tdirent.m_id)
          (server.readDir tdirent.m_id))
          (fun dirbuf =>
            visitServerLoop selection visit_directory visit_song visit_playlist dirbuf)) :
    VisitServerTarget upnp_tags server vpath selection visit_directory visit_song
        visit_playlist =
      ⟨(Namei server vpath).log ++ after.log, after.res⟩ := by
  subst hafter
  show Run.andThen (Namei server vpath) _ = _
  rw [Run.andThen_ok _ tdirent _ hN]
  rfl

/-- C15. On a path that does not begin with the segment `0` and that `Namei`
resolves to the node `n`, with a selection that is recursive and carries a
filter, `VisitServer` does what resolving the path does and then what the
visiting `SearchSongs` rooted at `n.m_id` does, with the same result. The
calls of that search are the capability query, the search below `n.m_id` and
item callbacks for search results: no listing, no directory callback and no
playlist callback. -/
theorem VisitServer_recursive_with_filter_searches (upnp_tags : List (String × TagType))
    (server : ContentDirectoryService) (vpath : List String) (selection : DatabaseSelection)
    (filter : SongFilter) (n : UPnPDirObject)
    (visit_directory : Visitor String) (visit_song : Visitor UpnpSong)
    (visit_playlist : Visitor String)
    (hnav : vpath.head? ≠ some "0")
    (hrec : selection.recursive = true) (hfilter : selection.filter = some filter)
    (hN : (Namei server vpath).res = Except.ok n) :
    VisitServer upnp_tags server vpath selection visit_directory visit_song visit_playlist =
      ⟨(Namei server vpath).log ++
          (SearchSongs upnp_tags server n.m_id selection visit_song).log,
        (SearchSongs upnp_tags server n.m_id selection visit_song).res⟩ ∧
    ∀ ev ∈ (SearchSongs upnp_tags server n.m_id selection visit_song).log,
      ev = Event.getSearchCapabilities server.friendlyName ∨
      (∃ q, ev = Event.search server.friendlyName n.m_id q) ∨
      ∃ q results d, server.search n.m_id q = Except.ok results ∧ d ∈ results ∧
        ev = Event.visit_song (resultSong server d) := by
  refine ⟨?_, SearchSongs_log_shape upnp_tags server n.m_id selection visit_song⟩
  rw [VisitServer_navigable _ _ _ _ _ _ _ hnav]
  apply VisitServerTarget_of_Namei_ok _ _ _ _ _ _ _ n hN
  have : selection.recursive = true ∧ selection.filter.isSome = true := by
    rw [hrec, hfilter]
    exact ⟨rfl, rfl⟩
  rw [if_pos this]

/-- C15 on `Stereo` and the path `Music` with a recursive selection that
carries a filter: after the listing that resolves the path, the search below
the id `7` and its two songs. -/
theorem VisitServer_recursive_with_filter_searches_witness :
    (Namei stereo ["Music"]).res = Except.ok sampleContainer ∧
    (VisitServer sample_upnp_tags stereo ["Music"] ⟨"Stereo/Music", true, some sampleFilter⟩
      (some acceptAll) (some acceptAll) (some acceptAll)).log =
      [Event.readDir "Stereo" "0", Event.getSearchCapabilities "Stereo",
       Event.search "Stereo" "7" "(A = \"v\" or B = \"v\")",
       Event.visit_song (resultSong stereo sampleSong),
       Event.visit_song (resultSong stereo sampleSlashSong)] :=
  have hN : (Namei stereo ["Music"]).res = Except.ok sampleContainer := by
    unfold Namei NameiLoop
    rfl
  have hL : (Namei stereo ["Music"]).log = [Event.readDir "Stereo" "0"] := by
    unfold Namei NameiLoop
    rfl
  ⟨hN,
    (congrArg Run.log (VisitServer_recursive_with_filter_searches sample_upnp_tags stereo
      ["Music"] ⟨"Stereo/Music", true, some sampleFilter⟩ sampleFilter sampleContainer
      (some acceptAll) (some acceptAll) (some acceptAll) (by decide) rfl rfl hN).1).trans
      (by rw [hL]; decide)⟩

theorem visitServerLoop_cons (selection : DatabaseSelection)
    (visit_directory : Visitor String) (visit_song : Visitor UpnpSong)
    (visit_playlist : Visitor String) (child : UPnPDirObject) (rest : List UPnPDirObject)
    (hkind : child.type ≠ ObjType.UNKNOWN) :
    visitServerLoop selection visit_directory visit_song visit_playlist (child :: rest) =
      match childCall selection visit_directory visit_song child with
      | none => visitServerLoop selection visit_directory visit_song visit_playlist rest
      | some call =>
        Run.andThen (Run.call call.1 call.2)
          (fun _ => visitServerLoop selection visit_directory visit_song visit_playlist rest) := by
  rw [visitServerLoop]
  unfold childCall
  cases ht : child.type with
  | UNKNOWN => exact absurd ht hkind
  | CONTAINER =>
    cases visit_directory with
    | none => rfl
    | some cb => rfl
  | ITEM =>
    cases hc : child.item_class with
    | UNKNOWN => simp
    | PLAYLIST => simp
    | MUSIC =>
      cases visit_song with
      | none => rfl
      | some cb =>
        dsimp only
        show Run.andThen (visitSong child _ selection (some cb)) _ = _
        rw [visitSong_some]
        have hp : (if ¬ selection.recursive = true then
            PathTraitsUTF8.Build selection.uri child.name else "") =
            (if selection.recursive = true then "" else selection.uri ++ "/" ++ child.name) := by
          cases selection.recursive <;> rfl
        rw [hp]
        simp only [if_true]
        generalize (if selection.recursive = true then ""
          else selection.uri ++ "/" ++ child.name) = path
        by_cases hm : selection.Match (UpnpSong.ofObject child path) = true
        · rw [if_pos hm, if_pos hm]
          rfl
        · rw [if_neg hm, if_neg hm]
          rfl

theorem visitServerLoop_eq (selection : DatabaseSelection)
    (visit_directory : Visitor String) (visit_song : Visitor UpnpSong)
    (visit_playlist : Visitor String) (children : List UPnPDirObject)
    (hkinds : ∀ child ∈ children, child.type ≠ ObjType.UNKNOWN) :
    visitServerLoop selection visit_directory visit_song visit_playlist children =
      ⟨(callsUntilFailure Prod.snd
          (children.filterMap (childCall selection visit_directory visit_song))).map Prod.fst,
        firstFailure Prod.snd
          (children.filterMap (childCall selection visit_directory visit_song))⟩ := by
  induction children with
  | nil => rfl
  | cons child rest ih =>
    have hrest := ih (fun c hc => hkinds c (List.mem_cons_of_mem _ hc))
    rw [visitServerLoop_cons _ _ _ _ _ _ (hkinds child (List.mem_cons_self _ _)), hrest]
    cases hcall : childCall selection visit_directory visit_song child with
    | none => simp [List.filterMap_cons, hcall]
    | some call =>
      obtain ⟨ev, ans⟩ := call
      simp only [List.filterMap_cons, hcall]
      cases ans with
      | error e =>
        rw [Run.call_andThen_error _ _ e _ rfl]
        simp [callsUntilFailure, firstFailure]
      | ok u =>
        rw [Run.call_andThen_ok _ _ u _ rfl]
        simp [callsUntilFailure, firstFailure]

/-- C16. On a path that does not begin with `0` and that `Namei` resolves to
the Container `t`, with a selection that asks for no search and a listing of
`t` that succeeds with children of the kinds Container and Item,
`VisitServer` resolves the path, lists `t` once and then goes through the
children in listing order, making for each child the call that `childCall`
describes and stopping at the first callback that fails; when no callback
fails these are the calls for all children and the result is success. A
Container child is handed to the directory callback under `selection.uri`,
a slash and its name; when the selection is not recursive a music item that
passes the match is handed to the item callback under the same kind of
path. No call for a child is a remote call: no child is listed. -/
theorem VisitServer_lists_container_one_level (upnp_tags : List (String × TagType))
    (server : ContentDirectoryService) (vpath : List String) (selection : DatabaseSelection)
    (t : UPnPDirObject) (children : List UPnPDirObject)
    (visit_directory : Visitor String) (visit_song : Visitor UpnpSong)
    (visit_playlist : Visitor String)
    (hnav : vpath.head? ≠ some "0")
    (hN : (Namei server vpath).res = Except.ok t) (ht : t.type = ObjType.CONTAINER)
    (hsearch : selection.recursive = false ∨ selection.filter = none)
    (hlist : server.readDir t.m_id = Except.ok children)
    (hkinds : ∀ child ∈ children, child.type ≠ ObjType.UNKNOWN) :
    VisitServer upnp_tags server vpath selection visit_directory visit_song visit_playlist =
      ⟨(Namei server vpath).log ++ Event.readDir server.friendlyName t.m_id ::
          (callsUntilFailure Prod.snd
            (children.filterMap (childCall selection visit_directory visit_song))).map
            Prod.fst,
        firstFailure Prod.snd
          (children.filterMap (childCall selection visit_directory visit_song))⟩ ∧
    ((∀ call ∈ children.filterMap (childCall selection visit_directory visit_song),
        call.2 = Except.ok ()) →
      VisitServer upnp_tags server vpath selection visit_directory visit_song visit_playlist =
        ⟨(Namei server vpath).log ++ Event.readDir server.friendlyName t.m_id ::
            (children.filterMap (childCall selection visit_directory visit_song)).map
              Prod.fst,
          Except.ok ()⟩) ∧
    (∀ child cb, child.type = ObjType.CONTAINER → visit_directory = some cb →
      childCall selection visit_directory visit_song child =
        some (Event.visit_directory (selection.uri ++ "/" ++ child.name),
          cb (selection.uri ++ "/" ++ child.name))) ∧
    (∀ child cb, child.type = ObjType.ITEM → child.item_class = ItemClass.MUSIC →
      visit_song = some cb → selection.recursive = false →
      selection.Match ⟨selection.uri ++ "/" ++ child.name, child.url, child.tag⟩ = true →
      childCall selection visit_directory visit_song child =
        some (Event.visit_song ⟨selection.uri ++ "/" ++ child.name, child.url, child.tag⟩,
          cb ⟨selection.uri ++ "/" ++ child.name, child.url, child.tag⟩)) ∧
    (∀ child call, childCall selection visit_directory visit_song child = some call →
      call.1.isRemote = false ∧ call.1.isCallback = true) := by
  have hmain : VisitServer upnp_tags server vpath selection visit_directory visit_song
      visit_playlist =
      ⟨(Namei server vpath).log ++ Event.readDir server.friendlyName t.m_id ::
          (callsUntilFailure Prod.snd
            (children.filterMap (childCall selection visit_directory visit_song))).map
            Prod.fst,
        firstFailure Prod.snd
          (children.filterMap (childCall selection visit_directory visit_song))⟩ := by
    rw [VisitServer_navigable _ _ _ _ _ _ _ hnav,
      VisitServerTarget_of_Namei_ok _ _ _ _ _ _ _ t hN _ rfl]
    have h1 : ¬ (selection.recursive = true ∧ selection.filter.isSome = true) := by
      rintro ⟨hr, hf⟩
      rcases hsearch with h | h
      · rw [h] at hr; cases hr
      · rw [h] at hf; cases hf
    have h2 : ¬ t.type = ObjType.ITEM := by rw [ht]; decide
    rw [if_neg h1, if_neg h2, Run.call_andThen_ok _ _ _ _ hlist,
      visitServerLoop_eq _ _ _ _ _ hkinds]
  refine ⟨hmain, ?_, ?_, ?_, ?_⟩
  · intro hok
    rw [hmain]
    have h := callsUntilFailure_of_ok Prod.snd
      (children.filterMap (childCall selection visit_directory visit_song)) hok
    rw [h.1, h.2]
  · intro child cb hc hvd
    unfold childCall
    rw [hc, hvd]
    rfl
  · intro child cb hc hm hvs hrec hmatch
    unfold childCall
    rw [hc, hvs]
    simp only [hm, if_true, hrec, Bool.false_eq_true, if_false]
    have hm2 : selection.Match
        (UpnpSong.ofObject child (selection.uri ++ "/" ++ child.name)) = true := hmatch
    rw [if_pos hm2]
    rfl
  · intro child call hcall
    unfold childCall at hcall
    cases hc : child.type with
    | UNKNOWN => rw [hc] at hcall; cases hcall
    | CONTAINER =>
      rw [hc] at hcall
      cases visit_directory with
      | none => cases hcall
      | some cb =>
        cases hcall
        exact ⟨rfl, rfl⟩
    | ITEM =>
      rw [hc] at hcall
      dsimp only at hcall
      by_cases hm : child.item_class = ItemClass.MUSIC
      · rw [if_pos hm] at hcall
        cases visit_song with
        | none => cases hcall
        | some cb =>
          dsimp only at hcall
          generalize (if selection.recursive = true then ""
            else selection.uri ++ "/" ++ child.name) = path at hcall
          by_cases hmatch : selection.Match (UpnpSong.ofObject child path) = true
          · rw [if_pos hmatch] at hcall
            cases hcall
            exact ⟨rfl, rfl⟩
          · rw [if_neg hmatch] at hcall
            cases hcall
      · rw [if_neg hm] at hcall
        cases hcall

/-- C16 on `Stereo` and the path `Music`, not recursive: one listing of the
container `7` after the listing that resolves the path, then the two songs
under `Stereo/Music/` and their names; the playlist item is skipped. -/
theorem VisitServer_lists_container_one_level_witness :
    (Namei stereo ["Music"]).res = Except.ok sampleContainer ∧
    stereo.readDir "7" = Except.ok [sampleSong, samplePlaylist, sampleSlashSong] ∧
    VisitServer sample_upnp_tags stereo ["Music"] ⟨"Stereo/Music", false, none⟩
        (some acceptAll) (some acceptAll) (some acceptAll) =
      ⟨(Namei stereo ["Music"]).log ++
        [Event.readDir "Stereo" "7",
         Event.visit_song ⟨"Stereo/Music/Satisfaction", sampleSong.url, sampleSong.tag⟩,
         Event.visit_song ⟨"Stereo/Music/Angie", sampleSlashSong.url, sampleSlashSong.tag⟩],
       Except.ok ()⟩ :=
  have hN : (Namei stereo ["Music"]).res = Except.ok sampleContainer := by
    unfold Namei NameiLoop
    rfl
  ⟨hN, rfl,
    (VisitServer_lists_container_one_level sample_upnp_tags stereo ["Music"]
      ⟨"Stereo/Music", false, none⟩ sampleContainer
      [sampleSong, samplePlaylist, sampleSlashSong]
      (some acceptAll) (some acceptAll) (some acceptAll) (by decide) hN rfl (Or.inl rfl) rfl
      (by decide)).1.trans rfl⟩

/-- C17 as stated fails for a playlist item: on `Stereo` the path `Music/Mix`
resolves to an item of the playlist class, and `VisitServer` with a playlist
callback returns success after the two listings that resolve the path,
without having invoked the callback. -/
theorem VisitServer_does_not_invoke_playlist_callback :
    (Namei stereo ["Music", "Mix"]).res = Except.ok samplePlaylist ∧
    samplePlaylist.type = ObjType.ITEM ∧
    samplePlaylist.item_class = ItemClass.PLAYLIST ∧
    VisitServer sample_upnp_tags stereo ["Music", "Mix"] ⟨"Stereo/Music/Mix", false, none⟩
        (some acceptAll) (some acceptAll) (some acceptAll) =
      ⟨[Event.readDir "Stereo" "0", Event.readDir "Stereo" "7"], Except.ok ()⟩ := by
  refine ⟨?_, rfl, rfl, ?_⟩
  · unfold Namei NameiLoop NameiLoop
    rfl
  · unfold VisitServer VisitServerTarget Namei NameiLoop NameiLoop
    rfl

/-- C17, as the code has it. On a path that does not begin with `0` and that
`Namei` resolves to the Item `t`, with a selection that asks for no search,
`VisitServer` lists nothing after resolving the path. A music item is handed
once to the item callback, under the requested path `selection.uri`, when a
callback is set and the song passes the selection's match, and the result is
then what the callback returns; otherwise nothing is invoked and the result
is success. For an item of the playlist class or of an unknown class no
callback is invoked, whatever callbacks are set, and the result is
success. -/
theorem VisitServer_on_item (upnp_tags : List (String × TagType))
    (server : ContentDirectoryService) (vpath : List String) (selection : DatabaseSelection)
    (t : UPnPDirObject)
    (visit_directory : Visitor String) (visit_song : Visitor UpnpSong)
    (visit_playlist : Visitor String)
    (hnav : vpath.head? ≠ some "0")
    (hN : (Namei server vpath).res = Except.ok t) (ht : t.type = ObjType.ITEM)
    (hsearch : selection.recursive = false ∨ selection.filter = none) :
    (t.item_class = ItemClass.MUSIC → ∀ cb, visit_song = some cb →
      selection.Match ⟨selection.uri, t.url, t.tag⟩ = true →
      VisitServer upnp_tags server vpath selection visit_directory visit_song visit_playlist =
        ⟨(Namei server vpath).log ++ [Event.visit_song ⟨selection.uri, t.url, t.tag⟩],
          cb ⟨selection.uri, t.url, t.tag⟩⟩) ∧
    (t.item_class = ItemClass.MUSIC → ∀ cb, visit_song = some cb →
      selection.Match ⟨selection.uri, t.url, t.tag⟩ = false →
      VisitServer upnp_tags server vpath selection visit_directory visit_song visit_playlist =
        ⟨(Namei server vpath).log, Except.ok ()⟩) ∧
    (t.item_class = ItemClass.MUSIC → visit_song = none →
      VisitServer upnp_tags server vpath selection visit_directory visit_song visit_playlist =
        ⟨(Namei server vpath).log, Except.ok ()⟩) ∧
    (t.item_class ≠ ItemClass.MUSIC →
      VisitServer upnp_tags server vpath selection visit_directory visit_song visit_playlist =
        ⟨(Namei server vpath).log, Except.ok ()⟩) := by
  have h1 : ¬ (selection.recursive = true ∧ selection.filter.isSome = true) := by
    rintro ⟨hr, hf⟩
    rcases hsearch with h | h
    · rw [h] at hr; cases hr
    · rw [h] at hf; cases hf
  have hV := VisitServerTarget_of_Namei_ok upnp_tags server vpath selection visit_directory
    visit_song visit_playlist t hN _ rfl
  rw [← VisitServer_navigable _ _ _ _ _ _ _ hnav, if_neg h1, if_pos ht] at hV
  rw [hV]
  refine ⟨?_, ?_, ?_, ?_⟩
  · intro hm cb hvs hmatch
    rw [hm, hvs]
    dsimp only
    rw [visitSong_some]
    have hm2 : selection.Match (UpnpSong.ofObject t selection.uri) = true := hmatch
    rw [if_pos hm2]
    rfl
  · intro hm cb hvs hmatch
    rw [hm, hvs]
    dsimp only
    rw [visitSong_some]
    have hm2 : ¬ selection.Match (UpnpSong.ofObject t selection.uri) = true := by
      have : selection.Match (UpnpSong.ofObject t selection.uri) = false := hmatch
      rw [this]
      decide
    rw [if_neg hm2]
    simp
  · intro hm hvs
    rw [hm, hvs]
    simp [Run.ret]
  · intro hm
    cases hc : t.item_class with
    | MUSIC => exact absurd hc hm
    | PLAYLIST => simp [Run.ret]
    | UNKNOWN => simp [Run.ret]

/-- C17 (as the code has it) on `Stereo` and the path `Music/Satisfaction`,
which resolves to a music item. -/
theorem VisitServer_on_item_witness :
    (Namei stereo ["Music", "Satisfaction"]).res = Except.ok sampleSong ∧
    VisitServer sample_upnp_tags stereo ["Music", "Satisfaction"]
        ⟨"Stereo/Music/Satisfaction", false, none⟩
        (some acceptAll) (some acceptAll) (some acceptAll) =
      ⟨(Namei stereo ["Music", "Satisfaction"]).log ++
        [Event.visit_song ⟨"Stereo/Music/Satisfaction", sampleSong.url, sampleSong.tag⟩],
       Except.ok ()⟩ :=
  have hN : (Namei stereo ["Music", "Satisfaction"]).res = Except.ok sampleSong := by
    unfold Namei NameiLoop NameiLoop
    rfl
  ⟨hN,
    (VisitServer_on_item sample_upnp_tags stereo ["Music", "Satisfaction"]
      ⟨"Stereo/Music/Satisfaction", false, none⟩ sampleSong
      (some acceptAll) (some acceptAll) (some acceptAll) (by decide) hN rfl (Or.inl rfl)).1
      rfl acceptAll rfl rfl⟩

/-! ## `VisitUniqueTags` -/

theorem mem_insertSorted (value a : String) (values : List String) :
    a ∈ insertSorted value values ↔ a = value ∨ a ∈ values := by
  induction values with
  | nil => simp [insertSorted]
  | cons x rest ih =>
    unfold insertSorted
    split
    · simp
    · simp only [List.mem_cons, ih]
      constructor
      · rintro (h | h | h)
        · exact Or.inr (Or.inl h)
        · exact Or.inl h
        · exact Or.inr (Or.inr h)
      · rintro (h | h | h)
        · exact Or.inr (Or.inl h)
        · exact Or.inl h
        · exact Or.inr (Or.inr h)

theorem nodup_insertSorted (value : String) (values : List String)
    (hv : value ∉ values) (hn : values.Nodup) : (insertSorted value values).Nodup := by
  induction values with
  | nil => simp [insertSorted]
  | cons x rest ih =>
    unfold insertSorted
    split
    · exact List.nodup_cons.mpr ⟨hv, hn⟩
    · have hx : x ∉ rest := (List.nodup_cons.mp hn).1
      have hr : rest.Nodup := (List.nodup_cons.mp hn).2
      have hv2 : value ∉ rest := fun h => hv (List.mem_cons_of_mem _ h)
      have hxv : x ≠ value := fun h => hv (by rw [h]; exact List.mem_cons_self _ _)
      apply List.nodup_cons.mpr
      refine ⟨?_, ih hv2 hr⟩
      rw [mem_insertSorted]
      rintro (h | h)
      · exact hxv h
      · exact hx h

theorem setInsert_spec (values : List String) (value : String) (hn : values.Nodup) :
    (setInsert values value).Nodup ∧
    ∀ a, a ∈ setInsert values value ↔ a ∈ values ∨ a = value := by
  unfold setInsert
  split
  · next h =>
    refine ⟨hn, fun a => ⟨Or.inl, ?_⟩⟩
    rintro (h1 | h1)
    · exact h1
    · rw [h1]; exact h
  · next h =>
    refine ⟨nodup_insertSorted value values h hn, fun a => ?_⟩
    rw [mem_insertSorted]
    exact Or.comm

theorem collectLoop_spec (tag : TagType) (results : List UPnPDirObject) :
    ∀ values : List String, values.Nodup →
      (collectLoop tag values results).Nodup ∧
      ∀ a, a ∈ collectLoop tag values results ↔
        a ∈ values ∨ ∃ r ∈ results, r.type = ObjType.ITEM ∧
          r.item_class = ItemClass.MUSIC ∧ r.tag.GetValue tag = some a := by
  induction results with
  | nil =>
    intro values hn
    exact ⟨hn, fun a => by simp [collectLoop]⟩
  | cons d rest ih =>
    intro values hn
    unfold collectLoop
    by_cases hm : d.type ≠ ObjType.ITEM ∨ d.item_class ≠ ItemClass.MUSIC
    · rw [if_pos hm]
      obtain ⟨h1, h2⟩ := ih values hn
      refine ⟨h1, fun a => ?_⟩
      rw [h2 a]
      constructor
      · rintro (h | ⟨r, hr, h⟩)
        · exact Or.inl h
        · exact Or.inr ⟨r, List.mem_cons_of_mem _ hr, h⟩
      · rintro (h | ⟨r, hr, ht, hc, hg⟩)
        · exact Or.inl h
        · rcases List.mem_cons.mp hr with rfl | hr2
          · rcases hm with hm | hm
            · exact absurd ht hm
            · exact absurd hc hm
          · exact Or.inr ⟨r, hr2, ht, hc, hg⟩
    · rw [if_neg hm]
      have ht : d.type = ObjType.ITEM := by
        by_contra h; exact hm (Or.inl h)
      have hc : d.item_class = ItemClass.MUSIC := by
        by_contra h; exact hm (Or.inr h)
      cases hg : d.tag.GetValue tag with
      | none =>
        dsimp only
        obtain ⟨h1, h2⟩ := ih values hn
        refine ⟨h1, fun a => ?_⟩
        rw [h2 a]
        constructor
        · rintro (h | ⟨r, hr, h⟩)
          · exact Or.inl h
          · exact Or.inr ⟨r, List.mem_cons_of_mem _ hr, h⟩
        · rintro (h | ⟨r, hr, ht2, hc2, hg2⟩)
          · exact Or.inl h
          · rcases List.mem_cons.mp hr with rfl | hr2
            · rw [hg] at hg2; cases hg2
            · exact Or.inr ⟨r, hr2, ht2, hc2, hg2⟩
      | some value =>
        dsimp only
        obtain ⟨hs1, hs2⟩ := setInsert_spec values value hn
        obtain ⟨h1, h2⟩ := ih (setInsert values value) hs1
        refine ⟨h1, fun a => ?_⟩
        rw [h2 a, hs2 a]
        constructor
        · rintro ((h | h) | ⟨r, hr, h⟩)
          · exact Or.inl h
          · exact Or.inr ⟨d, List.mem_cons_self _ _, ht, hc, by rw [hg, h]⟩
          · exact Or.inr ⟨r, List.mem_cons_of_mem _ hr, h⟩
        · rintro (h | ⟨r, hr, ht2, hc2, hg2⟩)
          · exact Or.inl (Or.inl h)
          · rcases List.mem_cons.mp hr with rfl | hr2
            · rw [hg] at hg2
              exact Or.inl (Or.inr (Option.some.inj hg2).symm)
            · exact Or.inr ⟨r, hr2, ht2, hc2, hg2⟩

theorem uniqueTagsServersLoop_ok (upnp_tags : List (String × TagType))
    (selection : DatabaseSelection) (tag : TagType)
    (servers : List ContentDirectoryService) :
    ∀ values : List String, values.Nodup →
      (∀ server ∈ servers, ∃ results,
        (SearchSongs_dirbuf upnp_tags server rootid selection).res = Except.ok results) →
      ∃ out : List String,
        uniqueTagsServersLoop upnp_tags selection tag values servers =
          ⟨searchesLog upnp_tags selection servers, Except.ok out⟩ ∧
        out.Nodup ∧
        ∀ a, a ∈ out ↔ a ∈ values ∨ IsTagValue upnp_tags selection tag servers a := by
  induction servers with
  | nil =>
    intro values hn _
    refine ⟨values, rfl, hn, fun a => ?_⟩
    simp [IsTagValue]
  | cons server rest ih =>
    intro values hn hall
    obtain ⟨results, hres⟩ := hall server (List.mem_cons_self _ _)
    obtain ⟨hc1, hc2⟩ := collectLoop_spec tag results values hn
    obtain ⟨out, hrun, hout, hmem⟩ := ih (collectLoop tag values results) hc1
      (fun s hs => hall s (List.mem_cons_of_mem _ hs))
    refine ⟨out, ?_, hout, fun a => ?_⟩
    · show Run.andThen (SearchSongs_dirbuf upnp_tags server rootid selection) _ = _
      rw [Run.andThen_ok _ results _ hres, hrun]
      rfl
    · rw [hmem a, hc2 a]
      constructor
      · rintro ((h | ⟨r, hr, h⟩) | ⟨s, hs, h⟩)
        · exact Or.inl h
        · exact Or.inr ⟨server, List.mem_cons_self _ _, results, hres, r, hr, h⟩
        · exact Or.inr ⟨s, List.mem_cons_of_mem _ hs, h⟩
      · rintro (h | ⟨s, hs, R, hR, r, hr, h⟩)
        · exact Or.inl (Or.inl h)
        · rcases List.mem_cons.mp hs with rfl | hs2
          · rw [hres] at hR
            cases hR
            exact Or.inl (Or.inr ⟨r, hr, h⟩)
          · exact Or.inr ⟨s, hs2, R, hR, r, hr, h⟩

theorem visitStringsLoop_eq (cb : String → Except Error Unit) (values : List String) :
    visitStringsLoop cb values =
      ⟨(callsUntilFailure cb values).map Event.visit_string, firstFailure cb values⟩ := by
  induction values with
  | nil => rfl
  | cons value rest ih =>
    show Run.andThen (Run.call _ (cb value)) _ = _
    rw [ih]
    cases hcb : cb value with
    | error e =>
      rw [Run.call_andThen_error _ _ e _ rfl]
      simp [callsUntilFailure, firstFailure, hcb]
    | ok u =>
      rw [Run.call_andThen_ok _ _ u _ rfl]
      simp [callsUntilFailure, firstFailure, hcb]

/-- C18. When the registry answers with the snapshot `servers` and the search
of every server succeeds, `VisitUniqueTags` takes the snapshot, searches the
servers in order and then offers to the string callback the elements of a
list `values` without repetition, stopping at the first failure of the
callback; with a callback that never fails every element is offered once and
the result is success. The elements of `values` are exactly the strings
that are the value of the tag of a music item among the search results,
rooted at `0`, of one of the servers. -/
theorem VisitUniqueTags_emits_each_distinct_value_once
    (upnp_tags : List (String × TagType)) (m_superdir : UPnPDeviceDirectory)
    (selection : DatabaseSelection) (tag : TagType) (cb : String → Except Error Unit)
    (servers : List ContentDirectoryService)
    (hservers : m_superdir.getDirServices = Except.ok servers)
    (hall : ∀ server ∈ servers, ∃ results,
      (SearchSongs_dirbuf upnp_tags server "0" selection).res = Except.ok results) :
    ∃ values : List String,
      values.Nodup ∧
      (∀ value, value ∈ values ↔
        ∃ server ∈ servers, ∃ results,
          (SearchSongs_dirbuf upnp_tags server "0" selection).res = Except.ok results ∧
          ∃ r ∈ results, r.type = ObjType.ITEM ∧ r.item_class = ItemClass.MUSIC ∧
            r.tag.GetValue tag = some value) ∧
      VisitUniqueTags upnp_tags m_superdir selection tag (some cb) =
        ⟨Event.getDirServices :: searchesLog upnp_tags selection servers ++
            (callsUntilFailure cb values).map Event.visit_string,
          firstFailure cb values⟩ ∧
      ((∀ value, cb value = Except.ok ()) →
        VisitUniqueTags upnp_tags m_superdir selection tag (some cb) =
          ⟨Event.getDirServices :: searchesLog upnp_tags selection servers ++
              values.map Event.visit_string,
            Except.ok ()⟩) := by
  obtain ⟨values, hrun, hnodup, hmem⟩ :=
    uniqueTagsServersLoop_ok upnp_tags selection tag servers [] List.nodup_nil hall
  have hmain : VisitUniqueTags upnp_tags m_superdir selection tag (some cb) =
      ⟨Event.getDirServices :: searchesLog upnp_tags selection servers ++
          (callsUntilFailure cb values).map Event.visit_string,
        firstFailure cb values⟩ := by
    show Run.andThen (Run.call Event.getDirServices m_superdir.getDirServices) _ = _
    rw [Run.call_andThen_ok _ _ _ _ hservers]
    show (⟨_ :: (Run.andThen (uniqueTagsServersLoop upnp_tags selection tag [] servers) _).log,
      (Run.andThen (uniqueTagsServersLoop upnp_tags selection tag [] servers) _).res⟩ :
        Run Unit) = _
    rw [hrun, Run.andThen_ok _ values _ rfl, visitStringsLoop_eq]
    rfl
  refine ⟨values, hnodup, fun value => ?_, hmain, fun hcb => ?_⟩
  · rw [hmem value]
    simp [IsTagValue, rootid]
  · rw [hmain]
    have h := callsUntilFailure_of_ok cb values (fun a _ => hcb a)
    rw [h.1, h.2]

/-- C18 on the directory of `Stereo` and `Radio` and the artist tag: the two
songs found on `Stereo` have the same artist, which is offered once. -/
theorem VisitUniqueTags_emits_each_distinct_value_once_witness :
    sampleDirectory.getDirServices = Except.ok [stereo, radio] ∧
    (∃ values : List String, values.Nodup ∧
      VisitUniqueTags sample_upnp_tags sampleDirectory ⟨"", true, some sampleFilter⟩
          TagType.TAG_ARTIST (some acceptAll) =
        ⟨Event.getDirServices ::
            searchesLog sample_upnp_tags ⟨"", true, some sampleFilter⟩ [stereo, radio] ++
            values.map Event.visit_string,
          Except.ok ()⟩) ∧
    (VisitUniqueTags sample_upnp_tags sampleDirectory ⟨"", true, some sampleFilter⟩
        TagType.TAG_ARTIST (some acceptAll)).log =
      [Event.getDirServices, Event.getSearchCapabilities "Stereo",
       Event.search "Stereo" "0" "(A = \"v\" or B = \"v\")",
       Event.getSearchCapabilities "Radio", Event.visit_string "Stones"] :=
  have h := VisitUniqueTags_emits_each_distinct_value_once sample_upnp_tags sampleDirectory
    ⟨"", true, some sampleFilter⟩ TagType.TAG_ARTIST acceptAll [stereo, radio] rfl
    (by
      intro server hs
      simp only [List.mem_cons, List.mem_singleton, List.not_mem_nil, or_false] at hs
      rcases hs with rfl | rfl
      · exact ⟨_, rfl⟩
      · exact ⟨_, rfl⟩)
  ⟨rfl,
    let ⟨values, hn, _, _, hok⟩ := h
    ⟨values, hn, hok (fun _ => rfl)⟩,
    by decide⟩

theorem SearchSongs_dirbuf_log_no_callback (upnp_tags : List (String × TagType))
    (server : ContentDirectoryService) (objid : String) (selection : DatabaseSelection) :
    ∀ ev ∈ (SearchSongs_dirbuf upnp_tags server objid selection).log,
      ev.isCallback = false := by
  obtain ⟨q, hpre, _⟩ := SearchSongs_dirbuf_shape upnp_tags server objid selection
  intro ev hev
  have := List.IsPrefix.subset hpre hev
  simp only [List.mem_cons, List.mem_singleton, List.not_mem_nil, or_false] at this
  rcases this with h | h <;> rw [h] <;> rfl

theorem searchesLog_no_callback (upnp_tags : List (String × TagType))
    (selection : DatabaseSelection) (servers : List ContentDirectoryService) :
    ∀ ev ∈ searchesLog upnp_tags selection servers, ev.isCallback = false := by
  induction servers with
  | nil => intro ev hev; cases hev
  | cons server rest ih =>
    intro ev hev
    rcases List.mem_append.mp hev with h | h
    · exact SearchSongs_dirbuf_log_no_callback _ _ _ _ ev h
    · exact ih ev h

theorem uniqueTagsServersLoop_error (upnp_tags : List (String × TagType))
    (selection : DatabaseSelection) (tag : TagType) (sj : ContentDirectoryService)
    (post : List ContentDirectoryService) (e : Error)
    (hsj : (SearchSongs_dirbuf upnp_tags sj rootid selection).res = Except.error e) :
    ∀ (pre : List ContentDirectoryService) (values : List String),
      (∀ server ∈ pre, ∃ results,
        (SearchSongs_dirbuf upnp_tags server rootid selection).res = Except.ok results) →
      uniqueTagsServersLoop upnp_tags selection tag values (pre ++ sj :: post) =
        ⟨searchesLog upnp_tags selection pre ++
            (SearchSongs_dirbuf upnp_tags sj rootid selection).log,
          Except.error e⟩ := by
  intro pre
  induction pre with
  | nil =>
    intro values _
    show Run.andThen (SearchSongs_dirbuf upnp_tags sj rootid selection) _ = _
    rw [Run.andThen_error _ e _ hsj]
    rfl
  | cons server rest ih =>
    intro values hall
    obtain ⟨results, hres⟩ := hall server (List.mem_cons_self _ _)
    have hih := ih (collectLoop tag values results)
      (fun s hs => hall s (List.mem_cons_of_mem _ hs))
    show Run.andThen (SearchSongs_dirbuf upnp_tags server rootid selection)
      (fun dirbuf => uniqueTagsServersLoop upnp_tags selection tag
        (collectLoop tag values dirbuf) (rest ++ sj :: post)) = _
    rw [Run.andThen_ok _ results _ hres, hih]
    simp [searchesLog]

theorem first_failing_server (upnp_tags : List (String × TagType))
    (selection : DatabaseSelection) (servers : List ContentDirectoryService)
    (h : ∃ sj ∈ servers, ∃ e,
      (SearchSongs_dirbuf upnp_tags sj rootid selection).res = Except.error e) :
    ∃ pre sj post e, servers = pre ++ sj :: post ∧
      (∀ server ∈ pre, ∃ results,
        (SearchSongs_dirbuf upnp_tags server rootid selection).res = Except.ok results) ∧
      (SearchSongs_dirbuf upnp_tags sj rootid selection).res = Except.error e := by
  induction servers with
  | nil =>
    obtain ⟨sj, hsj, _⟩ := h
    cases hsj
  | cons server rest ih =>
    cases hres : (SearchSongs_dirbuf upnp_tags server rootid selection).res with
    | error e => exact ⟨[], server, rest, e, rfl, ⟨fun s hs => absurd hs (List.not_mem_nil s), hres⟩⟩
    | ok results =>
      obtain ⟨sj, hsj, e, he⟩ := h
      have hrest : ∃ sj ∈ rest, ∃ e,
          (SearchSongs_dirbuf upnp_tags sj rootid selection).res = Except.error e := by
        rcases List.mem_cons.mp hsj with rfl | h2
        · rw [hres] at he; cases he
        · exact ⟨sj, h2, e, he⟩
      obtain ⟨pre, s2, post, e2, hsplit, hpre, hs2⟩ := ih hrest
      refine ⟨server :: pre, s2, post, e2, by rw [hsplit]; rfl, ?_, hs2⟩
      intro s hs
      rcases List.mem_cons.mp hs with rfl | h2
      · exact ⟨results, hres⟩
      · exact hpre s h2

theorem VisitUniqueTags_of_failure (upnp_tags : List (String × TagType))
    (m_superdir : UPnPDeviceDirectory) (selection : DatabaseSelection) (tag : TagType)
    (cb : String → Except Error Unit)
    (pre : List ContentDirectoryService) (sj : ContentDirectoryService)
    (post : List ContentDirectoryService) (e : Error)
    (hservers : m_superdir.getDirServices = Except.ok (pre ++ sj :: post))
    (hpre : ∀ server ∈ pre, ∃ results,
      (SearchSongs_dirbuf upnp_tags server rootid selection).res = Except.ok results)
    (hsj : (SearchSongs_dirbuf upnp_tags sj rootid selection).res = Except.error e) :
    VisitUniqueTags upnp_tags m_superdir selection tag (some cb) =
      ⟨Event.getDirServices :: (searchesLog upnp_tags selection pre ++
          (SearchSongs_dirbuf upnp_tags sj rootid selection).log),
        Except.error e⟩ := by
  show Run.andThen (Run.call Event.getDirServices m_superdir.getDirServices) _ = _
  rw [Run.call_andThen_ok _ _ _ _ hservers]
  show (⟨_ :: (Run.andThen
      (uniqueTagsServersLoop upnp_tags selection tag [] (pre ++ sj :: post)) _).log,
    (Run.andThen (uniqueTagsServersLoop upnp_tags selection tag [] (pre ++ sj :: post)) _).res⟩ :
      Run Unit) = _
  rw [uniqueTagsServersLoop_error upnp_tags selection tag sj post e hsj pre [] hpre,
    Run.andThen_error _ e _ rfl]

/-- C19. With the snapshot `servers` of the registry: when the search of the
server `sj` fails with the error `e` after the searches of the servers
before it have succeeded, `VisitUniqueTags` fails with `e` right after the
calls of that search; and whenever the search of any server of the snapshot
fails, `VisitUniqueTags` fails and no callback has been invoked. The search
of a server fails with `e` when the selection carries a filter and the
capability query fails with `e`, or the query answers with at least one
field and the search operation fails with `e`. -/
theorem VisitUniqueTags_fails_without_emitting (upnp_tags : List (String × TagType))
    (m_superdir : UPnPDeviceDirectory) (selection : DatabaseSelection) (tag : TagType)
    (cb : String → Except Error Unit) (servers : List ContentDirectoryService)
    (hservers : m_superdir.getDirServices = Except.ok servers) :
    (∀ pre sj post e, servers = pre ++ sj :: post →
      (∀ server ∈ pre, ∃ results,
        (SearchSongs_dirbuf upnp_tags server "0" selection).res = Except.ok results) →
      (SearchSongs_dirbuf upnp_tags sj "0" selection).res = Except.error e →
      VisitUniqueTags upnp_tags m_superdir selection tag (some cb) =
        ⟨Event.getDirServices :: (searchesLog upnp_tags selection pre ++
            (SearchSongs_dirbuf upnp_tags sj "0" selection).log),
          Except.error e⟩) ∧
    (∀ sj ∈ servers, ∀ e,
      (SearchSongs_dirbuf upnp_tags sj "0" selection).res = Except.error e →
      (∃ e2, (VisitUniqueTags upnp_tags m_superdir selection tag (some cb)).res =
        Except.error e2) ∧
      ∀ ev ∈ (VisitUniqueTags upnp_tags m_superdir selection tag (some cb)).log,
        ev.isCallback = false) ∧
    (∀ (server : ContentDirectoryService) (filter : SongFilter) (e : Error),
      selection.filter = some filter →
      (server.getSearchCapabilities = Except.error e ∨
        ∃ fields, server.getSearchCapabilities = Except.ok fields ∧ fields ≠ [] ∧
          server.search "0" (joinSep " and "
            (filter.items.filterMap (criterionQuery upnp_tags fields))) = Except.error e) →
      (SearchSongs_dirbuf upnp_tags server "0" selection).res = Except.error e) := by
  refine ⟨?_, ?_, ?_⟩
  · intro pre sj post e hsplit hpre hsj
    subst hsplit
    exact VisitUniqueTags_of_failure upnp_tags m_superdir selection tag cb pre sj post e
      hservers hpre hsj
  · intro sj hsj e he
    obtain ⟨pre, s2, post, e2, hsplit, hpre, hs2⟩ :=
      first_failing_server upnp_tags selection servers ⟨sj, hsj, e, he⟩
    subst hsplit
    have hV := VisitUniqueTags_of_failure upnp_tags m_superdir selection tag cb pre s2 post e2
      hservers hpre hs2
    rw [hV]
    refine ⟨⟨e2, rfl⟩, ?_⟩
    intro ev hev
    rcases List.mem_cons.mp hev with rfl | h
    · rfl
    · rcases List.mem_append.mp h with h1 | h1
      · exact searchesLog_no_callback _ _ _ ev h1
      · exact SearchSongs_dirbuf_log_no_callback _ _ _ _ ev h1
  · intro server filter e hfilter h
    unfold SearchSongs_dirbuf
    rw [hfilter]
    show (Run.andThen (Run.call _ server.getSearchCapabilities) _).res = _
    rcases h with hc | ⟨fields, hc, hne, hs⟩
    · rw [Run.call_andThen_error _ _ e _ hc]
    · rw [Run.call_andThen_ok _ _ _ _ hc]
      simp only [if_neg hne, condLoop_empty]
      exact hs

/-- C19 on the directory of `Stereo` and `Attic`: the search on `Stereo`
finds songs with an artist, the capability query of `Attic` fails, and the
call fails with that error without a single string callback. -/
theorem VisitUniqueTags_fails_without_emitting_witness :
    atticDirectory.getDirServices = Except.ok [stereo, attic] ∧
    VisitUniqueTags sample_upnp_tags atticDirectory ⟨"", true, some sampleFilter⟩
        TagType.TAG_ARTIST (some acceptAll) =
      ⟨[Event.getDirServices, Event.getSearchCapabilities "Stereo",
        Event.search "Stereo" "0" "(A = \"v\" or B = \"v\")",
        Event.getSearchCapabilities "Attic"],
       Except.error unreachable⟩ :=
  ⟨rfl,
    (VisitUniqueTags_fails_without_emitting sample_upnp_tags atticDirectory
      ⟨"", true, some sampleFilter⟩ TagType.TAG_ARTIST acceptAll [stereo, attic] rfl).1
      [stereo] attic [] unreachable rfl
      (by
        intro server hs
        rw [List.mem_singleton.mp hs]
        exact ⟨_, rfl⟩)
      rfl⟩

/-! ## Failures of remote calls -/

theorem FailStop_of_log_nil {α : Type} (server : ContentDirectoryService) (r : Run α)
    (h : r.log = []) : FailStop server r := by
  intro pre ev post e hlog _
  rw [h] at hlog
  cases pre <;> cases hlog

theorem FailStop_call {α : Type} (server : ContentDirectoryService) (ev : Event)
    (ans : Except Error α)
    (h : ∀ e, failureOf server ev = some e → ans = Except.error e) :
    FailStop server (Run.call ev ans) := by
  intro pre ev2 post e hlog hfail
  have hl : [ev] = pre ++ ev2 :: post := hlog
  cases pre with
  | nil =>
    simp only [List.nil_append, List.cons.injEq] at hl
    obtain ⟨h1, h2⟩ := hl
    subst h1
    exact ⟨h2.symm, h e hfail⟩
  | cons p ps =>
    simp only [List.cons_append, List.cons.injEq] at hl
    have := hl.2
    cases ps <;> cases this

theorem errorOf_eq_some {α : Type} (ans : Except Error α) (e : Error)
    (h : errorOf ans = some e) : ans = Except.error e := by
  cases ans with
  | error e2 =>
    simp only [errorOf, Option.some.injEq] at h
    rw [h]
  | ok a => cases h

theorem FailStop_andThen {α β : Type} (server : ContentDirectoryService) (x : Run α)
    (f : α → Run β) (hx : FailStop server x)
    (hf : ∀ a, x.res = Except.ok a → FailStop server (f a)) :
    FailStop server (Run.andThen x f) := by
  intro pre ev post e hlog hfail
  cases hr : x.res with
  | error err =>
    rw [Run.andThen_error _ err _ hr] at hlog ⊢
    have := hx pre ev post e hlog hfail
    rw [hr] at this
    have he : err = e := Except.error.inj this.2
    rw [he]
    exact ⟨this.1, rfl⟩
  | ok a =>
    rw [Run.andThen_ok _ a _ hr] at hlog ⊢
    have hl : x.log ++ (f a).log = pre ++ ev :: post := hlog
    rcases List.append_eq_append_iff.mp hl with ⟨mid, _, h2⟩ | ⟨mid, h1, h2⟩
    · exact hf a hr mid ev post e h2 hfail
    · cases mid with
      | nil => exact hf a hr [] ev post e h2.symm hfail
      | cons m ms =>
        simp only [List.cons_append, List.cons.injEq] at h2
        obtain ⟨h3, _⟩ := h2
        subst h3
        have := hx pre ev ms e h1 hfail
        rw [hr] at this
        cases this.2

theorem FailStop_ret {α : Type} (server : ContentDirectoryService) (a : α) :
    FailStop server (Run.ret a) := FailStop_of_log_nil server _ rfl

theorem FailStop_fail {α : Type} (server : ContentDirectoryService) (e : Error) :
    FailStop server (Run.fail e : Run α) := FailStop_of_log_nil server _ rfl

theorem FailStop_of_no_failure {α : Type} (server : ContentDirectoryService) (r : Run α)
    (h : ∀ ev ∈ r.log, failureOf server ev = none) : FailStop server r := by
  intro pre ev post e hlog hfail
  have hmem : ev ∈ r.log := by
    rw [hlog]
    exact List.mem_append_right _ (List.mem_cons_self _ _)
  rw [h ev hmem] at hfail
  cases hfail

theorem FailStop_ReadNode (server : ContentDirectoryService) (objid : String) :
    FailStop server (ReadNode server objid) := by
  show FailStop server (Run.andThen (Run.call _ (server.getMetadata objid)) _)
  apply FailStop_andThen
  · exact FailStop_call server _ _ (fun e h => errorOf_eq_some _ e h)
  · intro dirbuf _
    match dirbuf with
    | [] => exact FailStop_fail server _
    | [d] => exact FailStop_ret server d
    | _ :: _ :: _ => exact FailStop_fail server _

theorem FailStop_NameiLoop (server : ContentDirectoryService) (rest : List String) :
    ∀ objid seg : String, FailStop server (NameiLoop server objid seg rest) := by
  induction rest with
  | nil =>
    intro objid seg
    rw [NameiLoop]
    show FailStop server (Run.andThen (Run.call _ (server.readDir objid)) _)
    apply FailStop_andThen
    · exact FailStop_call server _ _ (fun e h => errorOf_eq_some _ e h)
    · intro dirbuf _
      dsimp only
      cases FindObject dirbuf seg with
      | none => exact FailStop_fail server _
      | some child => exact FailStop_ret server child
  | cons next rest2 ih =>
    intro objid seg
    rw [NameiLoop]
    show FailStop server (Run.andThen (Run.call _ (server.readDir objid)) _)
    apply FailStop_andThen
    · exact FailStop_call server _ _ (fun e h => errorOf_eq_some _ e h)
    · intro dirbuf _
      dsimp only
      cases FindObject dirbuf seg with
      | none => exact FailStop_fail server _
      | some child =>
        dsimp only
        split
        · exact FailStop_fail server _
        · exact ih child.m_id next

theorem FailStop_Namei (server : ContentDirectoryService) (vpath : List String) :
    FailStop server (Namei server vpath) := by
  cases vpath with
  | nil => exact FailStop_ReadNode server rootid
  | cons seg rest => exact FailStop_NameiLoop server rest rootid seg

theorem FailStop_SearchSongs_dirbuf (upnp_tags : List (String × TagType))
    (server : ContentDirectoryService) (objid : String) (selection : DatabaseSelection) :
    FailStop server (SearchSongs_dirbuf upnp_tags server objid selection) := by
  unfold SearchSongs_dirbuf
  cases selection.filter with
  | none => exact FailStop_ret server _
  | some filter =>
    show FailStop server (Run.andThen (Run.call _ server.getSearchCapabilities) _)
    apply FailStop_andThen
    · exact FailStop_call server _ _ (fun e h => errorOf_eq_some _ e h)
    · intro searchcaps _
      dsimp only
      split
      · exact FailStop_ret server _
      · exact FailStop_call server _ _ (fun e h => errorOf_eq_some _ e h)

theorem FailStop_visitSong (server : ContentDirectoryService) (object : UPnPDirObject)
    (path : String) (selection : DatabaseSelection) (visit_song : Visitor UpnpSong) :
    FailStop server (visitSong object path selection visit_song) := by
  cases visit_song with
  | none => exact FailStop_ret server _
  | some cb =>
    rw [visitSong_some]
    split
    · exact FailStop_call server _ _ (fun e h => by cases h)
    · exact FailStop_of_log_nil server _ rfl

theorem FailStop_searchSongsLoop (server : ContentDirectoryService)
    (selection : DatabaseSelection) (visit_song : Visitor UpnpSong)
    (results : List UPnPDirObject) :
    FailStop server (searchSongsLoop server selection visit_song results) := by
  induction results with
  | nil => exact FailStop_ret server _
  | cons d rest ih =>
    unfold searchSongsLoop
    split
    · exact ih
    · show FailStop server (Run.andThen (visitSong d _ selection visit_song) _)
      exact FailStop_andThen server _ _ (FailStop_visitSong server _ _ _ _) (fun _ _ => ih)

theorem FailStop_SearchSongs (upnp_tags : List (String × TagType))
    (server : ContentDirectoryService) (objid : String) (selection : DatabaseSelection)
    (visit_song : Visitor UpnpSong) :
    FailStop server (SearchSongs upnp_tags server objid selection visit_song) := by
  cases visit_song with
  | none => exact FailStop_ret server _
  | some cb =>
    show FailStop server (Run.andThen (SearchSongs_dirbuf upnp_tags server objid selection) _)
    exact FailStop_andThen server _ _ (FailStop_SearchSongs_dirbuf _ _ _ _)
      (fun _ _ => FailStop_searchSongsLoop server _ _ _)

theorem FailStop_visitServerLoop (server : ContentDirectoryService)
    (selection : DatabaseSelection) (visit_directory : Visitor String)
    (visit_song : Visitor UpnpSong) (visit_playlist : Visitor String)
    (children : List UPnPDirObject) :
    FailStop server
      (visitServerLoop selection visit_directory visit_song visit_playlist children) := by
  induction children with
  | nil => exact FailStop_ret server _
  | cons child rest ih =>
    rw [visitServerLoop]
    cases child.type with
    | UNKNOWN => exact FailStop_fail server _
    | CONTAINER =>
      cases visit_directory with
      | none =>
        show FailStop server (Run.andThen (Run.ret ()) _)
        exact FailStop_andThen server _ _ (FailStop_ret server _) (fun _ _ => ih)
      | some cb =>
        show FailStop server (Run.andThen (Run.call _ _) _)
        exact FailStop_andThen server _ _ (FailStop_call server _ _ (fun e h => by cases h))
          (fun _ _ => ih)
    | ITEM =>
      cases child.item_class with
      | UNKNOWN => exact ih
      | PLAYLIST => exact ih
      | MUSIC =>
        cases visit_song with
        | none =>
          show FailStop server (Run.andThen (Run.ret ()) _)
          exact FailStop_andThen server _ _ (FailStop_ret server _) (fun _ _ => ih)
        | some cb =>
          show FailStop server (Run.andThen (visitSong child _ selection (some cb)) _)
          exact FailStop_andThen server _ _ (FailStop_visitSong server _ _ _ _)
            (fun _ _ => ih)

theorem FailStop_VisitServerTarget (upnp_tags : List (String × TagType))
    (server : ContentDirectoryService) (vpath : List String) (selection : DatabaseSelection)
    (visit_directory : Visitor String) (visit_song : Visitor UpnpSong)
    (visit_playlist : Visitor String) :
    FailStop server (VisitServerTarget upnp_tags server vpath selection visit_directory
      visit_song visit_playlist) := by
  show FailStop server (Run.andThen (Namei server vpath) _)
  apply FailStop_andThen server _ _ (FailStop_Namei server vpath)
  intro tdirent _
  dsimp only
  split
  · exact FailStop_SearchSongs _ _ _ _ _
  · split
    · cases tdirent.item_class with
      | UNKNOWN => exact FailStop_ret server _
      | PLAYLIST => exact FailStop_ret server _
      | MUSIC =>
        cases visit_song with
        | none => exact FailStop_ret server _
        | some cb => exact FailStop_visitSong server _ _ _ _
    · show FailStop server (Run.andThen (Run.call _ (server.readDir tdirent.m_id)) _)
      exact FailStop_andThen server _ _
        (FailStop_call server _ _ (fun e h => errorOf_eq_some _ e h))
        (fun _ _ => FailStop_visitServerLoop server _ _ _ _ _)

theorem FailStop_VisitServer (upnp_tags : List (String × TagType))
    (server : ContentDirectoryService) (vpath : List String) (selection : DatabaseSelection)
    (visit_directory : Visitor String) (visit_song : Visitor UpnpSong)
    (visit_playlist : Visitor String) :
    FailStop server (VisitServer upnp_tags server vpath selection visit_directory
      visit_song visit_playlist) := by
  unfold VisitServer
  cases vpath with
  | nil => exact FailStop_VisitServerTarget _ _ _ _ _ _ _
  | cons front rest =>
    dsimp only
    split
    · cases visit_song with
      | none => exact FailStop_ret server _
      | some cb =>
        show FailStop server (Run.andThen (ReadNode server _) _)
        exact FailStop_andThen server _ _ (FailStop_ReadNode server _)
          (fun _ _ => FailStop_visitSong server _ _ _ _)
    · exact FailStop_VisitServerTarget _ _ _ _ _ _ _

theorem visitServersLoop_error (upnp_tags : List (String × TagType))
    (selection : DatabaseSelection) (visit_directory : Visitor String)
    (visit_song : Visitor UpnpSong) (visit_playlist : Visitor String)
    (s : ContentDirectoryService) (post : List ContentDirectoryService) (e : Error)
    (hs : (VisitServer upnp_tags s [] selection visit_directory visit_song
      visit_playlist).res = Except.error e) :
    ∀ pre : List ContentDirectoryService,
      (∀ p ∈ pre, (VisitServer upnp_tags p [] selection visit_directory visit_song
        visit_playlist).res = Except.ok ()) →
      visitServersLoop upnp_tags [] selection visit_directory visit_song visit_playlist
          (pre ++ s :: post) =
        ⟨visitsLog upnp_tags selection visit_directory visit_song visit_playlist pre ++
            (VisitServer upnp_tags s [] selection visit_directory visit_song
              visit_playlist).log,
          Except.error e⟩ := by
  intro pre
  induction pre with
  | nil =>
    intro _
    show Run.andThen (VisitServer upnp_tags s [] selection visit_directory visit_song
      visit_playlist) _ = _
    rw [Run.andThen_error _ e _ hs]
    rfl
  | cons p rest ih =>
    intro hall
    have hp := hall p (List.mem_cons_self _ _)
    have hih := ih (fun q hq => hall q (List.mem_cons_of_mem _ hq))
    show Run.andThen (VisitServer upnp_tags p [] selection visit_directory visit_song
      visit_playlist)
      (fun _ => visitServersLoop upnp_tags [] selection visit_directory visit_song
        visit_playlist (rest ++ s :: post)) = _
    rw [Run.andThen_ok _ () _ hp, hih]
    simp [visitsLog]

/-- C20. A failure of an operation that `Visit` issues ends the call with
that error. When the snapshot of the registry or the lookup of the server
fails, `Visit` fails with that error after that one call. When the lookup
gives `server`, the calls and the result of `Visit` are those of
`VisitServer` on it, and whenever a call in the log of `VisitServer` (a
listing, a metadata fetch, the capability query or the search) is answered
by the server with an error, that call is the last event of the log, so no
remote call and no callback follows it, and the result is that same error.
When the path is empty and the selection is recursive, the servers of the
snapshot are visited in order and the first failure of a visit ends the
call with its error, the following servers not being called. -/
theorem Visit_propagates_failures (upnp_tags : List (String × TagType))
    (m_superdir : UPnPDeviceDirectory) (selection : DatabaseSelection)
    (visit_directory : Visitor String) (visit_song : Visitor UpnpSong)
    (visit_playlist : Visitor String) :
    (∀ e, stringToTokens selection.uri = [] →
      m_superdir.getDirServices = Except.error e →
      Visit upnp_tags m_superdir selection visit_directory visit_song visit_playlist =
        ⟨[Event.getDirServices], Except.error e⟩) ∧
    (∀ servername vpath e, stringToTokens selection.uri = servername :: vpath →
      m_superdir.getServer servername = Except.error e →
      Visit upnp_tags m_superdir selection visit_directory visit_song visit_playlist =
        ⟨[Event.getServer servername], Except.error e⟩) ∧
    (∀ servername vpath server, stringToTokens selection.uri = servername :: vpath →
      m_superdir.getServer servername = Except.ok server →
      Visit upnp_tags m_superdir selection visit_directory visit_song visit_playlist =
        ⟨Event.getServer servername ::
            (VisitServer upnp_tags server vpath selection visit_directory visit_song
              visit_playlist).log,
          (VisitServer upnp_tags server vpath selection visit_directory visit_song
            visit_playlist).res⟩) ∧
    (∀ (server : ContentDirectoryService) (vpath : List String)
        (pre : List Event) (ev : Event) (post : List Event) (e : Error),
      (VisitServer upnp_tags server vpath selection visit_directory visit_song
        visit_playlist).log = pre ++ ev :: post →
      failureOf server ev = some e →
      post = [] ∧
      (VisitServer upnp_tags server vpath selection visit_directory visit_song
        visit_playlist).res = Except.error e) ∧
    (∀ servers pre s post e, stringToTokens selection.uri = [] →
      m_superdir.getDirServices = Except.ok servers → selection.recursive = true →
      servers = pre ++ s :: post →
      (∀ p ∈ pre, (VisitServer upnp_tags p [] selection visit_directory visit_song
        visit_playlist).res = Except.ok ()) →
      (VisitServer upnp_tags s [] selection visit_directory visit_song
        visit_playlist).res = Except.error e →
      Visit upnp_tags m_superdir selection visit_directory visit_song visit_playlist =
        ⟨Event.getDirServices ::
            (visitsLog upnp_tags selection visit_directory visit_song visit_playlist pre ++
              (VisitServer upnp_tags s [] selection visit_directory visit_song
                visit_playlist).log),
          Except.error e⟩) := by
  refine ⟨?_, ?_, ?_, ?_, ?_⟩
  · intro e hpath herr
    unfold Visit
    rw [hpath]
    show Run.andThen (Run.call Event.getDirServices m_superdir.getDirServices) _ = _
    rw [Run.call_andThen_error _ _ e _ herr]
  · intro servername vpath e hpath herr
    unfold Visit
    rw [hpath]
    show Run.andThen (Run.call _ (m_superdir.getServer servername)) _ = _
    rw [Run.call_andThen_error _ _ e _ herr]
  · intro servername vpath server hpath hok
    unfold Visit
    rw [hpath]
    show Run.andThen (Run.call _ (m_superdir.getServer servername)) _ = _
    rw [Run.call_andThen_ok _ _ server _ hok]
  · intro server vpath pre ev post e hlog hfail
    exact FailStop_VisitServer upnp_tags server vpath selection visit_directory visit_song
      visit_playlist pre ev post e hlog hfail
  · intro servers pre s post e hpath hok hrec hsplit hpre hs
    subst hsplit
    unfold Visit
    rw [hpath]
    show Run.andThen (Run.call Event.getDirServices m_superdir.getDirServices) _ = _
    rw [Run.call_andThen_ok _ _ _ _ hok]
    simp only [hrec, not_true_eq_false, if_false]
    rw [visitServersLoop_error upnp_tags selection visit_directory visit_song visit_playlist
      s post e hs pre hpre]

/-! ## `ReadNode` and `GetStats` -/

theorem ReadNode_res_ok_iff (server : ContentDirectoryService) (objid : String)
    (dirent : UPnPDirObject) :
    (ReadNode server objid).res = Except.ok dirent ↔
      server.getMetadata objid = Except.ok [dirent] := by
  rw [ReadNode_eq]
  constructor
  · intro h
    cases hm : server.getMetadata objid with
    | error e => rw [hm] at h; cases h
    | ok objects =>
      rw [hm] at h
      match objects, h with
      | [d], h2 =>
        cases h2
        rfl
  · intro h
    simp only [h]

/-- C21. `ReadNode` makes the one metadata fetch and succeeds with `dirent`
exactly when the fetch succeeds with the single object `dirent`; when the
fetch succeeds with no object or with two or more, `ReadNode` fails with the
error `Bad resource` of the UPnP domain; when the fetch fails, `ReadNode`
fails with the error of the fetch. -/
theorem ReadNode_succeeds_iff_exactly_one_object (server : ContentDirectoryService)
    (objid : String) :
    (ReadNode server objid).log = [Event.getMetadata server.friendlyName objid] ∧
    (∀ dirent, (ReadNode server objid).res = Except.ok dirent ↔
      server.getMetadata objid = Except.ok [dirent]) ∧
    (∀ objects, server.getMetadata objid = Except.ok objects → objects.length ≠ 1 →
      (ReadNode server objid).res =
        Except.error ⟨Domain.upnp_domain, 0, "Bad resource"⟩) ∧
    (∀ e, server.getMetadata objid = Except.error e →
      (ReadNode server objid).res = Except.error e) := by
  refine ⟨by rw [ReadNode_eq], ReadNode_res_ok_iff server objid, ?_, ?_⟩
  · intro objects ho hlen
    rw [ReadNode_eq]
    simp only [ho]
    match objects, hlen with
    | [], _ => rfl
    | [d], hl => exact absurd rfl hl
    | _ :: _ :: _, _ => rfl
  · intro e he
    rw [ReadNode_eq]
    simp only [he]

/-- C23. `GetStats` succeeds without a single call and leaves the four
counters of the statistics record at 0, whatever the selection and the
prior content of the record. -/
theorem GetStats_returns_zeroes (selection : DatabaseSelection) (stats : DatabaseStats) :
    GetStats selection stats = ⟨[], Except.ok ⟨0, 0, 0, 0⟩⟩ ∧
    (∀ result, (GetStats selection stats).res = Except.ok result →
      result.song_count = 0 ∧ result.total_duration = 0 ∧
      result.artist_count = 0 ∧ result.album_count = 0) := by
  refine ⟨rfl, ?_⟩
  intro result h
  have h2 : (Except.ok ⟨0, 0, 0, 0⟩ : Except Error DatabaseStats) = Except.ok result := h
  cases h2
  exact ⟨rfl, rfl, rfl, rfl⟩

/-! ## Termination of `BuildPath` -/

theorem BuildPathLoop_of_ReachesRoot (server : ContentDirectoryService) :
    ∀ (d : Nat) (pid path : String), ReachesRoot server pid d →
      ∀ extra : Nat, ∃ (log : List Event) (p : String),
        BuildPathLoop server (d + extra) pid path = some ⟨log, Except.ok p⟩ ∧
        log.length = d ∧
        ∀ ev ∈ log, ∃ objid, ev = Event.getMetadata server.friendlyName objid := by
  intro d
  induction d with
  | zero =>
    intro pid path h extra
    have hp : pid = rootid := h
    subst hp
    refine ⟨[], path, ?_, rfl, fun ev hev => by cases hev⟩
    rw [BuildPathLoop_root]
    rfl
  | succ d ih =>
    intro pid path h extra
    obtain ⟨hne, node, hfetch, hrest⟩ := h
    obtain ⟨log, p, hrun, hlen, hev⟩ := ih node.m_pid
      (if path = "" then node.name else PathTraitsUTF8.Build node.name path) hrest extra
    refine ⟨Event.getMetadata server.friendlyName pid :: log, p, ?_, by simp [hlen], ?_⟩
    · have hfuel : d + 1 + extra = (d + extra) + 1 := by omega
      rw [hfuel, BuildPathLoop_step server (d + extra) pid path node hne hfetch, hrun]
      rfl
    · intro ev hmem
      rcases List.mem_cons.mp hmem with h1 | h1
      · exact ⟨pid, h1⟩
      · exact hev ev h1

theorem BuildPathLoop_needs_fuel (server : ContentDirectoryService) :
    ∀ (d : Nat) (pid path : String), ReachesRoot server pid d →
      ∀ fuel : Nat, fuel < d → BuildPathLoop server fuel pid path = none := by
  intro d
  induction d with
  | zero => intro pid path _ fuel hf; omega
  | succ d ih =>
    intro pid path h fuel hf
    obtain ⟨hne, node, hfetch, hrest⟩ := h
    have hne2 : pid ≠ rootid := hne
    cases fuel with
    | zero => rw [BuildPathLoop, if_neg hne2]
    | succ f =>
      rw [BuildPathLoop_step server f pid path node hne hfetch,
        ih node.m_pid _ hrest f (by omega)]
      rfl

theorem ReachesRoot_of_BuildPathLoop (server : ContentDirectoryService) :
    ∀ (fuel : Nat) (pid path : String) (log : List Event) (p : String),
      BuildPathLoop server fuel pid path = some ⟨log, Except.ok p⟩ →
      ∃ d, d ≤ fuel ∧ ReachesRoot server pid d := by
  intro fuel
  induction fuel with
  | zero =>
    intro pid path log p h
    by_cases hp : pid = rootid
    · exact ⟨0, Nat.le_refl _, hp⟩
    · rw [BuildPathLoop, if_neg hp] at h
      cases h
  | succ f ih =>
    intro pid path log p h
    by_cases hp : pid = rootid
    · exact ⟨0, Nat.zero_le _, hp⟩
    · rw [BuildPathLoop, if_neg hp] at h
      cases hr : (ReadNode server pid).res with
      | error e =>
        rw [hr] at h
        dsimp only at h
        cases h
      | ok dirent =>
        rw [hr] at h
        dsimp only at h
        cases hin : BuildPathLoop server f dirent.m_pid
            (if path = "" then dirent.name else PathTraitsUTF8.Build dirent.name path) with
        | none => rw [hin] at h; cases h
        | some r =>
          rw [hin] at h
          simp only [Option.map_some', Option.some.injEq] at h
          have hres : r.res = Except.ok p := congrArg Run.res h
          have hr2 : BuildPathLoop server f dirent.m_pid
              (if path = "" then dirent.name else PathTraitsUTF8.Build dirent.name path) =
              some ⟨r.log, Except.ok p⟩ := by rw [hin, ← hres]
          obtain ⟨d, hd, hreach⟩ := ih _ _ _ _ hr2
          exact ⟨d + 1, by omega, hp,
            dirent, (ReadNode_res_ok_iff server pid dirent).mp hr, hreach⟩

theorem BuildPathLoop_carousel :
    ∀ (fuel : Nat) (pid path : String), pid = "a" ∨ pid = "b" →
      BuildPathLoop carousel fuel pid path = none := by
  intro fuel
  induction fuel with
  | zero =>
    intro pid path h
    have hp : pid ≠ rootid := by rcases h with rfl | rfl <;> decide
    rw [BuildPathLoop, if_neg hp]
  | succ f ih =>
    intro pid path h
    rcases h with rfl | rfl
    · rw [BuildPathLoop_step carousel f "a" path carouselA (by decide) rfl,
        ih carouselA.m_pid _ (Or.inr rfl)]
      rfl
    · rw [BuildPathLoop_step carousel f "b" path carouselB (by decide) rfl,
        ih carouselB.m_pid _ (Or.inl rfl)]
      rfl

/-- C24. When the parent chain of the node reaches the root id `0` after `d`
by-id fetches, `BuildPath` terminates: allowed at least `d` iterations, its
loop ends with success after exactly `d` metadata fetches and no other call,
and allowed fewer it is still running. Conversely a successful end of the
loop within some number of iterations means that the parent chain reaches
the root id within that many fetches. On the server `Carousel`, where two
nodes are each other's parent, the loop is still running after any number of
iterations. -/
theorem BuildPath_terminates_iff_chain_reaches_root (server : ContentDirectoryService)
    (n : UPnPDirObject) (d : Nat) :
    (ReachesRoot server n.m_id d → ∀ fuel, d ≤ fuel →
      ∃ (log : List Event) (path : String),
        BuildPath server fuel n = some ⟨log, Except.ok path⟩ ∧ log.length = d ∧
        ∀ ev ∈ log, ∃ objid, ev = Event.getMetadata server.friendlyName objid) ∧
    (ReachesRoot server n.m_id d → ∀ fuel, fuel < d → BuildPath server fuel n = none) ∧
    (∀ fuel log path, BuildPath server fuel n = some ⟨log, Except.ok path⟩ →
      ∃ k, k ≤ fuel ∧ ReachesRoot server n.m_id k) ∧
    (∀ fuel, BuildPath carousel fuel carouselA = none) := by
  refine ⟨?_, ?_, ?_, ?_⟩
  · intro h fuel hfuel
    obtain ⟨log, p, hrun, hlen, hev⟩ :=
      BuildPathLoop_of_ReachesRoot server d n.m_id "" h (fuel - d)
    have hf : d + (fuel - d) = fuel := by omega
    rw [hf] at hrun
    refine ⟨log, PathTraitsUTF8.Build server.friendlyName p, ?_, hlen, hev⟩
    unfold BuildPath
    rw [hrun]
    simp [Run.andThen, Run.ret]
  · intro h fuel hfuel
    unfold BuildPath
    rw [BuildPathLoop_needs_fuel server d n.m_id "" h fuel hfuel]
    rfl
  · intro fuel log path h
    unfold BuildPath at h
    cases hl : BuildPathLoop server fuel n.m_id "" with
    | none => rw [hl] at h; cases h
    | some r =>
      rw [hl] at h
      simp only [Option.map_some', Option.some.injEq] at h
      cases hr : r.res with
      | error e =>
        rw [Run.andThen_error _ e _ hr] at h
        have := congrArg Run.res h
        cases this
      | ok p =>
        have hl2 : BuildPathLoop server fuel n.m_id "" = some ⟨r.log, Except.ok p⟩ := by
          rw [hl, ← hr]
        exact ReachesRoot_of_BuildPathLoop server fuel n.m_id "" r.log p hl2
  · intro fuel
    unfold BuildPath
    rw [BuildPathLoop_carousel fuel carouselA.m_id "" (Or.inl rfl)]
    rfl

/-- C24 on `Shelf`: the song `XYZ123` lies two levels below the root, and
`BuildPath` ends after two fetches. -/
theorem BuildPath_terminates_iff_chain_reaches_root_witness :
    ReachesRoot shelf sampleSong.m_id 2 ∧
    (∃ (log : List Event) (path : String),
      BuildPath shelf 2 sampleSong = some ⟨log, Except.ok path⟩ ∧ log.length = 2 ∧
      ∀ ev ∈ log, ∃ objid, ev = Event.getMetadata shelf.friendlyName objid) ∧
    BuildPath shelf 1 sampleSong = none :=
  have h : ReachesRoot shelf sampleSong.m_id 2 :=
    ⟨by decide, sampleSong, rfl, by decide, sampleContainer, rfl, rfl⟩
  ⟨h,
    (BuildPath_terminates_iff_chain_reaches_root shelf sampleSong 2).1 h 2 (Nat.le_refl 2),
    (BuildPath_terminates_iff_chain_reaches_root shelf sampleSong 2).2.1 h 1 (by decide)⟩

/-! ## Selections without a filter, and the album artist -/

theorem uniqueTagsServersLoop_without_filter (upnp_tags : List (String × TagType))
    (selection : DatabaseSelection) (tag : TagType) (hfilter : selection.filter = none)
    (servers : List ContentDirectoryService) :
    ∀ values : List String,
      uniqueTagsServersLoop upnp_tags selection tag values servers =
        ⟨[], Except.ok values⟩ := by
  induction servers with
  | nil => intro values; rfl
  | cons server rest ih =>
    intro values
    have hd : SearchSongs_dirbuf upnp_tags server rootid selection = ⟨[], Except.ok []⟩ := by
      unfold SearchSongs_dirbuf
      rw [hfilter]
      rfl
    show Run.andThen (SearchSongs_dirbuf upnp_tags server rootid selection)
      (fun dirbuf => uniqueTagsServersLoop upnp_tags selection tag
        (collectLoop tag values dirbuf) rest) = _
    rw [hd, Run.andThen_ok _ [] _ rfl]
    have hc : collectLoop tag values [] = values := rfl
    rw [hc, ih values]
    rfl

/-- C25. When the selection carries no filter, the buffer-filling
`SearchSongs` succeeds with an empty result without a single call; and
`VisitUniqueTags` takes the snapshot of the registry and nothing else: with
the snapshot it succeeds without calling a server or the string callback,
and without it it fails with the error of the registry. -/
theorem SearchSongs_without_filter_finds_nothing (upnp_tags : List (String × TagType))
    (m_superdir : UPnPDeviceDirectory) (selection : DatabaseSelection) (tag : TagType)
    (hfilter : selection.filter = none) :
    (∀ (server : ContentDirectoryService) (objid : String),
      SearchSongs_dirbuf upnp_tags server objid selection = ⟨[], Except.ok []⟩) ∧
    (∀ servers cb, m_superdir.getDirServices = Except.ok servers →
      VisitUniqueTags upnp_tags m_superdir selection tag (some cb) =
        ⟨[Event.getDirServices], Except.ok ()⟩) ∧
    (∀ e cb, m_superdir.getDirServices = Except.error e →
      VisitUniqueTags upnp_tags m_superdir selection tag (some cb) =
        ⟨[Event.getDirServices], Except.error e⟩) ∧
    VisitUniqueTags upnp_tags m_superdir selection tag none = ⟨[], Except.ok ()⟩ := by
  refine ⟨?_, ?_, ?_, rfl⟩
  · intro server objid
    unfold SearchSongs_dirbuf
    rw [hfilter]
    rfl
  · intro servers cb hservers
    show Run.andThen (Run.call Event.getDirServices m_superdir.getDirServices) _ = _
    rw [Run.call_andThen_ok _ _ _ _ hservers]
    show (⟨_ :: (Run.andThen (uniqueTagsServersLoop upnp_tags selection tag [] servers) _).log,
      (Run.andThen (uniqueTagsServersLoop upnp_tags selection tag [] servers) _).res⟩ :
        Run Unit) = _
    rw [uniqueTagsServersLoop_without_filter upnp_tags selection tag hfilter servers [],
      Run.andThen_ok _ [] _ rfl]
    rfl
  · intro e cb herr
    show Run.andThen (Run.call Event.getDirServices m_superdir.getDirServices) _ = _
    rw [Run.call_andThen_error _ _ e _ herr]

/-- C25 on the directory of `Stereo` and `Radio`, whose songs have an
artist: without a filter nothing is searched and nothing emitted. -/
theorem SearchSongs_without_filter_finds_nothing_witness :
    (⟨"", true, none⟩ : DatabaseSelection).filter = none ∧
    SearchSongs_dirbuf sample_upnp_tags stereo "0" ⟨"", true, none⟩ = ⟨[], Except.ok []⟩ ∧
    VisitUniqueTags sample_upnp_tags sampleDirectory ⟨"", true, none⟩ TagType.TAG_ARTIST
        (some acceptAll) = ⟨[Event.getDirServices], Except.ok ()⟩ :=
  have h := SearchSongs_without_filter_finds_nothing sample_upnp_tags sampleDirectory
    ⟨"", true, none⟩ TagType.TAG_ARTIST rfl
  ⟨rfl, h.1 stereo "0", h.2.1 [stereo, radio] acceptAll rfl⟩

theorem criterionQuery_album_artist (upnp_tags : List (String × TagType))
    (fields : List String) (fold_case : Bool) (value : String) :
    criterionQuery upnp_tags fields
        ⟨LocateTag.tag TagType.TAG_ALBUM_ARTIST, fold_case, value⟩ =
      criterionQuery upnp_tags fields ⟨LocateTag.tag TagType.TAG_ARTIST, fold_case, value⟩ := by
  simp [criterionQuery, lookupTag]

/-- C27. A criterion on the album artist is translated to the same query
text as the criterion on the artist with the same value and flag, alone or
in front of any further criteria and after any condition built so far, and
the two filters make `SearchSongs` issue the same calls with the same
result. -/
theorem album_artist_is_translated_as_artist (upnp_tags : List (String × TagType))
    (fields : List String) (fold_case : Bool) (value : String) :
    condLoop upnp_tags fields ""
        [⟨LocateTag.tag TagType.TAG_ALBUM_ARTIST, fold_case, value⟩] =
      condLoop upnp_tags fields "" [⟨LocateTag.tag TagType.TAG_ARTIST, fold_case, value⟩] ∧
    (∀ (cond : String) (items : List SongFilterItem),
      condLoop upnp_tags fields cond
          (⟨LocateTag.tag TagType.TAG_ALBUM_ARTIST, fold_case, value⟩ :: items) =
        condLoop upnp_tags fields cond
          (⟨LocateTag.tag TagType.TAG_ARTIST, fold_case, value⟩ :: items)) ∧
    (∀ (server : ContentDirectoryService) (objid uri : String) (recursive : Bool)
        (matchSong : UpnpSong → Bool),
      SearchSongs_dirbuf upnp_tags server objid
          ⟨uri, recursive,
            some ⟨[⟨LocateTag.tag TagType.TAG_ALBUM_ARTIST, fold_case, value⟩], matchSong⟩⟩ =
        SearchSongs_dirbuf upnp_tags server objid
          ⟨uri, recursive,
            some ⟨[⟨LocateTag.tag TagType.TAG_ARTIST, fold_case, value⟩], matchSong⟩⟩) := by
  have hstep : ∀ (caps : List String) (cond : String) (items : List SongFilterItem),
      condLoop upnp_tags caps cond
          (⟨LocateTag.tag TagType.TAG_ALBUM_ARTIST, fold_case, value⟩ :: items) =
        condLoop upnp_tags caps cond
          (⟨LocateTag.tag TagType.TAG_ARTIST, fold_case, value⟩ :: items) := by
    intro caps cond items
    rw [condLoop_cons, condLoop_cons, criterionQuery_album_artist]
  refine ⟨hstep fields "" [], hstep fields, ?_⟩
  intro server objid uri recursive matchSong
  unfold SearchSongs_dirbuf
  dsimp only
  show Run.andThen (Run.call _ server.getSearchCapabilities) _ =
    Run.andThen (Run.call _ server.getSearchCapabilities) _
  congr 1

/-! ## Recursive listing without a filter, and server-only paths -/

/-- C26. On a path that does not begin with `0` and that `Namei` resolves to
the Container `t`, with a selection that is recursive and carries no filter,
an item callback and a listing of `t` that succeeds with children of the
kinds Container and Item, `VisitServer` lists `t` once and goes through the
children in order, stopping at the first callback that fails; the call for
a music item is the item callback on the song with the empty string as its
path. The empty path has no segments, and `GetSong` on it fails with
`DB_NOT_FOUND`. -/
theorem VisitServer_recursive_without_filter_gives_empty_paths
    (upnp_tags : List (String × TagType))
    (server : ContentDirectoryService) (vpath : List String) (selection : DatabaseSelection)
    (t : UPnPDirObject) (children : List UPnPDirObject)
    (visit_directory : Visitor String) (cb : UpnpSong → Except Error Unit)
    (visit_playlist : Visitor String)
    (hnav : vpath.head? ≠ some "0")
    (hN : (Namei server vpath).res = Except.ok t) (ht : t.type = ObjType.CONTAINER)
    (hrec : selection.recursive = true) (hfilter : selection.filter = none)
    (hlist : server.readDir t.m_id = Except.ok children)
    (hkinds : ∀ child ∈ children, child.type ≠ ObjType.UNKNOWN) :
    VisitServer upnp_tags server vpath selection visit_directory (some cb) visit_playlist =
      ⟨(Namei server vpath).log ++ Event.readDir server.friendlyName t.m_id ::
          (callsUntilFailure Prod.snd
            (children.filterMap (childCall selection visit_directory (some cb)))).map
            Prod.fst,
        firstFailure Prod.snd
          (children.filterMap (childCall selection visit_directory (some cb)))⟩ ∧
    (∀ child, child.type = ObjType.ITEM → child.item_class = ItemClass.MUSIC →
      childCall selection visit_directory (some cb) child =
        some (Event.visit_song ⟨"", child.url, child.tag⟩, cb ⟨"", child.url, child.tag⟩)) ∧
    stringToTokens "" = [] ∧
    (∀ m_superdir : UPnPDeviceDirectory,
      GetSong m_superdir "" =
        ⟨[], Except.error ⟨Domain.db_domain, DB_NOT_FOUND, "No such song: "⟩⟩) := by
  refine ⟨?_, ?_, rfl, fun _ => rfl⟩
  · rw [VisitServer_navigable _ _ _ _ _ _ _ hnav,
      VisitServerTarget_of_Namei_ok _ _ _ _ _ _ _ t hN _ rfl]
    have h1 : ¬ (selection.recursive = true ∧ selection.filter.isSome = true) := by
      rintro ⟨_, hf⟩
      rw [hfilter] at hf
      cases hf
    have h2 : ¬ t.type = ObjType.ITEM := by rw [ht]; decide
    rw [if_neg h1, if_neg h2, Run.call_andThen_ok _ _ _ _ hlist,
      visitServerLoop_eq _ _ _ _ _ hkinds]
  · intro child hc hm
    have hmatch : ∀ song, selection.Match song = true := by
      intro song
      unfold DatabaseSelection.Match
      rw [hfilter]
    unfold childCall
    rw [hc]
    simp only [hm, if_true, hrec, hmatch]
    rfl

/-- C26 on `Stereo` and the path `Music`, recursive and without a filter:
the two songs are handed over with the empty path. -/
theorem VisitServer_recursive_without_filter_gives_empty_paths_witness :
    (Namei stereo ["Music"]).res = Except.ok sampleContainer ∧
    VisitServer sample_upnp_tags stereo ["Music"] ⟨"Stereo/Music", true, none⟩
        (some acceptAll) (some acceptAll) (some acceptAll) =
      ⟨(Namei stereo ["Music"]).log ++
        [Event.readDir "Stereo" "7",
         Event.visit_song ⟨"", sampleSong.url, sampleSong.tag⟩,
         Event.visit_song ⟨"", sampleSlashSong.url, sampleSlashSong.tag⟩],
       Except.ok ()⟩ :=
  have hN : (Namei stereo ["Music"]).res = Except.ok sampleContainer := by
    unfold Namei NameiLoop
    rfl
  ⟨hN,
    (VisitServer_recursive_without_filter_gives_empty_paths sample_upnp_tags stereo ["Music"]
      ⟨"Stereo/Music", true, none⟩ sampleContainer
      [sampleSong, samplePlaylist, sampleSlashSong]
      (some acceptAll) acceptAll (some acceptAll) (by decide) hN rfl rfl rfl rfl
      (by decide)).1.trans rfl⟩

theorem GetSong_of_short_path (m_superdir : UPnPDeviceDirectory) (uri : String)
    (h : (stringToTokens uri).length < 2) :
    GetSong m_superdir uri =
      ⟨[], Except.error ⟨Domain.db_domain, DB_NOT_FOUND, "No such song: " ++ uri⟩⟩ := by
  unfold GetSong
  match htok : stringToTokens uri, h with
  | [], _ => rfl
  | [_], _ => rfl
  | _ :: _ :: _, h2 => exact absurd h2 (by simp)

/-- C28. When the uri has fewer than two segments, `GetSong` fails in the
database domain with `DB_NOT_FOUND` without a single call: no lookup of the
server, no remote call. The empty uri is such a uri. `Visit` on a uri that
is one server name, resolved by the registry to `server`, looks the server
up and visits it with the empty path, which starts with the by-id fetch of
the root id `0`: when that fetch fails `Visit` fails with its error, and
when it returns a Container and the selection is not recursive `Visit` goes
on to list that node and to visit its children. -/
theorem GetSong_fails_on_server_only_path (upnp_tags : List (String × TagType))
    (m_superdir : UPnPDeviceDirectory) (selection : DatabaseSelection)
    (visit_directory : Visitor String) (visit_song : Visitor UpnpSong)
    (visit_playlist : Visitor String) :
    ((stringToTokens selection.uri).length < 2 →
      GetSong m_superdir selection.uri =
        ⟨[], Except.error
          ⟨Domain.db_domain, DB_NOT_FOUND, "No such song: " ++ selection.uri⟩⟩) ∧
    (stringToTokens "" = [] ∧
      GetSong m_superdir "" =
        ⟨[], Except.error ⟨Domain.db_domain, DB_NOT_FOUND, "No such song: "⟩⟩) ∧
    (∀ servername server, stringToTokens selection.uri = [servername] →
      m_superdir.getServer servername = Except.ok server →
      GetSong m_superdir selection.uri =
        ⟨[], Except.error
          ⟨Domain.db_domain, DB_NOT_FOUND, "No such song: " ++ selection.uri⟩⟩ ∧
      (∀ e, server.getMetadata "0" = Except.error e →
        Visit upnp_tags m_superdir selection visit_directory visit_song visit_playlist =
          ⟨[Event.getServer servername, Event.getMetadata server.friendlyName "0"],
            Except.error e⟩) ∧
      (∀ root children, server.getMetadata "0" = Except.ok [root] →
        root.type = ObjType.CONTAINER → selection.recursive = false →
        server.readDir root.m_id = Except.ok children →
        (∀ child ∈ children, child.type ≠ ObjType.UNKNOWN) →
        Visit upnp_tags m_superdir selection visit_directory visit_song visit_playlist =
          ⟨Event.getServer servername :: Event.getMetadata server.friendlyName "0" ::
              Event.readDir server.friendlyName root.m_id ::
              (callsUntilFailure Prod.snd
                (children.filterMap (childCall selection visit_directory visit_song))).map
                Prod.fst,
            firstFailure Prod.snd
              (children.filterMap (childCall selection visit_directory visit_song))⟩)) := by
  refine ⟨GetSong_of_short_path m_superdir selection.uri, ⟨rfl, rfl⟩, ?_⟩
  intro servername server hpath hserver
  have hV : Visit upnp_tags m_superdir selection visit_directory visit_song visit_playlist =
      ⟨Event.getServer servername ::
          (VisitServerTarget upnp_tags server [] selection visit_directory visit_song
            visit_playlist).log,
        (VisitServerTarget upnp_tags server [] selection visit_directory visit_song
          visit_playlist).res⟩ := by
    unfold Visit
    rw [hpath]
    show Run.andThen (Run.call _ (m_superdir.getServer servername)) _ = _
    rw [Run.call_andThen_ok _ _ server _ hserver]
    rfl
  refine ⟨GetSong_of_short_path m_superdir selection.uri (by rw [hpath]; exact Nat.lt_succ_self 1), ?_, ?_⟩
  · intro e he
    rw [hV]
    have hN : Namei server [] = ⟨[Event.getMetadata server.friendlyName "0"],
        Except.error e⟩ := by
      show ReadNode server "0" = _
      rw [ReadNode_eq, he]
    have hT : VisitServerTarget upnp_tags server [] selection visit_directory visit_song
        visit_playlist = ⟨[Event.getMetadata server.friendlyName "0"], Except.error e⟩ := by
      show Run.andThen (Namei server []) _ = _
      rw [hN, Run.andThen_error _ e _ rfl]
    rw [hT]
  · intro root children hroot hcont hrec hlist hkinds
    rw [hV]
    have hN : Namei server [] = ⟨[Event.getMetadata server.friendlyName "0"],
        Except.ok root⟩ := ReadNode_of_one server "0" root hroot
    have hT := VisitServerTarget_of_Namei_ok upnp_tags server [] selection visit_directory
      visit_song visit_playlist root (by rw [hN]) _ rfl
    have h1 : ¬ (selection.recursive = true ∧ selection.filter.isSome = true) := by
      rintro ⟨hr, _⟩
      rw [hrec] at hr
      cases hr
    have h2 : ¬ root.type = ObjType.ITEM := by rw [hcont]; decide
    rw [if_neg h1, if_neg h2, Run.call_andThen_ok _ _ _ _ hlist,
      visitServerLoop_eq _ _ _ _ _ hkinds, hN] at hT
    rw [hT]
    rfl

/-- C28 on the directory of `Cellar` and the uri `Cellar`: `GetSong` fails
without a call, `Visit` fetches the root, lists it and hands the container
`Music` to the directory callback. -/
theorem GetSong_fails_on_server_only_path_witness :
    stringToTokens "Cellar" = ["Cellar"] ∧
    GetSong cellarDirectory "Cellar" =
      ⟨[], Except.error ⟨Domain.db_domain, DB_NOT_FOUND, "No such song: Cellar"⟩⟩ ∧
    Visit sample_upnp_tags cellarDirectory ⟨"Cellar", false, none⟩ (some acceptAll)
        (some acceptAll) (some acceptAll) =
      ⟨[Event.getServer "Cellar", Event.getMetadata "Cellar" "0",
        Event.readDir "Cellar" "0", Event.visit_directory "Cellar/Music"],
       Except.ok ()⟩ :=
  have h := (GetSong_fails_on_server_only_path sample_upnp_tags cellarDirectory
    ⟨"Cellar", false, none⟩ (some acceptAll) (some acceptAll) (some acceptAll)).2.2
    "Cellar" cellar (by decide) rfl
  ⟨by decide, h.1.trans rfl,
    (h.2.2 cellarRoot [sampleContainer] rfl rfl rfl rfl (by decide)).trans rfl⟩

/-! ## `Visit` without an item callback -/

theorem mem_andThen_log {α β : Type} (x : Run α) (f : α → Run β) (ev : Event)
    (h : ev ∈ (Run.andThen x f).log) :
    ev ∈ x.log ∨ ∃ a, x.res = Except.ok a ∧ ev ∈ (f a).log := by
  cases hr : x.res with
  | error e =>
    rw [Run.andThen_error _ e _ hr] at h
    exact Or.inl h
  | ok a =>
    rw [Run.andThen_ok _ a _ hr] at h
    rcases List.mem_append.mp h with h1 | h1
    · exact Or.inl h1
    · exact Or.inr ⟨a, rfl, h1⟩

theorem NameiLoop_log_quiet (server : ContentDirectoryService) (rest : List String) :
    ∀ (objid seg : String), ∀ ev ∈ (NameiLoop server objid seg rest).log,
      ev.isSearch = false ∧ ev.isCallback = false := by
  induction rest with
  | nil =>
    intro objid seg ev hev
    rw [NameiLoop_last_log] at hev
    rw [List.mem_singleton.mp hev]
    exact ⟨rfl, rfl⟩
  | cons next rest2 ih =>
    intro objid seg ev hev
    rw [NameiLoop_eq] at hev
    cases hr : server.readDir objid with
    | error e =>
      rw [hr] at hev
      rw [List.mem_singleton.mp hev]
      exact ⟨rfl, rfl⟩
    | ok dirbuf =>
      rw [hr] at hev
      dsimp only at hev
      cases hf : FindObject dirbuf seg with
      | none =>
        rw [hf] at hev
        rw [List.mem_singleton.mp hev]
        exact ⟨rfl, rfl⟩
      | some child =>
        rw [hf] at hev
        dsimp only at hev
        by_cases hc : child.type ≠ ObjType.CONTAINER
        · rw [if_pos hc] at hev
          rw [List.mem_singleton.mp hev]
          exact ⟨rfl, rfl⟩
        · rw [if_neg hc] at hev
          rcases List.mem_cons.mp hev with h1 | h1
          · rw [h1]
            exact ⟨rfl, rfl⟩
          · exact ih child.m_id next ev h1

theorem Namei_log_quiet (server : ContentDirectoryService) (vpath : List String) :
    ∀ ev ∈ (Namei server vpath).log, ev.isSearch = false ∧ ev.isCallback = false := by
  cases vpath with
  | nil =>
    intro ev hev
    have hl : (Namei server []).log = [Event.getMetadata server.friendlyName rootid] := by
      show (ReadNode server rootid).log = _
      rw [ReadNode_eq]
    rw [hl] at hev
    rw [List.mem_singleton.mp hev]
    exact ⟨rfl, rfl⟩
  | cons seg rest => exact NameiLoop_log_quiet server rest rootid seg

theorem VisitServer_quiet_without_item_callback (upnp_tags : List (String × TagType))
    (server : ContentDirectoryService) (vpath : List String) (selection : DatabaseSelection)
    (filter : SongFilter) (visit_directory : Visitor String) (visit_playlist : Visitor String)
    (hrec : selection.recursive = true) (hfilter : selection.filter = some filter) :
    ∀ ev ∈ (VisitServer upnp_tags server vpath selection visit_directory none
        visit_playlist).log,
      ev.isSearch = false ∧ ev.isCallback = false := by
  have hcond : selection.recursive = true ∧ selection.filter.isSome = true := by
    rw [hrec, hfilter]
    exact ⟨rfl, rfl⟩
  have hT : ∀ ev ∈ (VisitServerTarget upnp_tags server vpath selection visit_directory none
      visit_playlist).log, ev.isSearch = false ∧ ev.isCallback = false := by
    intro ev hev
    change ev ∈ (Run.andThen (Namei server vpath) _).log at hev
    rcases mem_andThen_log _ _ ev hev with h1 | ⟨t, _, h1⟩
    · exact Namei_log_quiet server vpath ev h1
    · dsimp only at h1
      rw [if_pos hcond] at h1
      cases h1
  unfold VisitServer
  cases vpath with
  | nil => exact hT
  | cons front rest =>
    dsimp only
    split
    · intro ev hev
      cases hev
    · exact hT

theorem visitServersLoop_quiet_without_item_callback (upnp_tags : List (String × TagType))
    (selection : DatabaseSelection) (filter : SongFilter)
    (visit_directory : Visitor String) (visit_playlist : Visitor String)
    (hrec : selection.recursive = true) (hfilter : selection.filter = some filter)
    (servers : List ContentDirectoryService) :
    ∀ ev ∈ (visitServersLoop upnp_tags [] selection visit_directory none visit_playlist
        servers).log,
      ev.isSearch = false ∧ ev.isCallback = false := by
  induction servers with
  | nil => intro ev hev; cases hev
  | cons server rest ih =>
    intro ev hev
    change ev ∈ (Run.andThen (VisitServer upnp_tags server [] selection visit_directory none
      visit_playlist) _).log at hev
    rcases mem_andThen_log _ _ ev hev with h1 | ⟨_, _, h1⟩
    · exact VisitServer_quiet_without_item_callback upnp_tags server [] selection filter
        visit_directory visit_playlist hrec hfilter ev h1
    · exact ih ev h1

/-- C22. Without an item callback: on a path whose server name the registry
resolves and whose next segment is `0`, `Visit` looks the server up and
returns success without a single call to the server; with a selection that
is recursive and carries a filter, no call of `Visit` is the capability
query or the search of a server, and no call is a callback; and the visiting
`SearchSongs` returns success without any call. -/
theorem Visit_without_item_callback_skips_item_calls (upnp_tags : List (String × TagType))
    (m_superdir : UPnPDeviceDirectory) (selection : DatabaseSelection)
    (visit_directory : Visitor String) (visit_playlist : Visitor String) :
    (∀ servername rest server, stringToTokens selection.uri = servername :: "0" :: rest →
      m_superdir.getServer servername = Except.ok server →
      Visit upnp_tags m_superdir selection visit_directory none visit_playlist =
        ⟨[Event.getServer servername], Except.ok ()⟩) ∧
    (∀ filter, selection.recursive = true → selection.filter = some filter →
      ∀ ev ∈ (Visit upnp_tags m_superdir selection visit_directory none visit_playlist).log,
        ev.isSearch = false ∧ ev.isCallback = false) ∧
    (∀ (server : ContentDirectoryService) (objid : String),
      SearchSongs upnp_tags server objid selection none = ⟨[], Except.ok ()⟩) := by
  refine ⟨?_, ?_, fun _ _ => rfl⟩
  · intro servername rest server hpath hserver
    unfold Visit
    rw [hpath]
    show Run.andThen (Run.call _ (m_superdir.getServer servername)) _ = _
    rw [Run.call_andThen_ok _ _ server _ hserver]
    have hV : VisitServer upnp_tags server ("0" :: rest) selection visit_directory none
        visit_playlist = ⟨[], Except.ok ()⟩ := by
      unfold VisitServer
      have h0 : ("0" : String) = rootid := rfl
      simp only [h0, if_true]
      rfl
    rw [hV]
  · intro filter hrec hfilter ev hev
    unfold Visit at hev
    cases hpath : stringToTokens selection.uri with
    | nil =>
      rw [hpath] at hev
      change ev ∈ (Run.andThen (Run.call Event.getDirServices m_superdir.getDirServices)
        _).log at hev
      rcases mem_andThen_log _ _ ev hev with h1 | ⟨servers, _, h1⟩
      · rw [List.mem_singleton.mp h1]
        exact ⟨rfl, rfl⟩
      · simp only [hrec, not_true_eq_false, if_false] at h1
        exact visitServersLoop_quiet_without_item_callback upnp_tags selection filter
          visit_directory visit_playlist hrec hfilter servers ev h1
    | cons servername vpath =>
      rw [hpath] at hev
      change ev ∈ (Run.andThen (Run.call _ (m_superdir.getServer servername)) _).log at hev
      rcases mem_andThen_log _ _ ev hev with h1 | ⟨server, _, h1⟩
      · rw [List.mem_singleton.mp h1]
        exact ⟨rfl, rfl⟩
      · exact VisitServer_quiet_without_item_callback upnp_tags server vpath selection filter
          visit_directory visit_playlist hrec hfilter ev h1

/-- C22 on `Stereo`: the direct path `Stereo/0/XYZ123` costs the lookup of
the server only, and the recursive filtered visit of `Stereo/Music` costs
the lookup and the listing that resolves the path. -/
theorem Visit_without_item_callback_skips_item_calls_witness :
    stringToTokens "Stereo/0/XYZ123" = ["Stereo", "0", "XYZ123"] ∧
    Visit sample_upnp_tags sampleDirectory ⟨"Stereo/0/XYZ123", false, none⟩ (some acceptAll)
        none (some acceptAll) = ⟨[Event.getServer "Stereo"], Except.ok ()⟩ ∧
    (∀ ev ∈ (Visit sample_upnp_tags sampleDirectory ⟨"Stereo/Music", true, some sampleFilter⟩
        (some acceptAll) none (some acceptAll)).log,
      ev.isSearch = false ∧ ev.isCallback = false) :=
  ⟨by decide,
    (Visit_without_item_callback_skips_item_calls sample_upnp_tags sampleDirectory
      ⟨"Stereo/0/XYZ123", false, none⟩ (some acceptAll) (some acceptAll)).1
      "Stereo" ["XYZ123"] stereo (by decide) rfl,
    (Visit_without_item_callback_skips_item_calls sample_upnp_tags sampleDirectory
      ⟨"Stereo/Music", true, some sampleFilter⟩ (some acceptAll) (some acceptAll)).2.1
      sampleFilter rfl rfl⟩

end Upnp
